import Mathlib

/-!
# Relay conformance harness (`integration_tests/utils_ibc.go`)

A shallow embedding of the cross-chain relay conformance harness and the
properties established about it.

Conventions of the embedding

* Go `int64` values are integers reduced with `wrapInt64`; Go `uint64`
  values are naturals reduced with `wrapUint64`.
* Calls to external collaborators (chains, relayer, test reporter, pollers)
  are answered by oracles.  Every such oracle receives the history of calls
  made so far, so its answer may change from call to call.  Every call is
  appended to that history together with its arguments and whether it
  succeeded.  The structural validators and the fee conversion are pure.
* `require.NoError` and `require.True` stop the calling goroutine
  (`t.FailNow`); a function that can be stopped this way returns a `Verdict`.
* Concurrent parts are listed in one order: the setup hooks in launch
  order, the subtests in the order of the test cases.  The two direction
  tasks of a transfer dispatch each see the history at the fork followed by
  their own calls.
-/

namespace IntegrationTests

/-! ## Machine integers -/

/-- Two's complement reduction of an integer to the range of Go `int64`. -/
def wrapInt64 (x : Int) : Int := (x + 2 ^ 63) % 2 ^ 64 - 2 ^ 63

/-- Reduction of a natural number to the range of Go `uint64`. -/
def wrapUint64 (n : Nat) : Nat := n % 2 ^ 64

def userFaucetFund : Int := 10000000000

def testCoinAmount : Int := 1000000

def pollHeightMax : Nat := 50

/-! ## Relayer capabilities and the capability gate (lines 82-102) -/

/-- The capability enumeration of the `relayer` package. -/
inductive Capability where
  | TimestampTimeout
  | HeightTimeout
  | Flush
  deriving DecidableEq, Repr

/-- The part of `interchaintest.RelayerFactory` the harness consults.
`Capabilities c` is the Go map lookup `caps[c]`, which is `false` for a
capability that is absent from the map. -/
structure RelayerFactory where
  Name : String
  Capabilities : Capability → Bool

/-- Lines 93-102: the loop appends every required capability whose map lookup
is not `true`. -/
def missingCapabilities (rf : RelayerFactory) (reqCaps : List Capability) : List Capability :=
  reqCaps.foldl (fun missing c => if !rf.Capabilities c then missing ++ [c] else missing) []

/-! ## Data model (lines 33-55 and the records of the `ibc` package) -/

/-- The counterparty view inside `ibc.ChannelOutput`. -/
structure ChannelCounterparty where
  PortID : String
  ChannelID : String
  deriving DecidableEq, Repr

/-- The fields of `ibc.ChannelOutput` the harness reads. -/
structure ChannelOutput where
  PortID : String
  ChannelID : String
  Counterparty : ChannelCounterparty
  deriving DecidableEq, Repr

/-- The packet reference of a transfer; the harness only hands it on to the
pollers. -/
structure Packet where
  Sequence : Nat
  SourceChannel : String
  DestChannel : String
  deriving DecidableEq, Repr

/-- The record `ibc.Tx`: `Height` is a `uint64`, `GasSpent` an `int64`. -/
structure Tx where
  Height : Nat
  TxHash : String
  GasSpent : Int
  Packet : Packet
  deriving DecidableEq, Repr

/-- The record `ibc.IBCTimeout`. -/
structure IBCTimeout where
  NanoSeconds : Nat
  Height : Nat
  deriving DecidableEq, Repr

/-- The record `ibc.WalletAmount`. -/
structure WalletAmount where
  Address : String
  Denom : String
  Amount : Int
  deriving DecidableEq, Repr

/-- The fields of `ibc.ChainConfig` the harness reads. -/
structure ChainConfig where
  ChainID : String
  Bech32Prefix : String
  Denom : String
  deriving DecidableEq, Repr

/-- A wallet: its key name and its address formatter
(`FormattedAddressWithPrefix`). -/
structure Wallet where
  KeyName : String
  FormattedAddressWithPrefix : String → String

/-- The acknowledgement returned by `testutil.PollForAck`. -/
structure PacketAcknowledgement where
  Packet : Packet
  Acknowledgement : List Nat
  deriving DecidableEq, Repr

/-- The timeout returned by `testutil.PollForTimeout`. -/
structure PacketTimeout where
  Packet : Packet
  deriving DecidableEq, Repr

/-- Which of the two chain handles (`srcChain`, `dstChain`) a call goes to. -/
inductive ChainSide where
  | src
  | dst
  deriving DecidableEq, Repr

/-- Lines 33-36. -/
structure TxCache where
  Src : List Tx
  Dst : List Tx
  deriving DecidableEq, Repr

/-! ## Calls to the collaborators -/

/-- One call made by the harness, with its arguments and whether it
succeeded. -/
inductive Event where
  | stopRelayer (ok : Bool)
  | getTransferChannel (srcChainID dstChainID : String) (ok : Bool)
  | preRelayerStart (index : Nat) (channels : List ChannelOutput)
  | preRelayerStartDone (index : Nat)
  | startRelayer (pathNames : List String) (ok : Bool)
  | registerCleanup
  | sleep (seconds : Nat)
  | startChainPair (ok : Bool)
  | getAndFundTestUsers (keyNamePrefix : String) (amount : Int) (ok : Bool)
  | sendIBCTransfer (chain : ChainSide) (channelID keyName : String) (amount : WalletAmount)
      (timeout : Option IBCTimeout) (ok : Bool)
  | waitForBlocks (n : Nat) (chains : List ChainSide) (ok : Bool)
  | pollForAck (chain : ChainSide) (startHeight maxHeight : Nat) (packet : Packet) (ok : Bool)
  | pollForTimeout (chain : ChainSide) (startHeight maxHeight : Nat) (packet : Packet) (ok : Bool)
  | getBalance (chain : ChainSide) (address denom : String) (result : Option Int)
  | trackTest (name : String)
  | trackSkip (name : String)
  | trackParallel (name : String)
  deriving DecidableEq, Repr

/-- The history of calls. -/
abbrev Trace := List Event

/-- How a function that may call `t.FailNow` ends. -/
inductive Verdict where
  | passed
  | failed (msg : String)
  | panicked (msg : String)
  deriving DecidableEq, Repr

/-- The interface `ibc.Chain` as far as the harness uses it. An oracle that
takes a `Trace` is given the history of calls made before it. -/
structure Chain where
  Config : ChainConfig
  SendIBCTransfer : Trace → String → String → WalletAmount → Option IBCTimeout → Except String Tx
  GetBalance : Trace → String → String → Except String Int
  GetGasFeesInNativeDenom : Int → Int

/-- The interface `ibc.Relayer` as far as the harness uses it, together with
`ibc.GetTransferChannel`, which queries the relayer. `none` is a nil
error. -/
structure Relayer where
  StopRelayer : Trace → Option String
  GetTransferChannel : Trace → String → String → Except String ChannelOutput
  StartRelayer : Trace → List String → Option String

/-- The record `transfertypes.DenomTrace`. -/
structure DenomTrace where
  Path : String
  BaseDenom : String
  deriving DecidableEq, Repr

/-- The functions of the `transfertypes` package the harness calls. -/
structure TransferTypes where
  GetPrefixedDenom : String → String → String → String
  ParseDenomTrace : String → DenomTrace
  IBCDenom : DenomTrace → String

/-- Everything outside the harness: the two chains, the `testutil` pollers,
the user funding helper, the structural validators and the `transfertypes`
functions. -/
structure Env where
  srcChain : Chain
  dstChain : Chain
  WaitForBlocks : Trace → Nat → List ChainSide → Option String
  PollForAck : Trace → ChainSide → Nat → Nat → Packet → Except String PacketAcknowledgement
  PollForTimeout : Trace → ChainSide → Nat → Nat → Packet → Except String PacketTimeout
  GetAndFundTestUsers : Trace → String → Int → Option (List Wallet)
  StartChainPair : Trace → Except String Relayer
  TxValidate : Tx → Option String
  AckValidate : PacketAcknowledgement → Option String
  TimeoutValidate : PacketTimeout → Option String
  transfertypes : TransferTypes

/-- The chain handle behind a side. -/
def Env.chain (env : Env) : ChainSide → Chain
  | .src => env.srcChain
  | .dst => env.dstChain

/-- The mutable fields of `RelayerTestCase` (lines 40-43). -/
structure TestCaseState where
  Users : List Wallet
  TxCache : TxCache

/-- Lines 46-55. `PreRelayerStart` and `Test` receive the test case through
its mutable fields. `PreRelayerStart` returns them updated together with the
calls it made; `Test` returns the history extended by its calls. -/
structure RelayerTestCaseConfig where
  Name : String
  RequiredRelayerCapabilities : List Capability
  PreRelayerStart :
    Env → TestCaseState → List ChannelOutput → Trace → TestCaseState × List Event × Verdict
  Test : Env → TestCaseState → List ChannelOutput → Trace → Trace × Verdict

/-- Lines 38-44. -/
structure RelayerTestCase extends TestCaseState where
  Config : RelayerTestCaseConfig

/-! ## TransferDispatcher (lines 104-176) -/

/-- Lines 136-148 and 150-162: one direction task of the error group. It walks
the channel identifiers in order; `txs` holds the slots filled so far and
`evs` the calls this task has made. The oracles see the history `hist` at
the fork followed by the calls of this task. The result is the calls made
and either the task error or the filled slice. -/
def directionTask (env : Env) (side : ChainSide) (keyName : String) (coin : WalletAmount)
    (timeout : Option IBCTimeout) (errText : String) (hist : Trace) :
    List String → List Tx → List Event → List Event × Except String (List Tx)
  | [], txs, evs => (evs, .ok txs)
  | channelID :: rest, txs, evs =>
    match (env.chain side).SendIBCTransfer (hist ++ evs) channelID keyName coin timeout with
    | .error e =>
      (evs ++ [.sendIBCTransfer side channelID keyName coin timeout false], .error (errText ++ e))
    | .ok tx =>
      let evs1 := evs ++ [.sendIBCTransfer side channelID keyName coin timeout true]
      match env.WaitForBlocks (hist ++ evs1) 1 [side] with
      | some e => (evs1 ++ [.waitForBlocks 1 [side] false], .error e)
      | none =>
        directionTask env side keyName coin timeout errText hist rest (txs ++ [tx])
          (evs1 ++ [.waitForBlocks 1 [side] true])

/-- Lines 121-125: what the source user sends to its own address on the
destination chain. -/
def testCoinSrcToDst (env : Env) (srcUser : Wallet) : WalletAmount :=
  ⟨srcUser.FormattedAddressWithPrefix env.dstChain.Config.Bech32Prefix,
    env.srcChain.Config.Denom, testCoinAmount⟩

/-- Lines 126-130: what the destination user sends to its own address on the
source chain. -/
def testCoinDstToSrc (env : Env) (dstUser : Wallet) : WalletAmount :=
  ⟨dstUser.FormattedAddressWithPrefix env.srcChain.Config.Bech32Prefix,
    env.dstChain.Config.Denom, testCoinAmount⟩

/-- Lines 136-148: the task sending from the source chain over the channel
identifiers of the bindings. -/
def srcTask (env : Env) (srcUser : Wallet) (channels : List ChannelOutput)
    (timeout : Option IBCTimeout) (tr : Trace) : List Event × Except String (List Tx) :=
  directionTask env .src srcUser.KeyName (testCoinSrcToDst env srcUser) timeout
    "failed to send ibc transfer from source: " tr (channels.map (fun c => c.ChannelID)) [] []

/-- Lines 150-162: the task sending from the destination chain over the
counterparty channel identifiers of the bindings. -/
def dstTask (env : Env) (dstUser : Wallet) (channels : List ChannelOutput)
    (timeout : Option IBCTimeout) (tr : Trace) : List Event × Except String (List Tx) :=
  directionTask env .dst dstUser.KeyName (testCoinDstToSrc env dstUser) timeout
    "failed to send ibc transfer from destination: " tr
    (channels.map (fun c => c.Counterparty.ChannelID)) [] []

/-- Lines 104-176, with the history `tr` at the call; the result holds the
test case, the calls made and the verdict. The two direction tasks run
concurrently; the calls of the source task are listed before those of the
destination task. `eg.Wait()` yields the error of a failed task (the source
one when both fail). The cache is assigned on line 172 only. -/
def sendIBCTransfersFromBothChainsWithTimeout (env : Env) (testCase : TestCaseState)
    (channels : List ChannelOutput) (timeout : Option IBCTimeout) (tr : Trace) :
    TestCaseState × List Event × Verdict :=
  match testCase.Users[0]? with
  | none => (testCase, [], .panicked "index out of range [0]")
  | some srcUser =>
    match testCase.Users[1]? with
    | none => (testCase, [], .panicked "index out of range [1]")
    | some dstUser =>
      let srcRun := srcTask env srcUser channels timeout tr
      let dstRun := dstTask env dstUser channels timeout tr
      let evs := srcRun.1 ++ dstRun.1
      match srcRun.2, dstRun.2 with
      | .error e, _ => (testCase, evs, .failed e)
      | .ok _, .error e => (testCase, evs, .failed e)
      | .ok srcTxs, .ok dstTxs =>
        match srcTxs.findSome? env.TxValidate with
        | some e => (testCase, evs, .failed ("source ibc transfer tx is invalid: " ++ e))
        | none =>
          match dstTxs.findSome? env.TxValidate with
          | some e => (testCase, evs, .failed ("destination ibc transfer tx is invalid: " ++ e))
          | none => ({ testCase with TxCache := ⟨srcTxs, dstTxs⟩ }, evs, .passed)

/-- Whether a call succeeded; calls that cannot fail count as succeeded. -/
def Event.succeeded : Event → Bool
  | .stopRelayer ok => ok
  | .getTransferChannel _ _ ok => ok
  | .startRelayer _ ok => ok
  | .startChainPair ok => ok
  | .getAndFundTestUsers _ _ ok => ok
  | .sendIBCTransfer _ _ _ _ _ ok => ok
  | .waitForBlocks _ _ ok => ok
  | .pollForAck _ _ _ _ ok => ok
  | .pollForTimeout _ _ _ _ ok => ok
  | .getBalance _ _ _ result => result.isSome
  | _ => true

/-- The two calls of a completed iteration of a direction task: the send over
`channelID` and the wait for one block on the sending chain. -/
def settledSend (side : ChainSide) (keyName : String) (coin : WalletAmount)
    (timeout : Option IBCTimeout) (channelID : String) : List Event :=
  [.sendIBCTransfer side channelID keyName coin timeout true, .waitForBlocks 1 [side] true]

/-! ## Setup procedures (lines 333-356) -/

def preRelayerStart_RelayPacket (env : Env) (testCase : TestCaseState)
    (channels : List ChannelOutput) (tr : Trace) : TestCaseState × List Event × Verdict :=
  sendIBCTransfersFromBothChainsWithTimeout env testCase channels none tr

def preRelayerStart_NoTimeout (env : Env) (testCase : TestCaseState)
    (channels : List ChannelOutput) (tr : Trace) : TestCaseState × List Event × Verdict :=
  let ibcTimeoutDisabled : IBCTimeout := ⟨0, 0⟩
  sendIBCTransfersFromBothChainsWithTimeout env testCase channels (some ibcTimeoutDisabled) tr

def preRelayerStart_HeightTimeout (env : Env) (testCase : TestCaseState)
    (channels : List ChannelOutput) (tr : Trace) : TestCaseState × List Event × Verdict :=
  let ibcTimeoutHeight : IBCTimeout := ⟨0, 10⟩
  match sendIBCTransfersFromBothChainsWithTimeout env testCase channels (some ibcTimeoutHeight) tr with
  | (testCase1, evs, .passed) =>
    match env.WaitForBlocks (tr ++ evs) 15 [.src, .dst] with
    | some e =>
      (testCase1, evs ++ [.waitForBlocks 15 [.src, .dst] false],
        .failed ("failed to wait for blocks: " ++ e))
    | none => (testCase1, evs ++ [.waitForBlocks 15 [.src, .dst] true], .passed)
  | r => r

def preRelayerStart_TimestampTimeout (env : Env) (testCase : TestCaseState)
    (channels : List ChannelOutput) (tr : Trace) : TestCaseState × List Event × Verdict :=
  let ibcTimeoutTimestamp : IBCTimeout := ⟨1000000000, 0⟩
  match sendIBCTransfersFromBothChainsWithTimeout env testCase channels (some ibcTimeoutTimestamp) tr with
  | (testCase1, evs, .passed) => (testCase1, evs ++ [.sleep 15], .passed)
  | r => r

/-! ## PacketLifecyclePoller and BalanceInvariantChecker (lines 358-523) -/

/-- Lines 388-389 (and 424-425, 477-478, 508-509): the denomination queried
on the receiving chain. -/
def ibcDenom (env : Env) (portID channelID baseDenom : String) : String :=
  env.transfertypes.IBCDenom
    (env.transfertypes.ParseDenomTrace (env.transfertypes.GetPrefixedDenom portID channelID baseDenom))

/-- The upper end of the poll window, `tx.Height+pollHeightMax` in `uint64`
arithmetic (lines 383, 415, 468, 499). -/
def pollWindowEnd (tx : Tx) : Nat := wrapUint64 (tx.Height + pollHeightMax)

/-- Lines 397-401 and 433-437: the two `req.True` comparisons of a
successful relay. The sender starts from `userFaucetFund`, the receiver from
`0`; both are assumed, not read from the chains. -/
def relaySuccessBalancesOk (senderFinalBalance receiverFinalBalance totalFees : Int) : Bool :=
  let senderInitialBalance := userFaucetFund
  let receiverInitialBalance : Int := 0
  let expectedDifference := wrapInt64 (testCoinAmount + totalFees)
  decide (senderFinalBalance = wrapInt64 (senderInitialBalance - expectedDifference)) &&
    decide (receiverFinalBalance = wrapInt64 (receiverInitialBalance + testCoinAmount))

/-- Lines 486-489 and 517-520: the two `req.True` comparisons of a suppressed
relay, with the same assumed initial balances. -/
def relayFailBalancesOk (senderFinalBalance receiverFinalBalance totalFees : Int) : Bool :=
  let senderInitialBalance := userFaucetFund
  let receiverInitialBalance : Int := 0
  decide (senderFinalBalance = wrapInt64 (senderInitialBalance - totalFees)) &&
    decide (receiverFinalBalance = receiverInitialBalance)

/-- The history once the poll for the acknowledgement of `tx` on `side` has
succeeded. -/
def ackPolled (tr : Trace) (side : ChainSide) (tx : Tx) : Trace :=
  tr ++ [.pollForAck side tx.Height (pollWindowEnd tx) tx.Packet true]

/-- The history once the poll for the timeout of `tx` on `side` has
succeeded. -/
def timeoutPolled (tr : Trace) (side : ChainSide) (tx : Tx) : Trace :=
  tr ++ [.pollForTimeout side tx.Height (pollWindowEnd tx) tx.Packet true]

/-- The history once the wait of five blocks on both chains has succeeded. -/
def settled (tr : Trace) : Trace := tr ++ [.waitForBlocks 5 [.src, .dst] true]

/-- The history once a balance query has answered `balance`. -/
def balanceRead (tr : Trace) (side : ChainSide) (address denom : String) (balance : Int) : Trace :=
  tr ++ [.getBalance side address denom (some balance)]

/-- A loop over the cached records with their index; it ends at the first
iteration that does not pass. -/
def forRecords (step : Nat → Tx → Trace → Trace × Verdict) :
    List Tx → Nat → Trace → Trace × Verdict
  | [], _, tr => (tr, .passed)
  | tx :: rest, i, tr =>
    match step i tx tr with
    | (tr1, .passed) => forRecords step rest (i + 1) tr1
    | r => r

/-- Lines 377-402, one iteration. -/
def successSrcToDstStep (env : Env) (srcUser : Wallet) (channels : List ChannelOutput)
    (i : Nat) (srcTx : Tx) (tr : Trace) : Trace × Verdict :=
  let srcChainCfg := env.srcChain.Config
  let dstChainCfg := env.dstChain.Config
  let srcDenom := srcChainCfg.Denom
  match env.PollForAck tr .src srcTx.Height (pollWindowEnd srcTx) srcTx.Packet with
  | .error e =>
    (tr ++ [.pollForAck .src srcTx.Height (pollWindowEnd srcTx) srcTx.Packet false],
      .failed ("failed to get acknowledgement on source chain: " ++ e))
  | .ok srcAck =>
    let tr1 := ackPolled tr .src srcTx
    match env.AckValidate srcAck with
    | some e => (tr1, .failed ("invalid acknowledgement on source chain: " ++ e))
    | none =>
      match channels[i]? with
      | none => (tr1, .panicked "index out of range")
      | some channel =>
        let dstIbcDenom :=
          ibcDenom env channel.Counterparty.PortID channel.Counterparty.ChannelID srcDenom
        let srcAddress := srcUser.FormattedAddressWithPrefix srcChainCfg.Bech32Prefix
        match env.srcChain.GetBalance tr1 srcAddress srcDenom with
        | .error e =>
          (tr1 ++ [.getBalance .src srcAddress srcDenom none],
            .failed ("failed to get balance from source chain: " ++ e))
        | .ok srcFinalBalance =>
          let tr2 := balanceRead tr1 .src srcAddress srcDenom srcFinalBalance
          let dstAddress := srcUser.FormattedAddressWithPrefix dstChainCfg.Bech32Prefix
          match env.dstChain.GetBalance tr2 dstAddress dstIbcDenom with
          | .error e =>
            (tr2 ++ [.getBalance .dst dstAddress dstIbcDenom none],
              .failed ("failed to get balance from dest chain: " ++ e))
          | .ok dstFinalBalance =>
            let tr3 := balanceRead tr2 .dst dstAddress dstIbcDenom dstFinalBalance
            let totalFees := env.srcChain.GetGasFeesInNativeDenom srcTx.GasSpent
            if relaySuccessBalancesOk srcFinalBalance dstFinalBalance totalFees then (tr3, .passed)
            else (tr3, .failed "Should be true")

/-- Lines 407-438, one iteration. -/
def successDstToSrcStep (env : Env) (users : List Wallet) (channels : List ChannelOutput)
    (i : Nat) (dstTx : Tx) (tr : Trace) : Trace × Verdict :=
  let srcChainCfg := env.srcChain.Config
  let dstChainCfg := env.dstChain.Config
  match users[1]? with
  | none => (tr, .panicked "index out of range [1]")
  | some dstUser =>
    let dstDenom := dstChainCfg.Denom
    match env.PollForAck tr .dst dstTx.Height (pollWindowEnd dstTx) dstTx.Packet with
    | .error e =>
      (tr ++ [.pollForAck .dst dstTx.Height (pollWindowEnd dstTx) dstTx.Packet false],
        .failed ("failed to get acknowledgement on destination chain: " ++ e))
    | .ok dstAck =>
      let tr1 := ackPolled tr .dst dstTx
      match env.AckValidate dstAck with
      | some e => (tr1, .failed ("invalid acknowledgement on destination chain: " ++ e))
      | none =>
        match env.WaitForBlocks tr1 5 [.src, .dst] with
        | some e => (tr1 ++ [.waitForBlocks 5 [.src, .dst] false], .failed e)
        | none =>
          let tr2 := settled tr1
          match channels[i]? with
          | none => (tr2, .panicked "index out of range")
          | some channel =>
            let srcIbcDenom := ibcDenom env channel.PortID channel.ChannelID dstDenom
            let srcAddress := dstUser.FormattedAddressWithPrefix srcChainCfg.Bech32Prefix
            match env.srcChain.GetBalance tr2 srcAddress srcIbcDenom with
            | .error e =>
              (tr2 ++ [.getBalance .src srcAddress srcIbcDenom none],
                .failed ("failed to get balance from source chain: " ++ e))
            | .ok srcFinalBalance =>
              let tr3 := balanceRead tr2 .src srcAddress srcIbcDenom srcFinalBalance
              let dstAddress := dstUser.FormattedAddressWithPrefix dstChainCfg.Bech32Prefix
              match env.dstChain.GetBalance tr3 dstAddress dstDenom with
              | .error e =>
                (tr3 ++ [.getBalance .dst dstAddress dstDenom none],
                  .failed ("failed to get balance from dest chain: " ++ e))
              | .ok dstFinalBalance =>
                let tr4 := balanceRead tr3 .dst dstAddress dstDenom dstFinalBalance
                let totalFees := env.dstChain.GetGasFeesInNativeDenom dstTx.GasSpent
                if relaySuccessBalancesOk dstFinalBalance srcFinalBalance totalFees then
                  (tr4, .passed)
                else (tr4, .failed "Should be true")

/-- Lines 359-440. -/
def testPacketRelaySuccess (env : Env) (testCase : TestCaseState)
    (channels : List ChannelOutput) (tr : Trace) : Trace × Verdict :=
  match testCase.Users[0]? with
  | none => (tr, .panicked "index out of range [0]")
  | some srcUser =>
    match forRecords (successSrcToDstStep env srcUser channels) testCase.TxCache.Src 0 tr with
    | (tr1, .passed) =>
      forRecords (successDstToSrcStep env testCase.Users channels) testCase.TxCache.Dst 0 tr1
    | r => r

/-- Lines 463-490, one iteration. -/
def failSrcToDstStep (env : Env) (srcUser : Wallet) (channels : List ChannelOutput)
    (i : Nat) (srcTx : Tx) (tr : Trace) : Trace × Verdict :=
  let srcChainCfg := env.srcChain.Config
  let dstChainCfg := env.dstChain.Config
  let srcDenom := srcChainCfg.Denom
  match env.PollForTimeout tr .src srcTx.Height (pollWindowEnd srcTx) srcTx.Packet with
  | .error e =>
    (tr ++ [.pollForTimeout .src srcTx.Height (pollWindowEnd srcTx) srcTx.Packet false],
      .failed ("failed to get timeout packet on source chain: " ++ e))
  | .ok timeout =>
    let tr1 := timeoutPolled tr .src srcTx
    match env.TimeoutValidate timeout with
    | some e => (tr1, .failed ("invalid timeout packet on source chain: " ++ e))
    | none =>
      match env.WaitForBlocks tr1 5 [.src, .dst] with
      | some e => (tr1 ++ [.waitForBlocks 5 [.src, .dst] false], .failed e)
      | none =>
        let tr2 := settled tr1
        match channels[i]? with
        | none => (tr2, .panicked "index out of range")
        | some channel =>
          let dstIbcDenom :=
            ibcDenom env channel.Counterparty.PortID channel.Counterparty.ChannelID srcDenom
          let srcAddress := srcUser.FormattedAddressWithPrefix srcChainCfg.Bech32Prefix
          match env.srcChain.GetBalance tr2 srcAddress srcDenom with
          | .error e =>
            (tr2 ++ [.getBalance .src srcAddress srcDenom none],
              .failed ("failed to get balance from source chain: " ++ e))
          | .ok srcFinalBalance =>
            let tr3 := balanceRead tr2 .src srcAddress srcDenom srcFinalBalance
            let dstAddress := srcUser.FormattedAddressWithPrefix dstChainCfg.Bech32Prefix
            match env.dstChain.GetBalance tr3 dstAddress dstIbcDenom with
            | .error e =>
              (tr3 ++ [.getBalance .dst dstAddress dstIbcDenom none],
                .failed ("failed to get balance from destination chain: " ++ e))
            | .ok dstFinalBalance =>
              let tr4 := balanceRead tr3 .dst dstAddress dstIbcDenom dstFinalBalance
              let totalFees := env.srcChain.GetGasFeesInNativeDenom srcTx.GasSpent
              if relayFailBalancesOk srcFinalBalance dstFinalBalance totalFees then (tr4, .passed)
              else (tr4, .failed "Should be true")

/-- Lines 494-521, one iteration. -/
def failDstToSrcStep (env : Env) (dstUser : Wallet) (channels : List ChannelOutput)
    (i : Nat) (dstTx : Tx) (tr : Trace) : Trace × Verdict :=
  let srcChainCfg := env.srcChain.Config
  let dstChainCfg := env.dstChain.Config
  let dstDenom := dstChainCfg.Denom
  match env.PollForTimeout tr .dst dstTx.Height (pollWindowEnd dstTx) dstTx.Packet with
  | .error e =>
    (tr ++ [.pollForTimeout .dst dstTx.Height (pollWindowEnd dstTx) dstTx.Packet false],
      .failed ("failed to get timeout packet on destination chain: " ++ e))
  | .ok timeout =>
    let tr1 := timeoutPolled tr .dst dstTx
    match env.TimeoutValidate timeout with
    | some e => (tr1, .failed ("invalid timeout packet on destination chain: " ++ e))
    | none =>
      match env.WaitForBlocks tr1 5 [.src, .dst] with
      | some e => (tr1 ++ [.waitForBlocks 5 [.src, .dst] false], .failed e)
      | none =>
        let tr2 := settled tr1
        match channels[i]? with
        | none => (tr2, .panicked "index out of range")
        | some channel =>
          let srcIbcDenom := ibcDenom env channel.PortID channel.ChannelID dstDenom
          let srcAddress := dstUser.FormattedAddressWithPrefix srcChainCfg.Bech32Prefix
          match env.srcChain.GetBalance tr2 srcAddress srcIbcDenom with
          | .error e =>
            (tr2 ++ [.getBalance .src srcAddress srcIbcDenom none],
              .failed ("failed to get balance from source chain: " ++ e))
          | .ok srcFinalBalance =>
            let tr3 := balanceRead tr2 .src srcAddress srcIbcDenom srcFinalBalance
            let dstAddress := dstUser.FormattedAddressWithPrefix dstChainCfg.Bech32Prefix
            match env.dstChain.GetBalance tr3 dstAddress dstDenom with
            | .error e =>
              (tr3 ++ [.getBalance .dst dstAddress dstDenom none],
                .failed ("failed to get balance from destination chain: " ++ e))
            | .ok dstFinalBalance =>
              let tr4 := balanceRead tr3 .dst dstAddress dstDenom dstFinalBalance
              let totalFees := env.dstChain.GetGasFeesInNativeDenom dstTx.GasSpent
              if relayFailBalancesOk dstFinalBalance srcFinalBalance totalFees then (tr4, .passed)
              else (tr4, .failed "Should be true")

/-- Lines 443-523. -/
def testPacketRelayFail (env : Env) (testCase : TestCaseState)
    (channels : List ChannelOutput) (tr : Trace) : Trace × Verdict :=
  match testCase.Users[0]? with
  | none => (tr, .panicked "index out of range [0]")
  | some srcUser =>
    match testCase.Users[1]? with
    | none => (tr, .panicked "index out of range [1]")
    | some dstUser =>
      match forRecords (failSrcToDstStep env srcUser channels) testCase.TxCache.Src 0 tr with
      | (tr1, .passed) => forRecords (failDstToSrcStep env dstUser channels) testCase.TxCache.Dst 0 tr1
      | r => r

/-! ### Reaching the balance comparisons

The conditions under which an iteration of an assertion procedure gets as far
as its two `req.True` comparisons, and the balances it has read by then. -/

/-- The call of `testutil.PollForAck` for the record `tx` on `side`. -/
def ackEvent (side : ChainSide) (tx : Tx) (ok : Bool) : Event :=
  .pollForAck side tx.Height (pollWindowEnd tx) tx.Packet ok

/-- The call of `testutil.PollForTimeout` for the record `tx` on `side`. -/
def timeoutEvent (side : ChainSide) (tx : Tx) (ok : Bool) : Event :=
  .pollForTimeout side tx.Height (pollWindowEnd tx) tx.Packet ok

/-- A call of one of the two pollers. -/
def Event.isPoll : Event → Bool
  | .pollForAck _ _ _ _ _ => true
  | .pollForTimeout _ _ _ _ _ => true
  | _ => false

/-- A call of a poller that found nothing in its window. -/
def Event.isFailedPoll : Event → Bool
  | .pollForAck _ _ _ _ ok => !ok
  | .pollForTimeout _ _ _ _ ok => !ok
  | _ => false

/-- A balance query. -/
def Event.isBalance : Event → Bool
  | .getBalance _ _ _ _ => true
  | _ => false

/-- The calls `evs` of a loop over the records `txs` follow the poll
discipline: every poll is the poll of one of the records with the window of
that record; a poll that found nothing can only be the last call, and then
the verdict is a failure; and when the verdict is a pass the polls are those
of all the records, in order, all successful. -/
def pollDiscipline (poll : Tx → Bool → Event) (txs : List Tx) (evs : List Event)
    (v : Verdict) : Prop :=
  (∀ e ∈ evs, e.isPoll = true → ∃ tx ∈ txs, ∃ ok, e = poll tx ok)
  ∧ (∃ body tail, evs = body ++ tail
      ∧ (∀ e ∈ body, e.isFailedPoll = false)
      ∧ (tail = [] ∨ ∃ e msg, tail = [e] ∧ e.isFailedPoll = true ∧ v = .failed msg))
  ∧ (v = .passed → evs.filter Event.isPoll = txs.map (fun tx => poll tx true))

/-- The calls of one iteration: nothing at all with a verdict that is not a
pass, or a single poll that found nothing with a failure, or a successful
poll followed by calls that are not polls. -/
def iterationShape (poll : Bool → Event) (evs : List Event) (v : Verdict) : Prop :=
  (evs = [] ∧ v ≠ .passed)
  ∨ (evs = [poll false] ∧ ∃ msg, v = .failed msg)
  ∨ (∃ rest, evs = poll true :: rest ∧ ∀ e ∈ rest, e.isPoll = false)

/-- The calls `evs` of an assertion procedure over the cache follow the poll
discipline: every poll is the poll of a cached record on the chain that sent
it, with the window of that record; a poll that found nothing can only be the
last call, and then the verdict is a failure; and when the verdict is a pass
every cached record has been polled successfully, the source records first. -/
def procedurePollDiscipline (poll : ChainSide → Tx → Bool → Event) (cache : TxCache)
    (evs : List Event) (v : Verdict) : Prop :=
  (∀ e ∈ evs, e.isPoll = true →
    (∃ tx ∈ cache.Src, ∃ ok, e = poll .src tx ok) ∨ (∃ tx ∈ cache.Dst, ∃ ok, e = poll .dst tx ok))
  ∧ (∃ body tail, evs = body ++ tail
      ∧ (∀ e ∈ body, e.isFailedPoll = false)
      ∧ (tail = [] ∨ ∃ e msg, tail = [e] ∧ e.isFailedPoll = true ∧ v = .failed msg))
  ∧ (v = .passed → evs.filter Event.isPoll
      = cache.Src.map (fun tx => poll .src tx true) ++ cache.Dst.map (fun tx => poll .dst tx true))

/-- Among the calls `evs` of an iteration every balance query on `side` is
for the denomination `denom`, and an iteration that passes has made such a
query and got a balance. -/
def queriesDenom (side : ChainSide) (denom : String) (evs : List Event) (v : Verdict) : Prop :=
  (∀ address d result, Event.getBalance side address d result ∈ evs → d = denom)
  ∧ (v = .passed → ∃ address balance, Event.getBalance side address denom (some balance) ∈ evs)

/-! ## ScenarioRegistry (lines 57-80) -/

def relayerTestCaseConfigs : List RelayerTestCaseConfig :=
  [ { Name := "relay packet"
      RequiredRelayerCapabilities := []
      PreRelayerStart := preRelayerStart_RelayPacket
      Test := testPacketRelaySuccess },
    { Name := "no timeout"
      RequiredRelayerCapabilities := []
      PreRelayerStart := preRelayerStart_NoTimeout
      Test := testPacketRelaySuccess },
    { Name := "height timeout"
      RequiredRelayerCapabilities := [Capability.HeightTimeout]
      PreRelayerStart := preRelayerStart_HeightTimeout
      Test := testPacketRelayFail },
    { Name := "timestamp timeout"
      RequiredRelayerCapabilities := [Capability.TimestampTimeout]
      PreRelayerStart := preRelayerStart_TimestampTimeout
      Test := testPacketRelayFail } ]

/-! ## ChainPairOrchestrator (lines 274-329) -/

/-- How the goroutine of a setup hook ends: the hook returns, or the goroutine
is ended inside the hook by `t.FailNow` (`runtime.Goexit`), or it panics. -/
inductive HookExit where
  | returned
  | goexit
  | panicked
  deriving DecidableEq, Repr

/-- A value of type `func([]ibc.ChannelOutput)`: a closure acting on the
state `σ` it captured and on the collaborators. Given the channels, the
state and the history at its start it yields the new state, the calls it
made and how its goroutine ended. -/
abbrev PreRelayerStartFunc (σ : Type) :=
  List ChannelOutput → σ → Trace → σ × List Event × HookExit

/-- The errors `StopStartRelayerWithPreStartFuncs` builds with `fmt.Errorf`
(lines 291, 310 and 313). -/
inductive StopStartError where
  | getTransferChannel (cause : String)
  | noPathNames
  | startRelayer (cause : String)
  deriving DecidableEq, Repr

/-- The text of an error. -/
def StopStartError.message : StopStartError → String
  | .getTransferChannel cause => "failed to get transfer channel: " ++ cause
  | .noPathNames => "len(pathNames) must be > 0"
  | .startRelayer cause => "failed to start relayer: " ++ cause

/-- Lines 295-307: every non-nil hook is started in a goroutine of its own and
`wg.Done()` follows the hook in that goroutine. The goroutines are listed in
launch order. The flag tells whether every started goroutine reached
`wg.Done()`, which is what `wg.Wait()` waits for. -/
def runPreRelayerStartFuncs {σ : Type} (channels : List ChannelOutput) :
    List (Option (PreRelayerStartFunc σ)) → Nat → σ → Trace → σ × Trace × Bool
  | [], _, s, tr => (s, tr, true)
  | none :: rest, i, s, tr => runPreRelayerStartFuncs channels rest (i + 1) s tr
  | some preRelayerStart :: rest, i, s, tr =>
    let tr1 := tr ++ [.preRelayerStart i channels]
    match preRelayerStart channels s tr1 with
    | (s1, evs, .returned) =>
      runPreRelayerStartFuncs channels rest (i + 1) s1 (tr1 ++ evs ++ [.preRelayerStartDone i])
    | (s1, evs, _) =>
      match runPreRelayerStartFuncs channels rest (i + 1) s1 (tr1 ++ evs) with
      | (s2, tr2, _) => (s2, tr2, false)

/-- What a call of `StopStartRelayerWithPreStartFuncs` leaves behind: the
state of the hooks, the history, and the returned pair; `ret = none` when the
call never returns because `wg.Wait()` waits for a goroutine that ended
without `wg.Done()`. -/
structure StopStartResult (σ : Type) where
  state : σ
  trace : Trace
  ret : Option (Except StopStartError (List ChannelOutput))

/-- Lines 274-329. -/
def StopStartRelayerWithPreStartFuncs {σ : Type} (srcChainID dstChainID : String)
    (relayerImpl : Relayer) (preRelayerStartFuncs : List (Option (PreRelayerStartFunc σ)))
    (pathNames : List String) (s : σ) (tr : Trace) : StopStartResult σ :=
  let tr1 := tr ++ [.stopRelayer (relayerImpl.StopRelayer tr).isNone]
  match relayerImpl.GetTransferChannel tr1 srcChainID dstChainID with
  | .error e =>
    ⟨s, tr1 ++ [.getTransferChannel srcChainID dstChainID false],
      some (.error (.getTransferChannel e))⟩
  | .ok channel =>
    let channels : List ChannelOutput := [] ++ [channel]
    let tr2 := tr1 ++ [.getTransferChannel srcChainID dstChainID true]
    match runPreRelayerStartFuncs channels preRelayerStartFuncs 0 s tr2 with
    | (s3, tr3, false) => ⟨s3, tr3, none⟩
    | (s3, tr3, true) =>
      if pathNames.length = 0 then ⟨s3, tr3, some (.error .noPathNames)⟩
      else
        match relayerImpl.StartRelayer tr3 pathNames with
        | some e => ⟨s3, tr3 ++ [.startRelayer pathNames false], some (.error (.startRelayer e))⟩
        | none =>
          ⟨s3, tr3 ++ [.startRelayer pathNames true, .registerCleanup, .sleep 5],
            some (.ok channels)⟩

/-- The history after the initial `StopRelayer` call of line 284; its error
is only logged. -/
def afterStop (relayerImpl : Relayer) (tr : Trace) : Trace :=
  tr ++ [.stopRelayer (relayerImpl.StopRelayer tr).isNone]

/-- The answer of the channel discovery of line 289. -/
def discovery (srcChainID dstChainID : String) (relayerImpl : Relayer) (tr : Trace) :
    Except String ChannelOutput :=
  relayerImpl.GetTransferChannel (afterStop relayerImpl tr) srcChainID dstChainID

/-- The run of the setup hooks of lines 295-307 once `channel` has been
discovered: the state and the history they leave, and whether all of them
returned. -/
def hooksRun {σ : Type} (srcChainID dstChainID : String) (relayerImpl : Relayer)
    (preRelayerStartFuncs : List (Option (PreRelayerStartFunc σ))) (s : σ) (tr : Trace)
    (channel : ChannelOutput) : σ × Trace × Bool :=
  runPreRelayerStartFuncs ([] ++ [channel]) preRelayerStartFuncs 0 s
    (afterStop relayerImpl tr ++ [.getTransferChannel srcChainID dstChainID true])

/-! ## ScenarioRunner (lines 187-263) -/

/-- Lines 219-224: the hook of the test case stored at position `k`. A failed
`require` inside the funding helper or the setup procedure ends the
goroutine. -/
def preRelayerStartFunc (env : Env) (randomSuffix : String) (k : Nat) :
    PreRelayerStartFunc (List RelayerTestCase) :=
  fun channels testCases tr =>
    match testCases[k]? with
    | none => (testCases, [], .panicked)
    | some testCase =>
      let keyNamePrefix := testCase.Config.Name.replace " " "-" ++ "-" ++ randomSuffix
      match env.GetAndFundTestUsers tr keyNamePrefix userFaucetFund with
      | none =>
        (testCases, [.getAndFundTestUsers keyNamePrefix userFaucetFund false], .goexit)
      | some users =>
        let funded : List Event := [.getAndFundTestUsers keyNamePrefix userFaucetFund true]
        match testCase.Config.PreRelayerStart env ⟨users, testCase.TxCache⟩ channels
            (tr ++ funded) with
        | (st, evs, v) =>
          (testCases.set k { testCase with toTestCaseState := st }, funded ++ evs,
            match v with
            | .passed => HookExit.returned
            | .failed _ => HookExit.goexit
            | .panicked _ => HookExit.panicked)

/-- Lines 208-226: the loop over the registry. Every scenario gets a test
case; a hook is appended only when no required capability is missing. -/
def registerTestCases (env : Env) (rf : RelayerFactory) (randomSuffix : String) :
    List RelayerTestCaseConfig → List RelayerTestCase →
    List (PreRelayerStartFunc (List RelayerTestCase)) →
    List RelayerTestCase × List (PreRelayerStartFunc (List RelayerTestCase))
  | [], testCases, preRelayerStartFuncs => (testCases, preRelayerStartFuncs)
  | testCaseConfig :: rest, testCases, preRelayerStartFuncs =>
    let testCase : RelayerTestCase := { Config := testCaseConfig, Users := [], TxCache := ⟨[], []⟩ }
    if (missingCapabilities rf testCaseConfig.RequiredRelayerCapabilities).length > 0 then
      registerTestCases env rf randomSuffix rest (testCases ++ [testCase]) preRelayerStartFuncs
    else
      registerTestCases env rf randomSuffix rest (testCases ++ [testCase])
        (preRelayerStartFuncs ++ [preRelayerStartFunc env randomSuffix testCases.length])

/-- The state a scenario reports. -/
inductive Outcome where
  | Passed
  | Failed
  | Skipped
  | Panicked
  deriving DecidableEq, Repr

/-- Lines 83-91: `rep.TrackSkip` is called when a required capability is
missing. It records the skip and calls `t.Skip`, which ends the calling
subtest; the flag tells whether that happened. -/
def requireCapabilities (rf : RelayerFactory) (name : String) (reqCaps : List Capability)
    (tr : Trace) : Trace × Bool :=
  let missing := missingCapabilities rf reqCaps
  if missing.length > 0 then (tr ++ [.trackSkip name], true) else (tr, false)

/-- Lines 255-260: the subtest of one test case. A subtest ended by
`requireCapabilities` is skipped and does not reach the assertion
procedure. -/
def postRelayerStartSubtest (env : Env) (rf : RelayerFactory) (testCase : RelayerTestCase)
    (channels : List ChannelOutput) (tr : Trace) : Trace × Outcome :=
  let tr1 := tr ++ [.trackTest testCase.Config.Name]
  match requireCapabilities rf testCase.Config.Name testCase.Config.RequiredRelayerCapabilities
      tr1 with
  | (tr2, true) => (tr2, .Skipped)
  | (tr2, false) =>
    let tr3 := tr2 ++ [.trackParallel testCase.Config.Name]
    match testCase.Config.Test env testCase.toTestCaseState channels tr3 with
    | (tr4, .passed) => (tr4, .Passed)
    | (tr4, .failed _) => (tr4, .Failed)
    | (tr4, .panicked _) => (tr4, .Panicked)

/-- Lines 252-262: the subtests in the order of the test cases, with the name
and the outcome of each. -/
def postRelayerStart (env : Env) (rf : RelayerFactory) (channels : List ChannelOutput) :
    List RelayerTestCase → Trace → Trace × List (String × Outcome)
  | [], tr => (tr, [])
  | testCase :: rest, tr =>
    match postRelayerStartSubtest env rf testCase channels tr with
    | (tr1, outcome) =>
      match postRelayerStart env rf channels rest tr1 with
      | (tr2, report) => (tr2, (testCase.Config.Name, outcome) :: report)

/-- How a run of `TestChainPair` ends: a run-level `req.NoError` failed, or
the relay restart never returned, or the assertion phase ran and produced a
report. -/
inductive RunStatus where
  | aborted (msg : String)
  | blocked
  | completed (report : List (String × Outcome))
  deriving DecidableEq, Repr

/-- What a run of `TestChainPair` leaves behind. -/
structure TestChainPairResult where
  testCases : List RelayerTestCase
  preRelayerStartFuncs : List (PreRelayerStartFunc (List RelayerTestCase))
  trace : Trace
  status : RunStatus

/-- Lines 187-263 over a given registry. `relayerImpl = none` is the nil
relayer, for which the chain pair is started first. -/
def TestChainPairOver (configs : List RelayerTestCaseConfig) (env : Env) (rf : RelayerFactory)
    (relayerImpl : Option Relayer) (randomSuffix : String) (pathNames : List String)
    (tr : Trace) : TestChainPairResult :=
  match registerTestCases env rf randomSuffix configs [] [] with
  | (testCases, preRelayerStartFuncs) =>
    let started : Except String (Relayer × Trace) :=
      match relayerImpl with
      | some r => .ok (r, tr)
      | none =>
        match env.StartChainPair tr with
        | .error e => .error e
        | .ok r => .ok (r, tr ++ [.startChainPair true])
    match started with
    | .error e =>
      ⟨testCases, preRelayerStartFuncs, tr ++ [.startChainPair false],
        .aborted ("failed to StartChainPair: " ++ e)⟩
    | .ok (r, tr1) =>
      match StopStartRelayerWithPreStartFuncs env.srcChain.Config.ChainID
          env.dstChain.Config.ChainID r (preRelayerStartFuncs.map some) pathNames testCases tr1 with
      | ⟨testCases1, tr2, none⟩ => ⟨testCases1, preRelayerStartFuncs, tr2, .blocked⟩
      | ⟨testCases1, tr2, some (.error err)⟩ =>
        ⟨testCases1, preRelayerStartFuncs, tr2,
          .aborted ("failed to StopStartRelayerWithPreStartFuncs: " ++ err.message)⟩
      | ⟨testCases1, tr2, some (.ok channels)⟩ =>
        match postRelayerStart env rf channels testCases1 tr2 with
        | (tr3, report) => ⟨testCases1, preRelayerStartFuncs, tr3, .completed report⟩

/-- Lines 187-263 over the registry of lines 57-80. -/
def TestChainPair (env : Env) (rf : RelayerFactory) (relayerImpl : Option Relayer)
    (randomSuffix : String) (pathNames : List String) (tr : Trace) : TestChainPairResult :=
  TestChainPairOver relayerTestCaseConfigs env rf relayerImpl randomSuffix pathNames tr

/-! ## Example worlds

Concrete collaborators on which the definitions above can be evaluated. -/

/-- An example of `transfertypes.GetPrefixedDenom` for the example worlds: the
text `port/channel/baseDenom`. The transfer module itself is not among the
sources; this is not a model of it. -/
def exampleGetPrefixedDenom (portID channelID baseDenom : String) : String :=
  portID ++ "/" ++ channelID ++ "/" ++ baseDenom

/-- The text before the first `/` and the text after it, when there is one. -/
def splitAtSlash : List Char → Option (List Char × List Char)
  | [] => none
  | c :: cs =>
    if c = '/' then some ([], cs)
    else
      match splitAtSlash cs with
      | none => none
      | some (a, b) => some (c :: a, b)

/-- An example of `transfertypes.ParseDenomTrace` for the example worlds: it
takes the first two `/`-separated parts of the text as the path and the rest
as the base denomination. The transfer module itself is not among the
sources; this is not a model of its parser. -/
def exampleParseDenomTrace (rawDenom : String) : DenomTrace :=
  match splitAtSlash rawDenom.data with
  | none => ⟨"", rawDenom⟩
  | some (port, rest) =>
    match splitAtSlash rest with
    | none => ⟨"", rawDenom⟩
    | some (channel, base) => ⟨String.mk port ++ "/" ++ String.mk channel, String.mk base⟩

def exampleChannel : ChannelOutput := ⟨"transfer", "channel-0", ⟨"transfer", "channel-1"⟩⟩

/-- A relayer whose calls all succeed. -/
def exampleRelayer : Relayer :=
  ⟨fun _ => none, fun _ _ _ => .ok exampleChannel, fun _ _ => none⟩

/-- A relayer factory advertising the listed capabilities. -/
def exampleFactory (caps : List Capability) : RelayerFactory :=
  ⟨"rly", fun c => caps.contains c⟩

def exampleWallet (keyName : String) : Wallet :=
  ⟨keyName, fun p => p ++ "1" ++ keyName⟩

/-- A chain whose sends succeed at height 7 with gas 200000, whose balance
query answers `nativeBalance` for its own denomination and `ibcBalance` for
any other, and whose fee for any gas is `fee`. -/
def exampleChain (cfg : ChainConfig) (nativeBalance ibcBalance fee : Int) : Chain :=
  { Config := cfg
    SendIBCTransfer := fun _ channelID _ _ _ => .ok ⟨7, "A1", 200000, ⟨1, channelID, ""⟩⟩
    GetBalance := fun _ _ denom => .ok (if denom = cfg.Denom then nativeBalance else ibcBalance)
    GetGasFeesInNativeDenom := fun _ => fee }

def exampleSrcConfig : ChainConfig := ⟨"xion-1", "xion", "uxion"⟩

def exampleDstConfig : ChainConfig := ⟨"osmosis-1", "osmo", "uosmo"⟩

/-- An environment in which every call succeeds and both chains answer the
given balances. -/
def exampleEnv (nativeBalance ibcBalance fee : Int) : Env :=
  { srcChain := exampleChain exampleSrcConfig nativeBalance ibcBalance fee
    dstChain := exampleChain exampleDstConfig nativeBalance ibcBalance fee
    WaitForBlocks := fun _ _ _ => none
    PollForAck := fun _ _ _ _ p => .ok ⟨p, [1]⟩
    PollForTimeout := fun _ _ _ _ p => .ok ⟨p⟩
    GetAndFundTestUsers := fun _ key _ => some [exampleWallet (key ++ "-0"), exampleWallet (key ++ "-1")]
    StartChainPair := fun _ => .ok exampleRelayer
    TxValidate := fun _ => none
    AckValidate := fun _ => none
    TimeoutValidate := fun _ => none
    transfertypes :=
      ⟨exampleGetPrefixedDenom, exampleParseDenomTrace,
        fun t => "ibc/" ++ t.Path ++ "/" ++ t.BaseDenom⟩ }

/-- A test case with two funded wallets and one cached record per
direction. -/
def exampleTestCase : TestCaseState :=
  { Users := [exampleWallet "relay-packet-abcd-0", exampleWallet "relay-packet-abcd-1"]
    TxCache := ⟨[⟨7, "A1", 200000, ⟨1, "channel-0", ""⟩⟩], [⟨9, "B2", 200000, ⟨1, "channel-1", ""⟩⟩]⟩ }

/-- The world of `exampleEnv` in which neither poller finds anything in its
window. -/
def exhaustedEnv : Env :=
  { exampleEnv 9998995000 1000000 5000 with
    PollForAck := fun _ _ _ _ _ => .error "not found"
    PollForTimeout := fun _ _ _ _ _ => .error "not found" }

/-- A transfer. -/
def Event.isSend : Event → Bool
  | .sendIBCTransfer _ _ _ _ _ _ => true
  | _ => false

/-- A funding of test wallets. -/
def Event.isFunding : Event → Bool
  | .getAndFundTestUsers _ _ _ => true
  | _ => false

/-- A start of the relay. -/
def Event.isStartRelayer : Event → Bool
  | .startRelayer _ _ => true
  | _ => false

/-- The world of `exampleEnv` in which the funding helper fails. -/
def unfundedEnv : Env :=
  { exampleEnv 0 0 0 with GetAndFundTestUsers := fun _ _ _ => none }

/-- The test case of the first scenario of the registry, as `TestChainPair`
creates it. -/
def exampleRelayPacketCase : RelayerTestCase :=
  { Config :=
      { Name := "relay packet"
        RequiredRelayerCapabilities := []
        PreRelayerStart := preRelayerStart_RelayPacket
        Test := testPacketRelaySuccess }
    Users := []
    TxCache := ⟨[], []⟩ }

/-- A hook acting on a counter: it funds wallets and returns. -/
def exampleHook : PreRelayerStartFunc Nat :=
  fun _ n _ => (n + 1, [.getAndFundTestUsers "k" userFaucetFund true], .returned)

/-- The relayer of `exampleRelayer` whose stop fails. -/
def stoppedRelayer : Relayer :=
  { exampleRelayer with StopRelayer := fun _ => some "already stopped" }

/-! ## Shapes of histories

Descriptions of the calls a part of the harness makes, used to state the
properties below. -/

/-- The calls and the result `r` of a direction task over the channel
identifiers `chans`, started with the history `hist`, are those of strictly
sequential sends: either every channel was served in order, each send
followed by its one-block wait, and the task succeeded; or the channels
before position `k` were served so, the send over channel `k` failed, it is
the last call, and the task error is that failure behind `errText`; or the
send over channel `k` succeeded, the wait after it failed, it is the last
call, and the task error is that failure. -/
def sequentialSends (env : Env) (side : ChainSide) (keyName : String) (coin : WalletAmount)
    (timeout : Option IBCTimeout) (errText : String) (hist : Trace) (chans : List String)
    (r : List Event × Except String (List Tx)) : Prop :=
  (∃ txs, r = (chans.flatMap (settledSend side keyName coin timeout), .ok txs))
  ∨ (∃ k ch e, chans[k]? = some ch
      ∧ (env.chain side).SendIBCTransfer
          (hist ++ (chans.take k).flatMap (settledSend side keyName coin timeout))
          ch keyName coin timeout = .error e
      ∧ r = ((chans.take k).flatMap (settledSend side keyName coin timeout)
              ++ [.sendIBCTransfer side ch keyName coin timeout false],
            .error (errText ++ e)))
  ∨ (∃ k ch tx e, chans[k]? = some ch
      ∧ (env.chain side).SendIBCTransfer
          (hist ++ (chans.take k).flatMap (settledSend side keyName coin timeout))
          ch keyName coin timeout = .ok tx
      ∧ env.WaitForBlocks
          (hist ++ ((chans.take k).flatMap (settledSend side keyName coin timeout)
            ++ [.sendIBCTransfer side ch keyName coin timeout true])) 1 [side] = some e
      ∧ r = ((chans.take k).flatMap (settledSend side keyName coin timeout)
              ++ [.sendIBCTransfer side ch keyName coin timeout true,
                  .waitForBlocks 1 [side] false],
            .error e))

/-- The chain a poll is made on. -/
def Event.pollSide : Event → Option ChainSide
  | .pollForAck side _ _ _ _ => some side
  | .pollForTimeout side _ _ _ _ => some side
  | _ => none

/-- The call `e` belongs to the assertion of the transfers sent by `wallet`
from the chain `sender`: if it is a poll it is made on the sending chain, and
if it is a balance query it asks for the address of `wallet` under the
address prefix of the chain it is put to. -/
def inDirection (env : Env) (sender : ChainSide) (wallet : Wallet) (e : Event) : Prop :=
  (∀ side, e.pollSide = some side → side = sender)
  ∧ (∀ side address denom result, e = .getBalance side address denom result →
      address = wallet.FormattedAddressWithPrefix (env.chain side).Config.Bech32Prefix)

/-- The call `e`, if it is a transfer, is one of the test transfers of the two
wallets: sent from the source chain it is signed by `srcUser` and carries the
fixed amount in the source chain's denomination to the address of `srcUser`
under the destination chain's prefix; sent from the destination chain it is
signed by `dstUser` and carries the fixed amount in the destination chain's
denomination to the address of `dstUser` under the source chain's prefix. -/
def sentBy (env : Env) (srcUser dstUser : Wallet) (e : Event) : Prop :=
  ∀ side channelID keyName coin timeout ok,
    e = .sendIBCTransfer side channelID keyName coin timeout ok →
      match side with
      | .src =>
        keyName = srcUser.KeyName
          ∧ coin = ⟨srcUser.FormattedAddressWithPrefix env.dstChain.Config.Bech32Prefix,
              env.srcChain.Config.Denom, 1000000⟩
      | .dst =>
        keyName = dstUser.KeyName
          ∧ coin = ⟨dstUser.FormattedAddressWithPrefix env.srcChain.Config.Bech32Prefix,
              env.dstChain.Config.Denom, 1000000⟩

/-- The launch of the goroutine of a hook (line 302). -/
def Event.isHookStart : Event → Bool
  | .preRelayerStart _ _ => true
  | _ => false

/-- The `wg.Done()` of the goroutine of a hook (line 304). -/
def Event.isHookDone : Event → Bool
  | .preRelayerStartDone _ => true
  | _ => false

/-- A call made by a subtest of the assertion phase only: the tracking calls
of lines 256-258, a poll or a balance query. -/
def Event.isAssertion : Event → Bool
  | .trackTest _ => true
  | .trackSkip _ => true
  | .trackParallel _ => true
  | .pollForAck _ _ _ _ _ => true
  | .pollForTimeout _ _ _ _ _ => true
  | .getBalance _ _ _ _ => true
  | _ => false

/-- A call made by the setup of a scenario: the funding of its wallets, a
transfer, a wait for blocks or a sleep. -/
def Event.isSetupCall : Event → Bool
  | .getAndFundTestUsers _ _ _ => true
  | .sendIBCTransfer _ _ _ _ _ _ => true
  | .waitForBlocks _ _ _ => true
  | .sleep _ => true
  | _ => false

/-- The hooks do not log launches or completions of goroutines themselves:
the wait group of `StopStartRelayerWithPreStartFuncs` is local to it. -/
def quietHooks {σ : Type} (funcs : List (Option (PreRelayerStartFunc σ))) : Prop :=
  ∀ f, some f ∈ funcs → ∀ channels s tr, ∀ e ∈ (f channels s tr).2.1,
    e.isHookStart = false ∧ e.isHookDone = false

/-- One launch with `channels` for every non-nil hook, in the order of the
hooks, each under the position of its hook counted from `i`. -/
def hookLaunches {σ : Type} (channels : List ChannelOutput) (i : Nat)
    (funcs : List (Option (PreRelayerStartFunc σ))) : List Event :=
  (funcs.enumFrom i).filterMap (fun p => p.2.map (fun _ => Event.preRelayerStart p.1 channels))

/-- One completion for every non-nil hook, in the order of the hooks. -/
def hookCompletions {σ : Type} (i : Nat) (funcs : List (Option (PreRelayerStartFunc σ))) :
    List Event :=
  (funcs.enumFrom i).filterMap (fun p => p.2.map (fun _ => Event.preRelayerStartDone p.1))

/-- A verdict that is a panic. -/
def Verdict.isPanicked : Verdict → Bool
  | .panicked _ => true
  | _ => false

/-- The setup of a test case has completed over `channels`: both wallets are
there and the cache holds one record per channel in each direction. -/
def setupComplete (channels : List ChannelOutput) (testCase : TestCaseState) : Prop :=
  2 ≤ testCase.Users.length
    ∧ testCase.TxCache.Src.length = channels.length
    ∧ testCase.TxCache.Dst.length = channels.length

/-- The test case at position `k` is there and its setup has completed. -/
def setupCompleteAt (channels : List ChannelOutput) (k : Nat)
    (testCases : List RelayerTestCase) : Prop :=
  ∃ tc, testCases[k]? = some tc ∧ setupComplete channels tc.toTestCaseState

/-- The world of `exampleEnv` in which the source chain rejects a transfer
whose timeouts are both disabled, as the scenario "no timeout" sends it. -/
def refusingEnv : Env :=
  { exampleEnv 9998995000 1000000 5000 with
    srcChain :=
      { exampleChain exampleSrcConfig 9998995000 1000000 5000 with
        SendIBCTransfer := fun _ channelID _ _ timeout =>
          if timeout = some ⟨0, 0⟩ then .error "rejected"
          else .ok ⟨7, "A1", 200000, ⟨1, channelID, ""⟩⟩ } }

/-! ## Theorems: CapabilityGate -/

theorem missingCapabilities_foldl (rf : RelayerFactory) (reqCaps acc : List Capability) :
    reqCaps.foldl (fun missing c => if !rf.Capabilities c then missing ++ [c] else missing) acc
      = acc ++ reqCaps.filter (fun c => !rf.Capabilities c) := by
  induction reqCaps generalizing acc with
  | nil => simp
  | cons c cs ih =>
    simp only [List.foldl_cons, ih, List.filter_cons]
    cases h : rf.Capabilities c <;> simp

theorem missingCapabilities_eq_filter (rf : RelayerFactory) (reqCaps : List Capability) :
    missingCapabilities rf reqCaps = reqCaps.filter (fun c => !rf.Capabilities c) := by
  unfold missingCapabilities
  rw [missingCapabilities_foldl]
  rfl

/-- C1: `missingCapabilities` returns the required capabilities the relay does
not advertise as true, in their original order; a capability is in the result
exactly when it is required and not advertised; the result is empty exactly
when every required capability is advertised, and it is empty for an empty
requirement. -/
theorem missingCapabilities_is_set_difference (rf : RelayerFactory) (reqCaps : List Capability) :
    missingCapabilities rf reqCaps = reqCaps.filter (fun c => !rf.Capabilities c)
    ∧ (∀ c, c ∈ missingCapabilities rf reqCaps ↔ c ∈ reqCaps ∧ rf.Capabilities c ≠ true)
    ∧ (missingCapabilities rf reqCaps = [] ↔ ∀ c ∈ reqCaps, rf.Capabilities c = true)
    ∧ missingCapabilities rf [] = [] := by
  refine ⟨missingCapabilities_eq_filter rf reqCaps, ?_, ?_, ?_⟩
  · intro c
    simp [missingCapabilities_eq_filter, List.mem_filter]
  · simp [missingCapabilities_eq_filter, List.filter_eq_nil_iff]
  · rfl

/-! ## Theorems: ScenarioRunner -/

/-- The loop of lines 208-226 in closed form: one test case per scenario, and
one hook per scenario with no missing capability, bound to the position of
its test case. -/
theorem registerTestCases_eq (env : Env) (rf : RelayerFactory) (randomSuffix : String)
    (configs : List RelayerTestCaseConfig) (testCases : List RelayerTestCase)
    (funcs : List (PreRelayerStartFunc (List RelayerTestCase))) :
    registerTestCases env rf randomSuffix configs testCases funcs =
      (testCases ++ configs.map
          (fun c => ({ Config := c, Users := [], TxCache := ⟨[], []⟩ } : RelayerTestCase)),
        funcs ++ ((configs.enumFrom testCases.length).filter
          (fun p => (missingCapabilities rf p.2.RequiredRelayerCapabilities).isEmpty)).map
          (fun p => preRelayerStartFunc env randomSuffix p.1)) := by
  induction configs generalizing testCases funcs with
  | nil => simp [registerTestCases]
  | cons c cs ih =>
    unfold registerTestCases
    cases hm : missingCapabilities rf c.RequiredRelayerCapabilities with
    | nil => simp [ih, hm, List.enumFrom_cons, List.filter_cons]
    | cons a l => simp [ih, hm, List.enumFrom_cons, List.filter_cons]

theorem preRelayerStartFunc_configs (env : Env) (randomSuffix : String) (k : Nat)
    (channels : List ChannelOutput) (testCases : List RelayerTestCase) (tr : Trace) :
    (preRelayerStartFunc env randomSuffix k channels testCases tr).1.map (fun tc => tc.Config)
      = testCases.map (fun tc => tc.Config) := by
  unfold preRelayerStartFunc
  cases hk : testCases[k]? with
  | none => simp
  | some testCase =>
    simp only
    cases hf : env.GetAndFundTestUsers tr
        (testCase.Config.Name.replace " " "-" ++ "-" ++ randomSuffix) userFaucetFund with
    | none => simp
    | some users =>
      simp only [List.map_set]
      apply List.ext_getElem?
      intro n
      by_cases hn : k = n
      · subst hn
        rw [List.getElem?_set]
        simp [hk]
        exact (List.getElem?_eq_some_iff.mp hk).1
      · rw [List.getElem?_set]
        simp [hn]

theorem runPreRelayerStartFuncs_invariant {σ : Type} (P : σ → Prop)
    (channels : List ChannelOutput) (funcs : List (Option (PreRelayerStartFunc σ)))
    (hP : ∀ f, some f ∈ funcs → ∀ s tr, P s → P (f channels s tr).1) :
    ∀ i s tr, P s → P (runPreRelayerStartFuncs channels funcs i s tr).1 := by
  induction funcs with
  | nil => intro i s tr h; simpa [runPreRelayerStartFuncs] using h
  | cons f fs ih =>
    intro i s tr h
    have ih1 := ih (fun g hg => hP g (List.mem_cons_of_mem _ hg))
    cases f with
    | none => simpa [runPreRelayerStartFuncs] using ih1 (i + 1) s tr h
    | some g =>
      have hg := hP g (List.mem_cons_self _ _) s (tr ++ [.preRelayerStart i channels]) h
      unfold runPreRelayerStartFuncs
      simp only
      rcases hr : g channels s (tr ++ [.preRelayerStart i channels]) with ⟨s1, evs, x⟩
      rw [hr] at hg ⊢
      cases x with
      | returned => exact ih1 _ _ _ hg
      | goexit => exact ih1 (i + 1) s1 _ hg
      | panicked => exact ih1 (i + 1) s1 _ hg

theorem StopStartRelayerWithPreStartFuncs_invariant {σ : Type} (P : σ → Prop)
    (srcChainID dstChainID : String) (relayerImpl : Relayer)
    (funcs : List (Option (PreRelayerStartFunc σ))) (pathNames : List String) (s : σ) (tr : Trace)
    (hP : ∀ f, some f ∈ funcs → ∀ channels s tr, P s → P (f channels s tr).1) (hs : P s) :
    P (StopStartRelayerWithPreStartFuncs srcChainID dstChainID relayerImpl funcs pathNames s tr).state := by
  unfold StopStartRelayerWithPreStartFuncs
  simp only
  split
  · exact hs
  · rename_i channel _
    have h := runPreRelayerStartFuncs_invariant P ([] ++ [channel]) funcs
      (fun f hf s tr => hP f hf _ s tr) 0 s
      (tr ++ [.stopRelayer (relayerImpl.StopRelayer tr).isNone] ++
        [.getTransferChannel srcChainID dstChainID true]) hs
    split
    · rename_i h1; rw [h1] at h; exact h
    · rename_i h1; rw [h1] at h
      split
      · exact h
      · split <;> exact h

theorem postRelayerStart_report (env : Env) (rf : RelayerFactory) (channels : List ChannelOutput)
    (testCases : List RelayerTestCase) (tr : Trace) :
    (postRelayerStart env rf channels testCases tr).2.map Prod.fst
        = testCases.map (fun tc => tc.Config.Name)
    ∧ ∀ (i : Nat) (tc : RelayerTestCase), testCases[i]? = some tc →
        missingCapabilities rf tc.Config.RequiredRelayerCapabilities ≠ [] →
        (postRelayerStart env rf channels testCases tr).2[i]? =
          some (tc.Config.Name, Outcome.Skipped) := by
  induction testCases generalizing tr with
  | nil => simp [postRelayerStart]
  | cons t ts ih =>
    unfold postRelayerStart
    rcases hs : postRelayerStartSubtest env rf t channels tr with ⟨tr1, outcome⟩
    have ih1 := ih tr1
    simp only [List.map_cons, List.cons.injEq, true_and]
    refine ⟨ih1.1, ?_⟩
    intro i tc hi hm
    cases i with
    | zero =>
      simp only [List.getElem?_cons_zero, Option.some.injEq] at hi
      subst hi
      have : outcome = .Skipped := by
        unfold postRelayerStartSubtest requireCapabilities at hs
        simp only at hs
        rw [if_pos (List.length_pos.mpr hm)] at hs
        exact (congrArg Prod.snd hs).symm
      simp [this]
    | succ j =>
      simp only [List.getElem?_cons_succ] at hi ⊢
      exact ih1.2 j tc hi hm

theorem TestChainPairOver_funcs (configs : List RelayerTestCaseConfig) (env : Env)
    (rf : RelayerFactory) (relayerImpl : Option Relayer) (randomSuffix : String)
    (pathNames : List String) (tr : Trace) :
    (TestChainPairOver configs env rf relayerImpl randomSuffix pathNames tr).preRelayerStartFuncs
      = (configs.enum.filter
          (fun p => (missingCapabilities rf p.2.RequiredRelayerCapabilities).isEmpty)).map
          (fun p => preRelayerStartFunc env randomSuffix p.1) := by
  unfold TestChainPairOver
  rw [registerTestCases_eq]
  simp only [List.nil_append, List.length_nil]
  split
  · rfl
  · split <;> rfl

theorem TestChainPairOver_report (configs : List RelayerTestCaseConfig) (env : Env)
    (rf : RelayerFactory) (relayerImpl : Option Relayer) (randomSuffix : String)
    (pathNames : List String) (tr : Trace) (report : List (String × Outcome))
    (h : (TestChainPairOver configs env rf relayerImpl randomSuffix pathNames tr).status
      = .completed report) :
    report.map Prod.fst = configs.map (fun c => c.Name)
    ∧ ∀ (i : Nat) (cfg : RelayerTestCaseConfig), configs[i]? = some cfg →
        missingCapabilities rf cfg.RequiredRelayerCapabilities ≠ [] →
        report[i]? = some (cfg.Name, Outcome.Skipped) := by
  unfold TestChainPairOver at h
  rw [registerTestCases_eq] at h
  simp only [List.nil_append, List.length_nil] at h
  split at h
  · simp at h
  · rename_i r tr1 _
    have hinv := StopStartRelayerWithPreStartFuncs_invariant
      (fun tcs : List RelayerTestCase => tcs.map (fun tc => tc.Config) = configs)
      env.srcChain.Config.ChainID env.dstChain.Config.ChainID r
      (((configs.enum.filter
          (fun p => (missingCapabilities rf p.2.RequiredRelayerCapabilities).isEmpty)).map
          (fun p => preRelayerStartFunc env randomSuffix p.1)).map some) pathNames
      (configs.map
          (fun c => ({ Config := c, Users := [], TxCache := ⟨[], []⟩ } : RelayerTestCase))) tr1
      (by
        intro f hf channels s tr2 hs
        simp only [List.mem_map, Option.some.injEq] at hf
        obtain ⟨g, ⟨p, _, hp⟩, hg⟩ := hf
        subst hg
        subst hp
        rw [preRelayerStartFunc_configs]
        exact hs)
      (by simp [List.map_map, Function.comp_def])
    split at h
    · simp at h
    · simp at h
    · rename_i testCases1 tr2 channels hss
      simp only [RunStatus.completed.injEq] at h
      have hst : testCases1.map (fun tc => tc.Config) = configs := by
        simp only [List.enum] at hinv
        rw [hss] at hinv
        exact hinv
      have hrep := postRelayerStart_report env rf channels testCases1 tr2
      rw [h] at hrep
      refine ⟨?_, ?_⟩
      · rw [hrep.1, ← hst, List.map_map]
        rfl
      · intro i cfg hi hm
        subst hst
        rw [List.getElem?_map] at hi
        cases htc : testCases1[i]? with
        | none => rw [htc] at hi; simp at hi
        | some tc =>
          rw [htc] at hi
          simp only [Option.map_some', Option.some.injEq] at hi
          subst hi
          exact hrep.2 i tc htc hm

theorem relayerTestCaseConfigs_names_nodup :
    (relayerTestCaseConfigs.map (fun c => c.Name)).Nodup := by
  decide

/-- C2: the setup hooks `TestChainPair` registers are those of the scenarios
with no missing capability, one each, in registry order; and whenever the
assertion phase runs, the report entry of a scenario with a missing
capability is `Skipped`, and no entry under its name is anything else. -/
theorem TestChainPair_capability_gate (env : Env) (rf : RelayerFactory)
    (relayerImpl : Option Relayer) (randomSuffix : String) (pathNames : List String)
    (tr : Trace) :
    (TestChainPair env rf relayerImpl randomSuffix pathNames tr).preRelayerStartFuncs
      = (relayerTestCaseConfigs.enum.filter
          (fun p => (missingCapabilities rf p.2.RequiredRelayerCapabilities).isEmpty)).map
          (fun p => preRelayerStartFunc env randomSuffix p.1)
    ∧ ∀ report : List (String × Outcome),
        (TestChainPair env rf relayerImpl randomSuffix pathNames tr).status = .completed report →
        ∀ (i : Nat) (cfg : RelayerTestCaseConfig), relayerTestCaseConfigs[i]? = some cfg →
          missingCapabilities rf cfg.RequiredRelayerCapabilities ≠ [] →
          report[i]? = some (cfg.Name, Outcome.Skipped)
          ∧ ∀ o : Outcome, (cfg.Name, o) ∈ report → o = Outcome.Skipped := by
  refine ⟨TestChainPairOver_funcs _ env rf relayerImpl randomSuffix pathNames tr, ?_⟩
  intro report h i cfg hi hm
  have hrep := TestChainPairOver_report _ env rf relayerImpl randomSuffix pathNames tr report h
  have hskip := hrep.2 i cfg hi hm
  refine ⟨hskip, ?_⟩
  intro o ho
  obtain ⟨j, hj⟩ := List.mem_iff_getElem?.mp ho
  have hnj : (relayerTestCaseConfigs.map (fun c => c.Name))[j]? = some cfg.Name := by
    rw [← hrep.1, List.getElem?_map, hj]
    rfl
  have hni : (relayerTestCaseConfigs.map (fun c => c.Name))[i]? = some cfg.Name := by
    rw [List.getElem?_map, hi]
    rfl
  have hlt : i < (relayerTestCaseConfigs.map (fun c => c.Name)).length := by
    rcases List.getElem?_eq_some_iff.mp hni with ⟨hlt, _⟩
    exact hlt
  have hij : i = j :=
    List.getElem?_inj hlt relayerTestCaseConfigs_names_nodup (hni.trans hnj.symm)
  subst hij
  rw [hj] at hskip
  simp only [Option.some.injEq, Prod.mk.injEq, true_and] at hskip
  exact hskip

/-- C2 at a relay that advertises only the timestamp timeout: three hooks are
registered and the height timeout scenario reports `Skipped`. -/
theorem TestChainPair_capability_gate_witness :
    (TestChainPair (exampleEnv 0 0 0) (exampleFactory [Capability.TimestampTimeout])
        (some exampleRelayer) "abcd" ["rly-xion-osmo"] []).preRelayerStartFuncs.length = 3
    ∧ ∃ report, (TestChainPair (exampleEnv 0 0 0) (exampleFactory [Capability.TimestampTimeout])
        (some exampleRelayer) "abcd" ["rly-xion-osmo"] []).status = .completed report
      ∧ report[2]? = some ("height timeout", Outcome.Skipped) := by
  have h := TestChainPair_capability_gate (exampleEnv 0 0 0)
    (exampleFactory [Capability.TimestampTimeout]) (some exampleRelayer) "abcd"
    ["rly-xion-osmo"] []
  refine ⟨by rw [h.1]; decide, ?_⟩
  have hc : ∃ report, (TestChainPair (exampleEnv 0 0 0)
      (exampleFactory [Capability.TimestampTimeout])
      (some exampleRelayer) "abcd" ["rly-xion-osmo"] []).status = .completed report :=
    ⟨[("relay packet", .Failed), ("no timeout", .Failed), ("height timeout", .Skipped),
      ("timestamp timeout", .Failed)], by decide⟩
  obtain ⟨report, hr⟩ := hc
  exact ⟨report, hr, (h.2 report hr 2 _ rfl (by decide)).1⟩

/-! ## Theorems: BalanceInvariantChecker -/

theorem successSrcToDstStep_shape (env : Env) (srcUser : Wallet) (channels : List ChannelOutput)
    (i : Nat) (tx : Tx) (tr : Trace) :
    ∃ evs, (successSrcToDstStep env srcUser channels i tx tr).1 = tr ++ evs
      ∧ iterationShape (ackEvent .src tx) evs (successSrcToDstStep env srcUser channels i tx tr).2 := by
  unfold successSrcToDstStep iterationShape
  simp only [ackPolled, balanceRead, settled, List.append_assoc, List.singleton_append]
  repeat' split
  all_goals first
    | exact ⟨_, rfl, Or.inr (Or.inl ⟨rfl, _, rfl⟩)⟩
    | exact ⟨_, rfl, Or.inr (Or.inr ⟨_, rfl, by simp [Event.isPoll]⟩)⟩

theorem successDstToSrcStep_shape (env : Env) (users : List Wallet) (channels : List ChannelOutput)
    (i : Nat) (tx : Tx) (tr : Trace) :
    ∃ evs, (successDstToSrcStep env users channels i tx tr).1 = tr ++ evs
      ∧ iterationShape (ackEvent .dst tx) evs (successDstToSrcStep env users channels i tx tr).2 := by
  unfold successDstToSrcStep iterationShape
  simp only [ackPolled, balanceRead, settled, List.append_assoc, List.singleton_append]
  repeat' split
  all_goals first
    | exact ⟨[], (List.append_nil tr).symm, Or.inl ⟨rfl, by simp⟩⟩
    | exact ⟨_, rfl, Or.inr (Or.inl ⟨rfl, _, rfl⟩)⟩
    | exact ⟨_, rfl, Or.inr (Or.inr ⟨_, rfl, by simp [Event.isPoll]⟩)⟩

theorem failSrcToDstStep_shape (env : Env) (srcUser : Wallet) (channels : List ChannelOutput)
    (i : Nat) (tx : Tx) (tr : Trace) :
    ∃ evs, (failSrcToDstStep env srcUser channels i tx tr).1 = tr ++ evs
      ∧ iterationShape (timeoutEvent .src tx) evs (failSrcToDstStep env srcUser channels i tx tr).2 := by
  unfold failSrcToDstStep iterationShape
  simp only [timeoutPolled, balanceRead, settled, List.append_assoc, List.singleton_append]
  repeat' split
  all_goals first
    | exact ⟨_, rfl, Or.inr (Or.inl ⟨rfl, _, rfl⟩)⟩
    | exact ⟨_, rfl, Or.inr (Or.inr ⟨_, rfl, by simp [Event.isPoll]⟩)⟩

theorem failDstToSrcStep_shape (env : Env) (dstUser : Wallet) (channels : List ChannelOutput)
    (i : Nat) (tx : Tx) (tr : Trace) :
    ∃ evs, (failDstToSrcStep env dstUser channels i tx tr).1 = tr ++ evs
      ∧ iterationShape (timeoutEvent .dst tx) evs (failDstToSrcStep env dstUser channels i tx tr).2 := by
  unfold failDstToSrcStep iterationShape
  simp only [timeoutPolled, balanceRead, settled, List.append_assoc, List.singleton_append]
  repeat' split
  all_goals first
    | exact ⟨_, rfl, Or.inr (Or.inl ⟨rfl, _, rfl⟩)⟩
    | exact ⟨_, rfl, Or.inr (Or.inr ⟨_, rfl, by simp [Event.isPoll]⟩)⟩

theorem isFailedPoll_of_not_isPoll (e : Event) (h : e.isPoll = false) :
    e.isFailedPoll = false := by
  cases e <;> simp_all [Event.isPoll, Event.isFailedPoll]

theorem forRecords_pollDiscipline (step : Nat → Tx → Trace → Trace × Verdict)
    (poll : Tx → Bool → Event)
    (hpoll : ∀ tx, (poll tx true).isPoll = true ∧ (poll tx true).isFailedPoll = false
      ∧ (poll tx false).isFailedPoll = true)
    (hstep : ∀ i tx tr, ∃ evs, (step i tx tr).1 = tr ++ evs
      ∧ iterationShape (poll tx) evs (step i tx tr).2)
    (txs : List Tx) (i : Nat) (tr : Trace) :
    ∃ evs, (forRecords step txs i tr).1 = tr ++ evs
      ∧ pollDiscipline poll txs evs (forRecords step txs i tr).2 := by
  induction txs generalizing i tr with
  | nil =>
    refine ⟨[], by simp [forRecords], ?_, ⟨[], [], rfl, by simp, Or.inl rfl⟩, ?_⟩
    · intro e he; simp at he
    · intro _; rfl
  | cons tx rest ih =>
    obtain ⟨evs1, h1, shape⟩ := hstep i tx tr
    obtain ⟨hp1, hp2, hp3⟩ := hpoll tx
    unfold forRecords
    rcases hs : step i tx tr with ⟨tr1, v1⟩
    rw [hs] at h1 shape
    simp only at h1 shape
    by_cases hv : v1 = .passed
    · subst hv
      simp only
      obtain ⟨evs2, h2, hd1, ⟨body, tail, hbt, hbody, htail⟩, hd3⟩ := ih (i + 1) tr1
      rcases shape with ⟨_, hne⟩ | ⟨_, _, hf⟩ | ⟨r1, hr1, hnp⟩
      · exact absurd rfl hne
      · cases hf
      · subst hr1
        refine ⟨(poll tx true :: r1) ++ evs2, by rw [h2, h1, List.append_assoc], ?_,
          ⟨(poll tx true :: r1) ++ body, tail, by rw [hbt, List.append_assoc], ?_, htail⟩, ?_⟩
        · intro e he hpe
          rcases List.mem_append.mp he with he1 | he2
          · rcases List.mem_cons.mp he1 with rfl | he3
            · exact ⟨tx, List.mem_cons_self _ _, true, rfl⟩
            · rw [hnp e he3] at hpe; cases hpe
          · obtain ⟨tx2, htx2, ok, hok⟩ := hd1 e he2 hpe
            exact ⟨tx2, List.mem_cons_of_mem _ htx2, ok, hok⟩
        · intro e he
          rcases List.mem_append.mp he with he1 | he2
          · rcases List.mem_cons.mp he1 with rfl | he3
            · exact hp2
            · exact isFailedPoll_of_not_isPoll e (hnp e he3)
          · exact hbody e he2
        · intro hpass
          have hr1nil : r1.filter Event.isPoll = [] := by
            rw [List.filter_eq_nil_iff]
            intro e he
            simp [hnp e he]
          simp [List.filter_cons, hp1, hr1nil, hd3 hpass]
    · have hres : (match (tr1, v1) with
          | (tr1, Verdict.passed) => forRecords step rest (i + 1) tr1
          | r => r) = (tr1, v1) := by
        cases v1 with
        | passed => exact absurd rfl hv
        | failed m => rfl
        | panicked m => rfl
      rw [hres]
      simp only
      refine ⟨evs1, h1, ?_, ?_, fun hpass => absurd hpass hv⟩
      · intro e he hpe
        rcases shape with ⟨hnil, _⟩ | ⟨hone, _⟩ | ⟨r1, hr1, hnp⟩
        · rw [hnil] at he; simp at he
        · rw [hone] at he
          simp only [List.mem_singleton] at he
          exact ⟨tx, List.mem_cons_self _ _, false, he⟩
        · rw [hr1] at he
          rcases List.mem_cons.mp he with rfl | he3
          · exact ⟨tx, List.mem_cons_self _ _, true, rfl⟩
          · rw [hnp e he3] at hpe; cases hpe
      · rcases shape with ⟨hnil, _⟩ | ⟨hone, msg, hf⟩ | ⟨r1, hr1, hnp⟩
        · exact ⟨[], [], by simp [hnil], by simp, Or.inl rfl⟩
        · exact ⟨[], [poll tx false], by simp [hone], by simp,
            Or.inr ⟨_, msg, rfl, hp3, hf⟩⟩
        · refine ⟨evs1, [], by simp, ?_, Or.inl rfl⟩
          intro e he
          rw [hr1] at he
          rcases List.mem_cons.mp he with rfl | he3
          · exact hp2
          · exact isFailedPoll_of_not_isPoll e (hnp e he3)

theorem twoLoops_pollDiscipline (poll : ChainSide → Tx → Bool → Event) (cache : TxCache)
    (evs1 evs2 : List Event) (v1 v2 : Verdict)
    (h1 : pollDiscipline (poll .src) cache.Src evs1 v1)
    (h2 : pollDiscipline (poll .dst) cache.Dst evs2 v2) :
    (v1 = .passed → procedurePollDiscipline poll cache (evs1 ++ evs2) v2)
    ∧ (v1 ≠ .passed → procedurePollDiscipline poll cache evs1 v1) := by
  obtain ⟨a1, ⟨body1, tail1, hbt1, hb1, ht1⟩, c1⟩ := h1
  obtain ⟨a2, ⟨body2, tail2, hbt2, hb2, ht2⟩, c2⟩ := h2
  constructor
  · intro hv
    have htail1 : tail1 = [] := by
      rcases ht1 with h | ⟨e, msg, _, _, hf⟩
      · exact h
      · rw [hv] at hf; cases hf
    refine ⟨?_, ⟨evs1 ++ body2, tail2, by rw [hbt2, List.append_assoc], ?_, ht2⟩, ?_⟩
    · intro e he hpe
      rcases List.mem_append.mp he with he1 | he2
      · exact Or.inl (a1 e he1 hpe)
      · exact Or.inr (a2 e he2 hpe)
    · intro e he
      rcases List.mem_append.mp he with he1 | he2
      · rw [hbt1, htail1, List.append_nil] at he1
        exact hb1 e he1
      · exact hb2 e he2
    · intro hv2
      rw [List.filter_append, c1 hv, c2 hv2]
  · intro hv
    refine ⟨?_, ⟨body1, tail1, hbt1, hb1, ht1⟩, fun h => absurd h hv⟩
    intro e he hpe
    exact Or.inl (a1 e he hpe)

theorem ackEvent_flags (side : ChainSide) (tx : Tx) :
    (ackEvent side tx true).isPoll = true ∧ (ackEvent side tx true).isFailedPoll = false
      ∧ (ackEvent side tx false).isFailedPoll = true := by
  simp [ackEvent, Event.isPoll, Event.isFailedPoll]

theorem timeoutEvent_flags (side : ChainSide) (tx : Tx) :
    (timeoutEvent side tx true).isPoll = true ∧ (timeoutEvent side tx true).isFailedPoll = false
      ∧ (timeoutEvent side tx false).isFailedPoll = true := by
  simp [timeoutEvent, Event.isPoll, Event.isFailedPoll]

theorem testPacketRelaySuccess_pollDiscipline (env : Env) (testCase : TestCaseState)
    (channels : List ChannelOutput) (tr : Trace) :
    ∃ evs, (testPacketRelaySuccess env testCase channels tr).1 = tr ++ evs
      ∧ procedurePollDiscipline ackEvent testCase.TxCache evs
          (testPacketRelaySuccess env testCase channels tr).2 := by
  unfold testPacketRelaySuccess
  cases hu : testCase.Users[0]? with
  | none =>
    exact ⟨[], by simp, by intro e he; simp at he, ⟨[], [], rfl, by simp, Or.inl rfl⟩,
      by intro h; cases h⟩
  | some srcUser =>
    simp only
    obtain ⟨evs1, h1, d1⟩ := forRecords_pollDiscipline (successSrcToDstStep env srcUser channels)
      (ackEvent .src) (ackEvent_flags .src) (successSrcToDstStep_shape env srcUser channels)
      testCase.TxCache.Src 0 tr
    rcases hs : forRecords (successSrcToDstStep env srcUser channels) testCase.TxCache.Src 0 tr
      with ⟨tr1, v1⟩
    rw [hs] at h1 d1
    simp only at h1 d1
    obtain ⟨evs2, h2, d2⟩ := forRecords_pollDiscipline
      (successDstToSrcStep env testCase.Users channels)
      (ackEvent .dst) (ackEvent_flags .dst) (successDstToSrcStep_shape env testCase.Users channels)
      testCase.TxCache.Dst 0 tr1
    have hc := twoLoops_pollDiscipline ackEvent testCase.TxCache evs1 evs2 v1 _ d1 d2
    cases v1 with
    | passed => exact ⟨evs1 ++ evs2, by rw [h2, h1, List.append_assoc], hc.1 rfl⟩
    | failed m => exact ⟨evs1, h1, hc.2 (by simp)⟩
    | panicked m => exact ⟨evs1, h1, hc.2 (by simp)⟩

theorem testPacketRelayFail_pollDiscipline (env : Env) (testCase : TestCaseState)
    (channels : List ChannelOutput) (tr : Trace) :
    ∃ evs, (testPacketRelayFail env testCase channels tr).1 = tr ++ evs
      ∧ procedurePollDiscipline timeoutEvent testCase.TxCache evs
          (testPacketRelayFail env testCase channels tr).2 := by
  unfold testPacketRelayFail
  cases hu : testCase.Users[0]? with
  | none =>
    exact ⟨[], by simp, by intro e he; simp at he, ⟨[], [], rfl, by simp, Or.inl rfl⟩,
      by intro h; cases h⟩
  | some srcUser =>
    simp only
    cases hu1 : testCase.Users[1]? with
    | none =>
      exact ⟨[], by simp, by intro e he; simp at he, ⟨[], [], rfl, by simp, Or.inl rfl⟩,
        by intro h; cases h⟩
    | some dstUser =>
      simp only
      obtain ⟨evs1, h1, d1⟩ := forRecords_pollDiscipline (failSrcToDstStep env srcUser channels)
        (timeoutEvent .src) (timeoutEvent_flags .src) (failSrcToDstStep_shape env srcUser channels)
        testCase.TxCache.Src 0 tr
      rcases hs : forRecords (failSrcToDstStep env srcUser channels) testCase.TxCache.Src 0 tr
        with ⟨tr1, v1⟩
      rw [hs] at h1 d1
      simp only at h1 d1
      obtain ⟨evs2, h2, d2⟩ := forRecords_pollDiscipline (failDstToSrcStep env dstUser channels)
        (timeoutEvent .dst) (timeoutEvent_flags .dst) (failDstToSrcStep_shape env dstUser channels)
        testCase.TxCache.Dst 0 tr1
      have hc := twoLoops_pollDiscipline timeoutEvent testCase.TxCache evs1 evs2 v1 _ d1 d2
      cases v1 with
      | passed => exact ⟨evs1 ++ evs2, by rw [h2, h1, List.append_assoc], hc.1 rfl⟩
      | failed m => exact ⟨evs1, h1, hc.2 (by simp)⟩
      | panicked m => exact ⟨evs1, h1, hc.2 (by simp)⟩

/-- C5: in both assertion procedures and both directions every poll is made
for a cached record with the window from the height stored in the record to
that height plus 50 (in `uint64` arithmetic, which is the exact sum below
`2 ^ 64`); a poll that finds nothing is the last call of the procedure, so no
balance query follows it, and the verdict is then a failure; a procedure that
passes has polled every cached record successfully; and an iteration whose
poll finds nothing fails at once with the poll error, having made no other
call. -/
theorem poll_window_and_exhaustion (env : Env) (testCase : TestCaseState)
    (channels : List ChannelOutput) (tr : Trace) :
    (∀ (side : ChainSide) (tx : Tx) (ok : Bool),
      ackEvent side tx ok
        = .pollForAck side tx.Height (wrapUint64 (tx.Height + 50)) tx.Packet ok
      ∧ timeoutEvent side tx ok
        = .pollForTimeout side tx.Height (wrapUint64 (tx.Height + 50)) tx.Packet ok
      ∧ (tx.Height + 50 < 2 ^ 64 → wrapUint64 (tx.Height + 50) = tx.Height + 50))
    ∧ (∃ evs, (testPacketRelaySuccess env testCase channels tr).1 = tr ++ evs
        ∧ procedurePollDiscipline ackEvent testCase.TxCache evs
            (testPacketRelaySuccess env testCase channels tr).2)
    ∧ (∃ evs, (testPacketRelayFail env testCase channels tr).1 = tr ++ evs
        ∧ procedurePollDiscipline timeoutEvent testCase.TxCache evs
            (testPacketRelayFail env testCase channels tr).2)
    ∧ (∀ (srcUser : Wallet) (i : Nat) (tx : Tx) (h : Trace) (e : String),
        env.PollForAck h .src tx.Height (pollWindowEnd tx) tx.Packet = .error e →
        successSrcToDstStep env srcUser channels i tx h
          = (h ++ [ackEvent .src tx false],
              .failed ("failed to get acknowledgement on source chain: " ++ e)))
    ∧ (∀ (users : List Wallet) (dstUser : Wallet) (i : Nat) (tx : Tx) (h : Trace) (e : String),
        users[1]? = some dstUser →
        env.PollForAck h .dst tx.Height (pollWindowEnd tx) tx.Packet = .error e →
        successDstToSrcStep env users channels i tx h
          = (h ++ [ackEvent .dst tx false],
              .failed ("failed to get acknowledgement on destination chain: " ++ e)))
    ∧ (∀ (srcUser : Wallet) (i : Nat) (tx : Tx) (h : Trace) (e : String),
        env.PollForTimeout h .src tx.Height (pollWindowEnd tx) tx.Packet = .error e →
        failSrcToDstStep env srcUser channels i tx h
          = (h ++ [timeoutEvent .src tx false],
              .failed ("failed to get timeout packet on source chain: " ++ e)))
    ∧ (∀ (dstUser : Wallet) (i : Nat) (tx : Tx) (h : Trace) (e : String),
        env.PollForTimeout h .dst tx.Height (pollWindowEnd tx) tx.Packet = .error e →
        failDstToSrcStep env dstUser channels i tx h
          = (h ++ [timeoutEvent .dst tx false],
              .failed ("failed to get timeout packet on destination chain: " ++ e))) := by
  refine ⟨?_, testPacketRelaySuccess_pollDiscipline env testCase channels tr,
    testPacketRelayFail_pollDiscipline env testCase channels tr, ?_, ?_, ?_, ?_⟩
  · intro side tx ok
    refine ⟨rfl, rfl, ?_⟩
    intro h
    exact Nat.mod_eq_of_lt h
  · intro srcUser i tx h e he
    unfold successSrcToDstStep
    simp only [he]
    rfl
  · intro users dstUser i tx h e hu he
    unfold successDstToSrcStep
    simp only [hu, he]
    rfl
  · intro srcUser i tx h e he
    unfold failSrcToDstStep
    simp only [he]
    rfl
  · intro dstUser i tx h e he
    unfold failDstToSrcStep
    simp only [he]
    rfl

/-- C5 on a world whose pollers find nothing: the first iteration of either
procedure ends with the failed poll over the window 7 to 57 and a failure. -/
theorem poll_window_and_exhaustion_witness :
    successSrcToDstStep exhaustedEnv (exampleWallet "relay-packet-abcd-0") [exampleChannel] 0
        ⟨7, "A1", 200000, ⟨1, "channel-0", ""⟩⟩ []
      = ([Event.pollForAck .src 7 57 ⟨1, "channel-0", ""⟩ false],
          Verdict.failed "failed to get acknowledgement on source chain: not found")
    ∧ successDstToSrcStep exhaustedEnv exampleTestCase.Users [exampleChannel] 0
        ⟨9, "B2", 200000, ⟨1, "channel-1", ""⟩⟩ []
      = ([Event.pollForAck .dst 9 59 ⟨1, "channel-1", ""⟩ false],
          Verdict.failed "failed to get acknowledgement on destination chain: not found")
    ∧ failSrcToDstStep exhaustedEnv (exampleWallet "relay-packet-abcd-0") [exampleChannel] 0
        ⟨7, "A1", 200000, ⟨1, "channel-0", ""⟩⟩ []
      = ([Event.pollForTimeout .src 7 57 ⟨1, "channel-0", ""⟩ false],
          Verdict.failed "failed to get timeout packet on source chain: not found")
    ∧ failDstToSrcStep exhaustedEnv (exampleWallet "relay-packet-abcd-1") [exampleChannel] 0
        ⟨9, "B2", 200000, ⟨1, "channel-1", ""⟩⟩ []
      = ([Event.pollForTimeout .dst 9 59 ⟨1, "channel-1", ""⟩ false],
          Verdict.failed "failed to get timeout packet on destination chain: not found") := by
  have h := poll_window_and_exhaustion exhaustedEnv exampleTestCase [exampleChannel] []
  obtain ⟨_, _, _, h1, h2, h3, h4⟩ := h
  exact ⟨h1 _ 0 _ [] "not found" rfl, h2 _ (exampleWallet "relay-packet-abcd-1") 0 _ []
    "not found" rfl rfl, h3 _ 0 _ [] "not found" rfl, h4 _ 0 _ [] "not found" rfl⟩

/-! ## Theorems: ChainPairOrchestrator -/

/-- C6 as stated fails: with no path name the configuration error is returned
only after the relay has been stopped, the channel discovered and the setup
hook run, which has funded the wallets and sent a transfer in each
direction. -/
theorem StopStartRelayerWithPreStartFuncs_no_paths_is_late :
    (StopStartRelayerWithPreStartFuncs "xion-1" "osmosis-1" exampleRelayer
        [some (preRelayerStartFunc (exampleEnv 0 0 0) "abcd" 0)] [] [exampleRelayPacketCase] []).ret
      = some (.error .noPathNames)
    ∧ (StopStartRelayerWithPreStartFuncs "xion-1" "osmosis-1" exampleRelayer
        [some (preRelayerStartFunc (exampleEnv 0 0 0) "abcd" 0)] [] [exampleRelayPacketCase]
        []).trace.take 3
      = [.stopRelayer true, .getTransferChannel "xion-1" "osmosis-1" true,
          .preRelayerStart 0 [exampleChannel]]
    ∧ ((StopStartRelayerWithPreStartFuncs "xion-1" "osmosis-1" exampleRelayer
        [some (preRelayerStartFunc (exampleEnv 0 0 0) "abcd" 0)] [] [exampleRelayPacketCase]
        []).trace.filter Event.isFunding).length = 1
    ∧ ((StopStartRelayerWithPreStartFuncs "xion-1" "osmosis-1" exampleRelayer
        [some (preRelayerStartFunc (exampleEnv 0 0 0) "abcd" 0)] [] [exampleRelayPacketCase]
        []).trace.filter Event.isSend).length = 2 := by
  refine ⟨rfl, by decide, by decide, by decide⟩

theorem StopStartRelayerWithPreStartFuncs_discovery_error {σ : Type} (srcChainID dstChainID : String)
    (relayerImpl : Relayer) (funcs : List (Option (PreRelayerStartFunc σ)))
    (pathNames : List String) (s : σ) (tr : Trace) (e : String)
    (h : discovery srcChainID dstChainID relayerImpl tr = .error e) :
    StopStartRelayerWithPreStartFuncs srcChainID dstChainID relayerImpl funcs pathNames s tr
      = ⟨s, afterStop relayerImpl tr ++ [.getTransferChannel srcChainID dstChainID false],
          some (.error (.getTransferChannel e))⟩ := by
  unfold discovery afterStop at h
  unfold StopStartRelayerWithPreStartFuncs afterStop
  simp only [h]

theorem StopStartRelayerWithPreStartFuncs_discovered {σ : Type} (srcChainID dstChainID : String)
    (relayerImpl : Relayer) (funcs : List (Option (PreRelayerStartFunc σ)))
    (pathNames : List String) (s : σ) (tr : Trace) (channel : ChannelOutput)
    (h : discovery srcChainID dstChainID relayerImpl tr = .ok channel) :
    StopStartRelayerWithPreStartFuncs srcChainID dstChainID relayerImpl funcs pathNames s tr
      = (match hooksRun srcChainID dstChainID relayerImpl funcs s tr channel with
        | (s3, tr3, false) => ⟨s3, tr3, none⟩
        | (s3, tr3, true) =>
          if pathNames.length = 0 then ⟨s3, tr3, some (.error .noPathNames)⟩
          else
            match relayerImpl.StartRelayer tr3 pathNames with
            | some e => ⟨s3, tr3 ++ [.startRelayer pathNames false], some (.error (.startRelayer e))⟩
            | none =>
              ⟨s3, tr3 ++ [.startRelayer pathNames true, .registerCleanup, .sleep 5],
                some (.ok [channel])⟩) := by
  unfold discovery afterStop at h
  unfold StopStartRelayerWithPreStartFuncs hooksRun afterStop
  simp only [h]
  rfl

/-- C6 (amended): with no path name the relay is never started. When the
channel discovery fails its error is returned. When it succeeds the state and
the history at the end are those left by the setup hooks, which ran after the
relay stop and the discovery; the configuration error is returned when all
hooks returned, and the call does not return otherwise. -/
theorem StopStartRelayerWithPreStartFuncs_no_paths {σ : Type} (srcChainID dstChainID : String)
    (relayerImpl : Relayer) (funcs : List (Option (PreRelayerStartFunc σ))) (s : σ) (tr : Trace) :
    (∀ e, discovery srcChainID dstChainID relayerImpl tr = .error e →
      StopStartRelayerWithPreStartFuncs srcChainID dstChainID relayerImpl funcs [] s tr
        = ⟨s, afterStop relayerImpl tr ++ [.getTransferChannel srcChainID dstChainID false],
            some (.error (.getTransferChannel e))⟩)
    ∧ (∀ channel, discovery srcChainID dstChainID relayerImpl tr = .ok channel →
        (StopStartRelayerWithPreStartFuncs srcChainID dstChainID relayerImpl funcs [] s tr).state
          = (hooksRun srcChainID dstChainID relayerImpl funcs s tr channel).1
        ∧ (StopStartRelayerWithPreStartFuncs srcChainID dstChainID relayerImpl funcs [] s tr).trace
          = (hooksRun srcChainID dstChainID relayerImpl funcs s tr channel).2.1
        ∧ ((hooksRun srcChainID dstChainID relayerImpl funcs s tr channel).2.2 = true →
            (StopStartRelayerWithPreStartFuncs srcChainID dstChainID relayerImpl funcs [] s tr).ret
              = some (.error .noPathNames))
        ∧ ((hooksRun srcChainID dstChainID relayerImpl funcs s tr channel).2.2 = false →
            (StopStartRelayerWithPreStartFuncs srcChainID dstChainID relayerImpl funcs [] s tr).ret
              = none)) := by
  refine ⟨fun e h => StopStartRelayerWithPreStartFuncs_discovery_error _ _ _ _ _ _ _ e h, ?_⟩
  intro channel h
  rw [StopStartRelayerWithPreStartFuncs_discovered _ _ _ _ _ _ _ channel h]
  rcases hooksRun srcChainID dstChainID relayerImpl funcs s tr channel with ⟨s3, tr3, b⟩
  cases b <;> simp

/-- C6 (amended) on a relayer whose calls succeed and one hook that returns:
the configuration error is returned after the hook has run once and the
history then holds the stop, the discovery and the calls of the hook. -/
theorem StopStartRelayerWithPreStartFuncs_no_paths_witness :
    (StopStartRelayerWithPreStartFuncs "xion-1" "osmosis-1" exampleRelayer [some exampleHook] []
        0 []).ret = some (.error .noPathNames)
    ∧ (StopStartRelayerWithPreStartFuncs "xion-1" "osmosis-1" exampleRelayer [some exampleHook] []
        0 []).state = 1
    ∧ (StopStartRelayerWithPreStartFuncs "xion-1" "osmosis-1" exampleRelayer [some exampleHook] []
        0 []).trace
      = [.stopRelayer true, .getTransferChannel "xion-1" "osmosis-1" true,
          .preRelayerStart 0 [exampleChannel], .getAndFundTestUsers "k" 10000000000 true,
          .preRelayerStartDone 0] := by
  have h := (StopStartRelayerWithPreStartFuncs_no_paths "xion-1" "osmosis-1" exampleRelayer
    [some exampleHook] 0 []).2 exampleChannel rfl
  exact ⟨h.2.2.1 rfl, h.1, h.2.1⟩

/-- C7: the call at a failing input. No path name is supplied, so an error is
due, yet none is returned: the hook of `TestChainPair` ends its goroutine with
`t.FailNow` when the funding helper fails, the `wg.Done()` of line 304, which
is not deferred, is not reached, and the `wg.Wait()` of line 307 does not
return. -/
theorem StopStartRelayerWithPreStartFuncs_blocked_by_hook :
    (StopStartRelayerWithPreStartFuncs "xion-1" "osmosis-1" exampleRelayer
        [some (preRelayerStartFunc unfundedEnv "abcd" 0)] [] [exampleRelayPacketCase] []).ret
      = none
    ∧ ¬ ∃ err, (StopStartRelayerWithPreStartFuncs "xion-1" "osmosis-1" exampleRelayer
        [some (preRelayerStartFunc unfundedEnv "abcd" 0)] [] [exampleRelayPacketCase] []).ret
      = some (.error err) := by
  have h : (StopStartRelayerWithPreStartFuncs "xion-1" "osmosis-1" exampleRelayer
      [some (preRelayerStartFunc unfundedEnv "abcd" 0)] [] [exampleRelayPacketCase] []).ret
      = none := rfl
  refine ⟨h, ?_⟩
  rintro ⟨err, he⟩
  rw [h] at he
  cases he

/-- Provided every setup hook returns, the call returns; it
returns an error exactly when the channel discovery fails, or no path name is
supplied, or starting the relay fails; and it returns a channel list exactly
when the discovery succeeded, a path name is supplied and the relay started,
the list then holding the discovered channel and nothing else. None of these
conditions involves the answer of the initial relay stop. -/
theorem StopStartRelayerWithPreStartFuncs_returns {σ : Type} (srcChainID dstChainID : String)
    (relayerImpl : Relayer) (funcs : List (Option (PreRelayerStartFunc σ)))
    (pathNames : List String) (s : σ) (tr : Trace)
    (hooksReturn : ∀ channel, discovery srcChainID dstChainID relayerImpl tr = .ok channel →
      (hooksRun srcChainID dstChainID relayerImpl funcs s tr channel).2.2 = true) :
    (StopStartRelayerWithPreStartFuncs srcChainID dstChainID relayerImpl funcs pathNames s tr).ret
      ≠ none
    ∧ ((∃ err, (StopStartRelayerWithPreStartFuncs srcChainID dstChainID relayerImpl funcs
          pathNames s tr).ret = some (.error err)) ↔
        (∃ e, discovery srcChainID dstChainID relayerImpl tr = .error e)
        ∨ pathNames = []
        ∨ (∃ channel e, discovery srcChainID dstChainID relayerImpl tr = .ok channel
            ∧ relayerImpl.StartRelayer
                (hooksRun srcChainID dstChainID relayerImpl funcs s tr channel).2.1 pathNames
              = some e))
    ∧ (∀ channels, (StopStartRelayerWithPreStartFuncs srcChainID dstChainID relayerImpl funcs
          pathNames s tr).ret = some (.ok channels) ↔
        ∃ channel, discovery srcChainID dstChainID relayerImpl tr = .ok channel
          ∧ pathNames ≠ []
          ∧ relayerImpl.StartRelayer
              (hooksRun srcChainID dstChainID relayerImpl funcs s tr channel).2.1 pathNames = none
          ∧ channels = [channel]) := by
  cases hd : discovery srcChainID dstChainID relayerImpl tr with
  | error e =>
    rw [StopStartRelayerWithPreStartFuncs_discovery_error _ _ _ _ _ _ _ e hd]
    simp
  | ok channel =>
    have hr := hooksReturn channel hd
    rw [StopStartRelayerWithPreStartFuncs_discovered _ _ _ _ _ _ _ channel hd]
    rcases hh : hooksRun srcChainID dstChainID relayerImpl funcs s tr channel with ⟨s3, tr3, b⟩
    rw [hh] at hr
    simp only at hr
    subst hr
    simp only
    by_cases hp : pathNames = []
    · subst hp
      simp
    · have hlen : ¬ pathNames.length = 0 := by
        intro h0
        exact hp (List.length_eq_zero.mp h0)
      rw [if_neg hlen]
      cases hstart : relayerImpl.StartRelayer tr3 pathNames with
      | none => simp [hp, hh, hstart, eq_comm]
      | some e => simp [hp, hh, hstart]

/-- The call on a relayer whose stop fails and whose other calls succeed,
with one hook that returns and one path name: the discovered channel is
returned. -/
theorem StopStartRelayerWithPreStartFuncs_returns_witness :
    (StopStartRelayerWithPreStartFuncs "xion-1" "osmosis-1" stoppedRelayer [some exampleHook]
        ["rly-xion-osmo"] 0 []).ret = some (.ok [exampleChannel])
    ∧ ¬ ∃ err, (StopStartRelayerWithPreStartFuncs "xion-1" "osmosis-1" stoppedRelayer
        [some exampleHook] ["rly-xion-osmo"] 0 []).ret = some (.error err) := by
  have h := StopStartRelayerWithPreStartFuncs_returns "xion-1" "osmosis-1" stoppedRelayer
    [some exampleHook] ["rly-xion-osmo"] 0 [] (fun _ _ => rfl)
  refine ⟨(h.2.2 [exampleChannel]).mpr ⟨exampleChannel, rfl, by simp, rfl, rfl⟩, ?_⟩
  rw [h.2.1]
  rintro (⟨e, he⟩ | hp | ⟨channel, e, _, he⟩)
  · cases he
  · cases hp
  · cases he

/-! ## Theorems: derived denominations -/

/-- C8: for a bound channel, in both assertion procedures the balance queried
on the receiving chain is the one of the denomination derived, by
`IBCDenom` of `ParseDenomTrace` of `GetPrefixedDenom`, from the sending
chain's native denomination and the receiving chain's identifiers of the
binding: the counterparty port and channel for a transfer from source to
destination, the binding's own port and channel for a transfer from
destination to source. -/
theorem receiving_denom_is_derived (env : Env) (srcUser dstUser : Wallet) (users : List Wallet)
    (channels : List ChannelOutput) (i : Nat) (channel : ChannelOutput) (tx : Tx) (tr : Trace)
    (hch : channels[i]? = some channel) :
    (∃ evs, (successSrcToDstStep env srcUser channels i tx tr).1 = tr ++ evs
      ∧ queriesDenom .dst
          (env.transfertypes.IBCDenom (env.transfertypes.ParseDenomTrace
            (env.transfertypes.GetPrefixedDenom channel.Counterparty.PortID
              channel.Counterparty.ChannelID env.srcChain.Config.Denom)))
          evs (successSrcToDstStep env srcUser channels i tx tr).2)
    ∧ (∃ evs, (failSrcToDstStep env srcUser channels i tx tr).1 = tr ++ evs
      ∧ queriesDenom .dst
          (env.transfertypes.IBCDenom (env.transfertypes.ParseDenomTrace
            (env.transfertypes.GetPrefixedDenom channel.Counterparty.PortID
              channel.Counterparty.ChannelID env.srcChain.Config.Denom)))
          evs (failSrcToDstStep env srcUser channels i tx tr).2)
    ∧ (∃ evs, (successDstToSrcStep env users channels i tx tr).1 = tr ++ evs
      ∧ queriesDenom .src
          (env.transfertypes.IBCDenom (env.transfertypes.ParseDenomTrace
            (env.transfertypes.GetPrefixedDenom channel.PortID channel.ChannelID
              env.dstChain.Config.Denom)))
          evs (successDstToSrcStep env users channels i tx tr).2)
    ∧ (∃ evs, (failDstToSrcStep env dstUser channels i tx tr).1 = tr ++ evs
      ∧ queriesDenom .src
          (env.transfertypes.IBCDenom (env.transfertypes.ParseDenomTrace
            (env.transfertypes.GetPrefixedDenom channel.PortID channel.ChannelID
              env.dstChain.Config.Denom)))
          evs (failDstToSrcStep env dstUser channels i tx tr).2) := by
  refine ⟨?_, ?_, ?_, ?_⟩
  · unfold successSrcToDstStep queriesDenom
    simp only [hch, ackPolled, balanceRead, settled, ibcDenom, List.append_assoc,
      List.singleton_append]
    repeat' split
    all_goals exact ⟨_, rfl, by simp <;> (intros; assumption), by simp⟩
  · unfold failSrcToDstStep queriesDenom
    simp only [hch, timeoutPolled, balanceRead, settled, ibcDenom, List.append_assoc,
      List.singleton_append]
    repeat' split
    all_goals exact ⟨_, rfl, by simp <;> (intros; assumption), by simp⟩
  · unfold successDstToSrcStep queriesDenom
    simp only [hch, ackPolled, balanceRead, settled, ibcDenom, List.append_assoc,
      List.singleton_append]
    repeat' split
    all_goals first
      | exact ⟨[], (List.append_nil tr).symm, by simp, by simp⟩
      | exact ⟨_, rfl, by simp <;> (intros; assumption), by simp⟩
  · unfold failDstToSrcStep queriesDenom
    simp only [hch, timeoutPolled, balanceRead, settled, ibcDenom, List.append_assoc,
      List.singleton_append]
    repeat' split
    all_goals exact ⟨_, rfl, by simp <;> (intros; assumption), by simp⟩

/-- C8 on the example binding `transfer/channel-0` with counterparty
`transfer/channel-1`: a passing iteration from source to destination has
queried the denomination derived from `transfer/channel-1/uxion` on the
destination chain. -/
theorem receiving_denom_is_derived_witness :
    ∃ evs, (successSrcToDstStep (exampleEnv 9998995000 1000000 5000)
        (exampleWallet "relay-packet-abcd-0") [exampleChannel] 0
        ⟨7, "A1", 200000, ⟨1, "channel-0", ""⟩⟩ []).1 = [] ++ evs
      ∧ queriesDenom .dst "ibc/transfer/channel-1/uxion" evs
          (successSrcToDstStep (exampleEnv 9998995000 1000000 5000)
            (exampleWallet "relay-packet-abcd-0") [exampleChannel] 0
            ⟨7, "A1", 200000, ⟨1, "channel-0", ""⟩⟩ []).2 :=
  (receiving_denom_is_derived (exampleEnv 9998995000 1000000 5000)
    (exampleWallet "relay-packet-abcd-0") (exampleWallet "relay-packet-abcd-1")
    exampleTestCase.Users [exampleChannel] 0 exampleChannel
    ⟨7, "A1", 200000, ⟨1, "channel-0", ""⟩⟩ [] rfl).1

/-! ## Theorems: TransferDispatcher -/

theorem directionTask_ok (env : Env) (side : ChainSide) (keyName : String) (coin : WalletAmount)
    (timeout : Option IBCTimeout) (errText : String) (hist : Trace) (chans : List String) :
    ∀ (txs0 : List Tx) (evs0 : List Event) (txs : List Tx),
      (directionTask env side keyName coin timeout errText hist chans txs0 evs0).2 = .ok txs →
      (directionTask env side keyName coin timeout errText hist chans txs0 evs0).1
        = evs0 ++ chans.flatMap (settledSend side keyName coin timeout)
      ∧ ∃ new, txs = txs0 ++ new ∧ new.length = chans.length
        ∧ ∀ (k : Nat) (tx : Tx), new[k]? = some tx → ∃ ch, chans[k]? = some ch
          ∧ (env.chain side).SendIBCTransfer
              (hist ++ evs0 ++ (chans.take k).flatMap (settledSend side keyName coin timeout))
              ch keyName coin timeout = .ok tx := by
  induction chans with
  | nil =>
    intro txs0 evs0 txs h
    simp only [directionTask, Except.ok.injEq] at h
    subst h
    exact ⟨by simp [directionTask], [], by simp, rfl, by intro k tx hk; simp at hk⟩
  | cons ch rest ih =>
    intro txs0 evs0 txs h
    unfold directionTask at h ⊢
    cases hsend : (env.chain side).SendIBCTransfer (hist ++ evs0) ch keyName coin timeout with
    | error e => rw [hsend] at h; simp at h
    | ok tx =>
      rw [hsend] at h
      simp only at h ⊢
      cases hwait : env.WaitForBlocks
          (hist ++ (evs0 ++ [.sendIBCTransfer side ch keyName coin timeout true])) 1 [side] with
      | some e => rw [hwait] at h; simp at h
      | none =>
        rw [hwait] at h
        simp only at h ⊢
        obtain ⟨hev, new, hnew, hlen, hk⟩ := ih _ _ txs h
        refine ⟨?_, tx :: new, ?_, ?_, ?_⟩
        · rw [hev]
          simp [settledSend, List.append_assoc]
        · rw [hnew]
          simp
        · simp [hlen]
        · intro k tx2 hk2
          cases k with
          | zero =>
            simp only [List.getElem?_cons_zero, Option.some.injEq] at hk2
            subst hk2
            exact ⟨ch, by simp, by simpa using hsend⟩
          | succ j =>
            simp only [List.getElem?_cons_succ] at hk2
            obtain ⟨ch2, hch2, hs2⟩ := hk j tx2 hk2
            refine ⟨ch2, by simpa using hch2, ?_⟩
            simpa [settledSend, List.append_assoc] using hs2

theorem directionTask_error (env : Env) (side : ChainSide) (keyName : String) (coin : WalletAmount)
    (timeout : Option IBCTimeout) (errText : String) (hist : Trace) (chans : List String) :
    ∀ (txs0 : List Tx) (evs0 : List Event) (e : String),
      (directionTask env side keyName coin timeout errText hist chans txs0 evs0).2 = .error e →
      ∃ more failed,
        (directionTask env side keyName coin timeout errText hist chans txs0 evs0).1
          = evs0 ++ more ∧ failed ∈ more ∧ failed.succeeded = false := by
  induction chans with
  | nil =>
    intro txs0 evs0 e h
    simp [directionTask] at h
  | cons ch rest ih =>
    intro txs0 evs0 e h
    unfold directionTask at h ⊢
    cases hsend : (env.chain side).SendIBCTransfer (hist ++ evs0) ch keyName coin timeout with
    | error e1 =>
      simp only
      exact ⟨[.sendIBCTransfer side ch keyName coin timeout false],
        .sendIBCTransfer side ch keyName coin timeout false, rfl, by simp, rfl⟩
    | ok tx =>
      rw [hsend] at h
      simp only at h ⊢
      cases hwait : env.WaitForBlocks
          (hist ++ (evs0 ++ [.sendIBCTransfer side ch keyName coin timeout true])) 1 [side] with
      | some e1 =>
        simp only
        exact ⟨[.sendIBCTransfer side ch keyName coin timeout true, .waitForBlocks 1 [side] false],
          .waitForBlocks 1 [side] false, by simp, by simp, rfl⟩
      | none =>
        rw [hwait] at h
        simp only at h ⊢
        obtain ⟨more, failed, hev, hmem, hf⟩ := ih _ _ e h
        refine ⟨[.sendIBCTransfer side ch keyName coin timeout true, .waitForBlocks 1 [side] true]
          ++ more, failed, ?_, by simp [hmem], hf⟩
        rw [hev]
        simp [List.append_assoc]

theorem settledSend_succeeded (side : ChainSide) (keyName : String) (coin : WalletAmount)
    (timeout : Option IBCTimeout) (chans : List String) :
    ∀ e ∈ chans.flatMap (settledSend side keyName coin timeout), e.succeeded = true := by
  intro e he
  obtain ⟨ch, _, hmem⟩ := List.mem_flatMap.mp he
  simp only [settledSend, List.mem_cons, List.mem_singleton, List.not_mem_nil, or_false] at hmem
  rcases hmem with rfl | rfl <;> rfl

theorem directionTask_ok_iff (env : Env) (side : ChainSide) (keyName : String) (coin : WalletAmount)
    (timeout : Option IBCTimeout) (errText : String) (hist : Trace) (chans : List String) :
    (∃ txs, (directionTask env side keyName coin timeout errText hist chans [] []).2 = .ok txs)
      ↔ ∀ e ∈ (directionTask env side keyName coin timeout errText hist chans [] []).1,
          e.succeeded = true := by
  constructor
  · rintro ⟨txs, h⟩
    rw [(directionTask_ok env side keyName coin timeout errText hist chans [] [] txs h).1]
    simpa using settledSend_succeeded side keyName coin timeout chans
  · intro hall
    cases hr : (directionTask env side keyName coin timeout errText hist chans [] []).2 with
    | ok txs => exact ⟨txs, rfl⟩
    | error e =>
      obtain ⟨more, failed, hev, hmem, hf⟩ :=
        directionTask_error env side keyName coin timeout errText hist chans [] [] e hr
      have := hall failed (by rw [hev]; simpa using hmem)
      rw [hf] at this
      cases this

theorem srcTask_ok (env : Env) (srcUser : Wallet) (channels : List ChannelOutput)
    (timeout : Option IBCTimeout) (tr : Trace) (txs : List Tx)
    (h : (srcTask env srcUser channels timeout tr).2 = .ok txs) :
    (srcTask env srcUser channels timeout tr).1
      = (channels.map (fun c => c.ChannelID)).flatMap
          (settledSend .src srcUser.KeyName (testCoinSrcToDst env srcUser) timeout)
    ∧ txs.length = channels.length
    ∧ ∀ (k : Nat) (tx : Tx), txs[k]? = some tx →
        ∃ c, channels[k]? = some c
          ∧ env.srcChain.SendIBCTransfer
              (tr ++ ((channels.map (fun c => c.ChannelID)).take k).flatMap
                (settledSend .src srcUser.KeyName (testCoinSrcToDst env srcUser) timeout))
              c.ChannelID srcUser.KeyName (testCoinSrcToDst env srcUser) timeout = .ok tx := by
  unfold srcTask at h ⊢
  obtain ⟨hev, new, hnew, hlen, hk⟩ := directionTask_ok _ _ _ _ _ _ _ _ [] [] txs h
  simp only [List.nil_append] at hnew hev
  subst hnew
  refine ⟨hev, by simpa using hlen, ?_⟩
  intro k tx htx
  obtain ⟨ch, hch, hs⟩ := hk k tx htx
  rw [List.getElem?_map] at hch
  cases hc : channels[k]? with
  | none => rw [hc] at hch; simp at hch
  | some c =>
    rw [hc] at hch
    simp only [Option.map_some', Option.some.injEq] at hch
    subst hch
    exact ⟨c, rfl, by simpa [Env.chain] using hs⟩

theorem dstTask_ok (env : Env) (dstUser : Wallet) (channels : List ChannelOutput)
    (timeout : Option IBCTimeout) (tr : Trace) (txs : List Tx)
    (h : (dstTask env dstUser channels timeout tr).2 = .ok txs) :
    (dstTask env dstUser channels timeout tr).1
      = (channels.map (fun c => c.Counterparty.ChannelID)).flatMap
          (settledSend .dst dstUser.KeyName (testCoinDstToSrc env dstUser) timeout)
    ∧ txs.length = channels.length
    ∧ ∀ (k : Nat) (tx : Tx), txs[k]? = some tx →
        ∃ c, channels[k]? = some c
          ∧ env.dstChain.SendIBCTransfer
              (tr ++ ((channels.map (fun c => c.Counterparty.ChannelID)).take k).flatMap
                (settledSend .dst dstUser.KeyName (testCoinDstToSrc env dstUser) timeout))
              c.Counterparty.ChannelID dstUser.KeyName (testCoinDstToSrc env dstUser) timeout
            = .ok tx := by
  unfold dstTask at h ⊢
  obtain ⟨hev, new, hnew, hlen, hk⟩ := directionTask_ok _ _ _ _ _ _ _ _ [] [] txs h
  simp only [List.nil_append] at hnew hev
  subst hnew
  refine ⟨hev, by simpa using hlen, ?_⟩
  intro k tx htx
  obtain ⟨ch, hch, hs⟩ := hk k tx htx
  rw [List.getElem?_map] at hch
  cases hc : channels[k]? with
  | none => rw [hc] at hch; simp at hch
  | some c =>
    rw [hc] at hch
    simp only [Option.map_some', Option.some.injEq] at hch
    subst hch
    exact ⟨c, rfl, by simpa [Env.chain] using hs⟩

/-- C9: for a test case with its two wallets, every channel list and every
timeout, `sendIBCTransfersFromBothChainsWithTimeout` assigns the cache exactly
when every send and every one-block wait of both direction tasks succeeded
and every resulting transaction validates. It then assigns it with one
record per channel in each direction, the record at position `k` being the
answer to the send over channel `k`, the sends having been issued in channel
order, each followed by its wait. Otherwise the test case is left as it
was. -/
theorem sendIBCTransfers_cache (env : Env) (testCase : TestCaseState)
    (channels : List ChannelOutput) (timeout : Option IBCTimeout) (tr : Trace)
    (srcUser dstUser : Wallet)
    (h0 : testCase.Users[0]? = some srcUser) (h1 : testCase.Users[1]? = some dstUser) :
    (sendIBCTransfersFromBothChainsWithTimeout env testCase channels timeout tr).2.1
      = (srcTask env srcUser channels timeout tr).1
          ++ (dstTask env dstUser channels timeout tr).1
    ∧ ((sendIBCTransfersFromBothChainsWithTimeout env testCase channels timeout tr).2.2 = .passed
        ↔ (∀ e ∈ (srcTask env srcUser channels timeout tr).1
              ++ (dstTask env dstUser channels timeout tr).1, e.succeeded = true)
          ∧ (∀ txs, (srcTask env srcUser channels timeout tr).2 = .ok txs →
              ∀ tx ∈ txs, env.TxValidate tx = none)
          ∧ (∀ txs, (dstTask env dstUser channels timeout tr).2 = .ok txs →
              ∀ tx ∈ txs, env.TxValidate tx = none))
    ∧ ((sendIBCTransfersFromBothChainsWithTimeout env testCase channels timeout tr).2.2 = .passed
        → ∃ srcTxs dstTxs,
          (sendIBCTransfersFromBothChainsWithTimeout env testCase channels timeout tr).1
            = { testCase with TxCache := ⟨srcTxs, dstTxs⟩ }
          ∧ srcTxs.length = channels.length ∧ dstTxs.length = channels.length
          ∧ (srcTask env srcUser channels timeout tr).1
            = (channels.map (fun c => c.ChannelID)).flatMap
                (settledSend .src srcUser.KeyName (testCoinSrcToDst env srcUser) timeout)
          ∧ (dstTask env dstUser channels timeout tr).1
            = (channels.map (fun c => c.Counterparty.ChannelID)).flatMap
                (settledSend .dst dstUser.KeyName (testCoinDstToSrc env dstUser) timeout)
          ∧ (∀ (k : Nat) (tx : Tx), srcTxs[k]? = some tx →
              ∃ c, channels[k]? = some c
                ∧ env.srcChain.SendIBCTransfer
                    (tr ++ ((channels.map (fun c => c.ChannelID)).take k).flatMap
                      (settledSend .src srcUser.KeyName (testCoinSrcToDst env srcUser) timeout))
                    c.ChannelID srcUser.KeyName (testCoinSrcToDst env srcUser) timeout = .ok tx)
          ∧ (∀ (k : Nat) (tx : Tx), dstTxs[k]? = some tx →
              ∃ c, channels[k]? = some c
                ∧ env.dstChain.SendIBCTransfer
                    (tr ++ ((channels.map (fun c => c.Counterparty.ChannelID)).take k).flatMap
                      (settledSend .dst dstUser.KeyName (testCoinDstToSrc env dstUser) timeout))
                    c.Counterparty.ChannelID dstUser.KeyName (testCoinDstToSrc env dstUser)
                    timeout = .ok tx))
    ∧ ((sendIBCTransfersFromBothChainsWithTimeout env testCase channels timeout tr).2.2 ≠ .passed
        → (sendIBCTransfersFromBothChainsWithTimeout env testCase channels timeout tr).1
            = testCase) := by
  have hS : (∃ txs, (srcTask env srcUser channels timeout tr).2 = .ok txs)
      ↔ ∀ e ∈ (srcTask env srcUser channels timeout tr).1, e.succeeded = true := by
    unfold srcTask
    exact directionTask_ok_iff _ _ _ _ _ _ _ _
  have hD : (∃ txs, (dstTask env dstUser channels timeout tr).2 = .ok txs)
      ↔ ∀ e ∈ (dstTask env dstUser channels timeout tr).1, e.succeeded = true := by
    unfold dstTask
    exact directionTask_ok_iff _ _ _ _ _ _ _ _
  have hSok := srcTask_ok env srcUser channels timeout tr
  have hDok := dstTask_ok env dstUser channels timeout tr
  unfold sendIBCTransfersFromBothChainsWithTimeout
  simp only [h0, h1]
  rcases hs : srcTask env srcUser channels timeout tr with ⟨sE, sR⟩
  rcases hd : dstTask env dstUser channels timeout tr with ⟨dE, dR⟩
  rw [hs] at hS hSok
  rw [hd] at hD hDok
  simp only at hS hD hSok hDok ⊢
  cases sR with
  | error e =>
    have hno : ¬ ∀ e ∈ sE, e.succeeded = true := by
      intro hall
      obtain ⟨txs, ht⟩ := hS.mpr hall
      cases ht
    refine ⟨rfl, ?_, by simp, by simp⟩
    simp only [List.mem_append]
    constructor
    · intro h; cases h
    · rintro ⟨hall, _, _⟩
      exact absurd (fun e he => hall e (Or.inl he)) hno
  | ok srcTxs =>
    cases dR with
    | error e =>
      have hno : ¬ ∀ e ∈ dE, e.succeeded = true := by
        intro hall
        obtain ⟨txs, ht⟩ := hD.mpr hall
        cases ht
      refine ⟨rfl, ?_, by simp, by simp⟩
      simp only [List.mem_append]
      constructor
      · intro h; cases h
      · rintro ⟨hall, _, _⟩
        exact absurd (fun e he => hall e (Or.inr he)) hno
    | ok dstTxs =>
      have hallS := hS.mp ⟨srcTxs, rfl⟩
      have hallD := hD.mp ⟨dstTxs, rfl⟩
      obtain ⟨hsE, hsL, hsK⟩ := hSok srcTxs rfl
      obtain ⟨hdE, hdL, hdK⟩ := hDok dstTxs rfl
      simp only
      cases hvS : srcTxs.findSome? env.TxValidate with
      | some e =>
        refine ⟨rfl, ?_, by simp, by simp⟩
        constructor
        · intro h; cases h
        · rintro ⟨_, hv, _⟩
          rw [List.findSome?_eq_none_iff.mpr (hv srcTxs rfl)] at hvS
          cases hvS
      | none =>
        simp only
        cases hvD : dstTxs.findSome? env.TxValidate with
        | some e =>
          refine ⟨rfl, ?_, by simp, by simp⟩
          constructor
          · intro h; cases h
          · rintro ⟨_, _, hv⟩
            rw [List.findSome?_eq_none_iff.mpr (hv dstTxs rfl)] at hvD
            cases hvD
        | none =>
          refine ⟨rfl, ?_, ?_, by simp⟩
          · simp only [true_iff]
            refine ⟨?_, ?_, ?_⟩
            · intro e he
              rcases List.mem_append.mp he with h | h
              · exact hallS e h
              · exact hallD e h
            · intro txs ht
              cases ht
              exact List.findSome?_eq_none_iff.mp hvS
            · intro txs ht
              cases ht
              exact List.findSome?_eq_none_iff.mp hvD
          · intro _
            exact ⟨srcTxs, dstTxs, rfl, hsL, hdL, hsE, hdE, hsK, hdK⟩

/-- C9 on a world where every call succeeds, with one bound channel: the
cache is assigned with one record per direction. -/
theorem sendIBCTransfers_cache_witness :
    (sendIBCTransfersFromBothChainsWithTimeout (exampleEnv 0 0 0) exampleTestCase
        [exampleChannel] none []).2.2 = Verdict.passed
    ∧ (sendIBCTransfersFromBothChainsWithTimeout (exampleEnv 0 0 0) exampleTestCase
        [exampleChannel] none []).1.TxCache
      = ⟨[⟨7, "A1", 200000, ⟨1, "channel-0", ""⟩⟩], [⟨7, "A1", 200000, ⟨1, "channel-1", ""⟩⟩]⟩ := by
  have h := sendIBCTransfers_cache (exampleEnv 0 0 0) exampleTestCase [exampleChannel] none []
    (exampleWallet "relay-packet-abcd-0") (exampleWallet "relay-packet-abcd-1") rfl rfl
  refine ⟨h.2.1.mpr ⟨by decide, fun _ _ _ _ => rfl, fun _ _ _ _ => rfl⟩, by decide⟩

/-! ## Theorems: order of the sends -/

theorem directionTask_sequential (env : Env) (side : ChainSide) (keyName : String)
    (coin : WalletAmount) (timeout : Option IBCTimeout) (errText : String) (hist : Trace)
    (chans : List String) :
    ∀ (txs0 : List Tx) (evs0 : List Event),
      (∃ txs, directionTask env side keyName coin timeout errText hist chans txs0 evs0
          = (evs0 ++ chans.flatMap (settledSend side keyName coin timeout), .ok txs))
      ∨ (∃ k ch e, chans[k]? = some ch
          ∧ (env.chain side).SendIBCTransfer
              (hist ++ (evs0 ++ (chans.take k).flatMap (settledSend side keyName coin timeout)))
              ch keyName coin timeout = .error e
          ∧ directionTask env side keyName coin timeout errText hist chans txs0 evs0
            = (evs0 ++ ((chans.take k).flatMap (settledSend side keyName coin timeout)
                  ++ [.sendIBCTransfer side ch keyName coin timeout false]),
                .error (errText ++ e)))
      ∨ (∃ k ch tx e, chans[k]? = some ch
          ∧ (env.chain side).SendIBCTransfer
              (hist ++ (evs0 ++ (chans.take k).flatMap (settledSend side keyName coin timeout)))
              ch keyName coin timeout = .ok tx
          ∧ env.WaitForBlocks
              (hist ++ (evs0 ++ ((chans.take k).flatMap (settledSend side keyName coin timeout)
                ++ [.sendIBCTransfer side ch keyName coin timeout true]))) 1 [side] = some e
          ∧ directionTask env side keyName coin timeout errText hist chans txs0 evs0
            = (evs0 ++ ((chans.take k).flatMap (settledSend side keyName coin timeout)
                  ++ [.sendIBCTransfer side ch keyName coin timeout true,
                      .waitForBlocks 1 [side] false]),
                .error e)) := by
  induction chans with
  | nil =>
    intro txs0 evs0
    exact Or.inl ⟨txs0, by simp [directionTask]⟩
  | cons ch rest ih =>
    intro txs0 evs0
    unfold directionTask
    cases hsend : (env.chain side).SendIBCTransfer (hist ++ evs0) ch keyName coin timeout with
    | error e =>
      refine Or.inr (Or.inl ⟨0, ch, e, by simp, by simpa using hsend, by simp⟩)
    | ok tx =>
      simp only
      cases hwait : env.WaitForBlocks
          (hist ++ (evs0 ++ [.sendIBCTransfer side ch keyName coin timeout true])) 1 [side] with
      | some e =>
        refine Or.inr (Or.inr ⟨0, ch, tx, e, by simp, by simpa using hsend,
          by simpa using hwait, by simp⟩)
      | none =>
        simp only
        rcases ih (txs0 ++ [tx]) (evs0 ++ [.sendIBCTransfer side ch keyName coin timeout true]
            ++ [.waitForBlocks 1 [side] true]) with ⟨txs, h⟩ | ⟨k, c, e, hk, hs, h⟩
            | ⟨k, c, tx2, e, hk, hs, hw, h⟩
        · refine Or.inl ⟨txs, ?_⟩
          rw [h]
          simp [settledSend, List.append_assoc]
        · refine Or.inr (Or.inl ⟨k + 1, c, e, by simpa using hk, ?_, ?_⟩)
          · simpa [settledSend, List.append_assoc] using hs
          · rw [h]
            simp [settledSend, List.append_assoc]
        · refine Or.inr (Or.inr ⟨k + 1, c, tx2, e, by simpa using hk, ?_, ?_, ?_⟩)
          · simpa [settledSend, List.append_assoc] using hs
          · simpa [settledSend, List.append_assoc] using hw
          · rw [h]
            simp [settledSend, List.append_assoc]

/-- C13: in each direction task of `sendIBCTransfersFromBothChainsWithTimeout`
the sends are issued in channel order, each successful send is followed by a
wait for one block on the sending chain before the next send, the first
failed send or failed wait is the last call of the task, and the task error
is that failure, a send failure behind the text naming its direction. -/
theorem direction_sends_are_sequential (env : Env) (srcUser dstUser : Wallet)
    (channels : List ChannelOutput) (timeout : Option IBCTimeout) (tr : Trace) :
    sequentialSends env .src srcUser.KeyName (testCoinSrcToDst env srcUser) timeout
        "failed to send ibc transfer from source: " tr (channels.map (fun c => c.ChannelID))
        (srcTask env srcUser channels timeout tr)
    ∧ sequentialSends env .dst dstUser.KeyName (testCoinDstToSrc env dstUser) timeout
        "failed to send ibc transfer from destination: " tr
        (channels.map (fun c => c.Counterparty.ChannelID))
        (dstTask env dstUser channels timeout tr) := by
  constructor
  · unfold sequentialSends srcTask
    simpa using directionTask_sequential env .src srcUser.KeyName (testCoinSrcToDst env srcUser)
      timeout "failed to send ibc transfer from source: " tr
      (channels.map (fun c => c.ChannelID)) [] []
  · unfold sequentialSends dstTask
    simpa using directionTask_sequential env .dst dstUser.KeyName (testCoinDstToSrc env dstUser)
      timeout "failed to send ibc transfer from destination: " tr
      (channels.map (fun c => c.Counterparty.ChannelID)) [] []

/-! ## Theorems: wallets and addresses -/

theorem forRecords_all (step : Nat → Tx → Trace → Trace × Verdict) (Q : Event → Prop)
    (hstep : ∀ i tx tr, ∃ evs, (step i tx tr).1 = tr ++ evs ∧ ∀ e ∈ evs, Q e)
    (txs : List Tx) (i : Nat) (tr : Trace) :
    ∃ evs, (forRecords step txs i tr).1 = tr ++ evs ∧ ∀ e ∈ evs, Q e := by
  induction txs generalizing i tr with
  | nil => exact ⟨[], by simp [forRecords], by simp⟩
  | cons tx rest ih =>
    obtain ⟨evs1, h1, q1⟩ := hstep i tx tr
    unfold forRecords
    rcases hs : step i tx tr with ⟨tr1, v1⟩
    rw [hs] at h1
    simp only at h1
    cases v1 with
    | passed =>
      simp only
      obtain ⟨evs2, h2, q2⟩ := ih (i + 1) tr1
      refine ⟨evs1 ++ evs2, by rw [h2, h1, List.append_assoc], ?_⟩
      intro e he
      rcases List.mem_append.mp he with h | h
      · exact q1 e h
      · exact q2 e h
    | failed m => exact ⟨evs1, h1, q1⟩
    | panicked m => exact ⟨evs1, h1, q1⟩

theorem inDirection_pollForAck (env : Env) (sender : ChainSide) (wallet : Wallet)
    (startHeight maxHeight : Nat) (packet : Packet) (ok : Bool) :
    inDirection env sender wallet (.pollForAck sender startHeight maxHeight packet ok) := by
  constructor
  · intro side h
    simp only [Event.pollSide, Option.some.injEq] at h
    exact h.symm
  · intro side address denom result h
    cases h

theorem inDirection_pollForTimeout (env : Env) (sender : ChainSide) (wallet : Wallet)
    (startHeight maxHeight : Nat) (packet : Packet) (ok : Bool) :
    inDirection env sender wallet (.pollForTimeout sender startHeight maxHeight packet ok) := by
  constructor
  · intro side h
    simp only [Event.pollSide, Option.some.injEq] at h
    exact h.symm
  · intro side address denom result h
    cases h

theorem inDirection_waitForBlocks (env : Env) (sender : ChainSide) (wallet : Wallet)
    (n : Nat) (chains : List ChainSide) (ok : Bool) :
    inDirection env sender wallet (.waitForBlocks n chains ok) := by
  constructor
  · intro side h
    simp [Event.pollSide] at h
  · intro side address denom result h
    cases h

theorem inDirection_getBalance (env : Env) (sender : ChainSide) (wallet : Wallet)
    (side : ChainSide) (denom : String) (result : Option Int) :
    inDirection env sender wallet
      (.getBalance side (wallet.FormattedAddressWithPrefix (env.chain side).Config.Bech32Prefix)
        denom result) := by
  constructor
  · intro side h
    simp [Event.pollSide] at h
  · intro side2 address denom2 result2 h
    cases h
    rfl

theorem successSrcToDstStep_inDirection (env : Env) (srcUser : Wallet)
    (channels : List ChannelOutput) (i : Nat) (tx : Tx) (tr : Trace) :
    ∃ evs, (successSrcToDstStep env srcUser channels i tx tr).1 = tr ++ evs
      ∧ ∀ e ∈ evs, inDirection env .src srcUser e := by
  unfold successSrcToDstStep
  simp only [ackPolled, balanceRead, settled, List.append_assoc, List.singleton_append,
    List.cons_append, List.nil_append]
  repeat' split
  all_goals
    refine ⟨_, rfl, ?_⟩
    intro e he
    simp only [List.mem_cons, List.mem_singleton, List.not_mem_nil, or_false] at he
    rcases he with rfl | rfl | rfl <;> first
      | exact inDirection_pollForAck env _ _ _ _ _ _
      | exact inDirection_waitForBlocks env _ _ _ _ _
      | exact inDirection_getBalance env _ srcUser .src _ _
      | exact inDirection_getBalance env _ srcUser .dst _ _

theorem failSrcToDstStep_inDirection (env : Env) (srcUser : Wallet)
    (channels : List ChannelOutput) (i : Nat) (tx : Tx) (tr : Trace) :
    ∃ evs, (failSrcToDstStep env srcUser channels i tx tr).1 = tr ++ evs
      ∧ ∀ e ∈ evs, inDirection env .src srcUser e := by
  unfold failSrcToDstStep
  simp only [timeoutPolled, balanceRead, settled, List.append_assoc, List.singleton_append,
    List.cons_append, List.nil_append]
  repeat' split
  all_goals
    refine ⟨_, rfl, ?_⟩
    intro e he
    simp only [List.mem_cons, List.mem_singleton, List.not_mem_nil, or_false] at he
    rcases he with rfl | rfl | rfl | rfl <;> first
      | exact inDirection_pollForTimeout env _ _ _ _ _ _
      | exact inDirection_waitForBlocks env _ _ _ _ _
      | exact inDirection_getBalance env _ srcUser .src _ _
      | exact inDirection_getBalance env _ srcUser .dst _ _

theorem successDstToSrcStep_inDirection (env : Env) (users : List Wallet) (dstUser : Wallet)
    (hu : users[1]? = some dstUser)
    (channels : List ChannelOutput) (i : Nat) (tx : Tx) (tr : Trace) :
    ∃ evs, (successDstToSrcStep env users channels i tx tr).1 = tr ++ evs
      ∧ ∀ e ∈ evs, inDirection env .dst dstUser e := by
  unfold successDstToSrcStep
  simp only [hu, ackPolled, balanceRead, settled, List.append_assoc, List.singleton_append,
    List.cons_append, List.nil_append]
  repeat' split
  all_goals
    refine ⟨_, rfl, ?_⟩
    intro e he
    simp only [List.mem_cons, List.mem_singleton, List.not_mem_nil, or_false] at he
    rcases he with rfl | rfl | rfl | rfl <;> first
      | exact inDirection_pollForAck env _ _ _ _ _ _
      | exact inDirection_waitForBlocks env _ _ _ _ _
      | exact inDirection_getBalance env _ dstUser .src _ _
      | exact inDirection_getBalance env _ dstUser .dst _ _

theorem failDstToSrcStep_inDirection (env : Env) (dstUser : Wallet)
    (channels : List ChannelOutput) (i : Nat) (tx : Tx) (tr : Trace) :
    ∃ evs, (failDstToSrcStep env dstUser channels i tx tr).1 = tr ++ evs
      ∧ ∀ e ∈ evs, inDirection env .dst dstUser e := by
  unfold failDstToSrcStep
  simp only [timeoutPolled, balanceRead, settled, List.append_assoc, List.singleton_append,
    List.cons_append, List.nil_append]
  repeat' split
  all_goals
    refine ⟨_, rfl, ?_⟩
    intro e he
    simp only [List.mem_cons, List.mem_singleton, List.not_mem_nil, or_false] at he
    rcases he with rfl | rfl | rfl | rfl <;> first
      | exact inDirection_pollForTimeout env _ _ _ _ _ _
      | exact inDirection_waitForBlocks env _ _ _ _ _
      | exact inDirection_getBalance env _ dstUser .src _ _
      | exact inDirection_getBalance env _ dstUser .dst _ _


theorem directionTask_events (env : Env) (side : ChainSide) (keyName : String)
    (coin : WalletAmount) (timeout : Option IBCTimeout) (errText : String) (hist : Trace)
    (chans : List String) (txs : List Tx) (evs : List Event) :
    ∀ e ∈ (directionTask env side keyName coin timeout errText hist chans txs evs).1,
      e ∈ evs ∨ (∃ ch ok, e = .sendIBCTransfer side ch keyName coin timeout ok)
        ∨ (∃ ok, e = .waitForBlocks 1 [side] ok) := by
  induction chans generalizing txs evs with
  | nil =>
    intro e he
    exact Or.inl (by simpa [directionTask] using he)
  | cons ch rest ih =>
    intro e he
    unfold directionTask at he
    split at he
    · rcases List.mem_append.mp he with h | h
      · exact Or.inl h
      · exact Or.inr (Or.inl ⟨ch, false, by simpa using h⟩)
    · simp only at he
      split at he
      · simp only [List.mem_append, List.mem_singleton] at he
        rcases he with (h | h) | h
        · exact Or.inl h
        · exact Or.inr (Or.inl ⟨ch, true, h⟩)
        · exact Or.inr (Or.inr ⟨false, h⟩)
      · rcases ih _ _ e he with h | h | h
        · simp only [List.mem_append, List.mem_singleton] at h
          rcases h with (h | h) | h
          · exact Or.inl h
          · exact Or.inr (Or.inl ⟨ch, true, h⟩)
          · exact Or.inr (Or.inr ⟨true, h⟩)
        · exact Or.inr (Or.inl h)
        · exact Or.inr (Or.inr h)

theorem srcTask_sentBy (env : Env) (srcUser dstUser : Wallet) (channels : List ChannelOutput)
    (timeout : Option IBCTimeout) (tr : Trace) :
    ∀ e ∈ (srcTask env srcUser channels timeout tr).1, sentBy env srcUser dstUser e := by
  intro e he
  unfold srcTask at he
  rcases directionTask_events env .src _ _ timeout _ tr _ [] [] e he with h | ⟨ch, ok, h⟩ | ⟨ok, h⟩
  · cases h
  · subst h
    intro side channelID keyName coin timeout2 ok2 heq
    cases heq
    exact ⟨rfl, rfl⟩
  · subst h
    intro side channelID keyName coin timeout2 ok2 heq
    cases heq

theorem dstTask_sentBy (env : Env) (srcUser dstUser : Wallet) (channels : List ChannelOutput)
    (timeout : Option IBCTimeout) (tr : Trace) :
    ∀ e ∈ (dstTask env dstUser channels timeout tr).1, sentBy env srcUser dstUser e := by
  intro e he
  unfold dstTask at he
  rcases directionTask_events env .dst _ _ timeout _ tr _ [] [] e he with h | ⟨ch, ok, h⟩ | ⟨ok, h⟩
  · cases h
  · subst h
    intro side channelID keyName coin timeout2 ok2 heq
    cases heq
    exact ⟨rfl, rfl⟩
  · subst h
    intro side channelID keyName coin timeout2 ok2 heq
    cases heq

theorem sendIBCTransfers_events (env : Env) (testCase : TestCaseState)
    (channels : List ChannelOutput) (timeout : Option IBCTimeout) (tr : Trace)
    (srcUser dstUser : Wallet) (h0 : testCase.Users[0]? = some srcUser)
    (h1 : testCase.Users[1]? = some dstUser) :
    (sendIBCTransfersFromBothChainsWithTimeout env testCase channels timeout tr).2.1
      = (srcTask env srcUser channels timeout tr).1 ++ (dstTask env dstUser channels timeout tr).1 := by
  unfold sendIBCTransfersFromBothChainsWithTimeout
  rw [h0, h1]
  simp only
  repeat' split
  all_goals rfl

theorem sendIBCTransfers_sentBy (env : Env) (testCase : TestCaseState)
    (channels : List ChannelOutput) (timeout : Option IBCTimeout) (tr : Trace)
    (srcUser dstUser : Wallet) (h0 : testCase.Users[0]? = some srcUser)
    (h1 : testCase.Users[1]? = some dstUser) :
    ∀ e ∈ (sendIBCTransfersFromBothChainsWithTimeout env testCase channels timeout tr).2.1,
      sentBy env srcUser dstUser e := by
  intro e he
  rw [sendIBCTransfers_events env testCase channels timeout tr srcUser dstUser h0 h1] at he
  rcases List.mem_append.mp he with h | h
  · exact srcTask_sentBy env srcUser dstUser channels timeout tr e h
  · exact dstTask_sentBy env srcUser dstUser channels timeout tr e h


theorem PreRelayerStart_sentBy (env : Env) (testCase : TestCaseState)
    (channels : List ChannelOutput) (tr : Trace) (srcUser dstUser : Wallet)
    (h0 : testCase.Users[0]? = some srcUser) (h1 : testCase.Users[1]? = some dstUser)
    (cfg : RelayerTestCaseConfig) (hcfg : cfg ∈ relayerTestCaseConfigs) :
    ∀ e ∈ (cfg.PreRelayerStart env testCase channels tr).2.1, sentBy env srcUser dstUser e := by
  have hs := fun timeout =>
    sendIBCTransfers_sentBy env testCase channels timeout tr srcUser dstUser h0 h1
  have hwait : ∀ n chains ok, sentBy env srcUser dstUser (.waitForBlocks n chains ok) := by
    intro n chains ok side channelID keyName coin timeout ok2 heq
    cases heq
  have hsleep : ∀ n, sentBy env srcUser dstUser (.sleep n) := by
    intro n side channelID keyName coin timeout ok2 heq
    cases heq
  simp only [relayerTestCaseConfigs, List.mem_cons, List.mem_singleton, List.not_mem_nil,
    or_false] at hcfg
  rcases hcfg with rfl | rfl | rfl | rfl
  · exact hs none
  · exact hs (some ⟨0, 0⟩)
  · intro e he
    simp only [preRelayerStart_HeightTimeout] at he
    have hs1 := hs (some ⟨0, 10⟩)
    rcases hr : sendIBCTransfersFromBothChainsWithTimeout env testCase channels
      (some ⟨0, 10⟩) tr with ⟨tc1, evs, v⟩
    rw [hr] at he hs1
    cases v with
    | passed =>
      simp only at he
      split at he
      all_goals
        rcases List.mem_append.mp he with h | h
        · exact hs1 e h
        · rw [List.mem_singleton.mp h]
          exact hwait _ _ _
    | failed m => exact hs1 e he
    | panicked m => exact hs1 e he
  · intro e he
    simp only [preRelayerStart_TimestampTimeout] at he
    have hs1 := hs (some ⟨1000000000, 0⟩)
    rcases hr : sendIBCTransfersFromBothChainsWithTimeout env testCase channels
      (some ⟨1000000000, 0⟩) tr with ⟨tc1, evs, v⟩
    rw [hr] at he hs1
    cases v with
    | passed =>
      rcases List.mem_append.mp he with h | h
      · exact hs1 e h
      · rw [List.mem_singleton.mp h]
        exact hsleep _
    | failed m => exact hs1 e he
    | panicked m => exact hs1 e he

theorem testPacketRelaySuccess_inDirection (env : Env) (testCase : TestCaseState)
    (channels : List ChannelOutput) (tr : Trace) (srcUser dstUser : Wallet)
    (h0 : testCase.Users[0]? = some srcUser) (h1 : testCase.Users[1]? = some dstUser) :
    ∃ evs1 evs2, (testPacketRelaySuccess env testCase channels tr).1 = tr ++ evs1 ++ evs2
      ∧ (∀ e ∈ evs1, inDirection env .src srcUser e)
      ∧ (∀ e ∈ evs2, inDirection env .dst dstUser e) := by
  unfold testPacketRelaySuccess
  rw [h0]
  simp only
  obtain ⟨evs1, e1, q1⟩ := forRecords_all (successSrcToDstStep env srcUser channels)
    (inDirection env .src srcUser)
    (fun i tx tr => successSrcToDstStep_inDirection env srcUser channels i tx tr)
    testCase.TxCache.Src 0 tr
  rcases hr : forRecords (successSrcToDstStep env srcUser channels) testCase.TxCache.Src 0 tr
    with ⟨tr1, v⟩
  rw [hr] at e1
  simp only at e1
  cases v with
  | passed =>
    simp only
    obtain ⟨evs2, e2, q2⟩ := forRecords_all (successDstToSrcStep env testCase.Users channels)
      (inDirection env .dst dstUser)
      (fun i tx tr => successDstToSrcStep_inDirection env testCase.Users dstUser h1 channels i tx tr)
      testCase.TxCache.Dst 0 tr1
    exact ⟨evs1, evs2, by rw [e2, e1], q1, q2⟩
  | failed m => exact ⟨evs1, [], by simp [e1], q1, by simp⟩
  | panicked m => exact ⟨evs1, [], by simp [e1], q1, by simp⟩

theorem testPacketRelayFail_inDirection (env : Env) (testCase : TestCaseState)
    (channels : List ChannelOutput) (tr : Trace) (srcUser dstUser : Wallet)
    (h0 : testCase.Users[0]? = some srcUser) (h1 : testCase.Users[1]? = some dstUser) :
    ∃ evs1 evs2, (testPacketRelayFail env testCase channels tr).1 = tr ++ evs1 ++ evs2
      ∧ (∀ e ∈ evs1, inDirection env .src srcUser e)
      ∧ (∀ e ∈ evs2, inDirection env .dst dstUser e) := by
  unfold testPacketRelayFail
  rw [h0, h1]
  simp only
  obtain ⟨evs1, e1, q1⟩ := forRecords_all (failSrcToDstStep env srcUser channels)
    (inDirection env .src srcUser)
    (fun i tx tr => failSrcToDstStep_inDirection env srcUser channels i tx tr)
    testCase.TxCache.Src 0 tr
  rcases hr : forRecords (failSrcToDstStep env srcUser channels) testCase.TxCache.Src 0 tr
    with ⟨tr1, v⟩
  rw [hr] at e1
  simp only at e1
  cases v with
  | passed =>
    simp only
    obtain ⟨evs2, e2, q2⟩ := forRecords_all (failDstToSrcStep env dstUser channels)
      (inDirection env .dst dstUser)
      (fun i tx tr => failDstToSrcStep_inDirection env dstUser channels i tx tr)
      testCase.TxCache.Dst 0 tr1
    exact ⟨evs1, evs2, by rw [e2, e1], q1, q2⟩
  | failed m => exact ⟨evs1, [], by simp [e1], q1, by simp⟩
  | panicked m => exact ⟨evs1, [], by simp [e1], q1, by simp⟩

/-- C14: in every scenario of the registry, and for any timeout given to the
dispatcher, a transfer sent from one chain is signed by that direction's
wallet and carries the fixed amount 1000000 in the sending chain's native
denomination to the address of the same wallet under the receiving chain's
prefix. The calls of `testPacketRelaySuccess` and of `testPacketRelayFail`
split into those for the transfers of the source wallet followed by those for
the transfers of the destination wallet; within each part every poll is made
on the sending chain and every balance query, on either chain, asks for the
address of that part's wallet under the prefix of the chain queried. -/
theorem transfers_and_queries_use_one_wallet (env : Env) (testCase : TestCaseState)
    (channels : List ChannelOutput) (tr : Trace) (srcUser dstUser : Wallet)
    (h0 : testCase.Users[0]? = some srcUser) (h1 : testCase.Users[1]? = some dstUser) :
    (∀ cfg ∈ relayerTestCaseConfigs,
        ∀ e ∈ (cfg.PreRelayerStart env testCase channels tr).2.1, sentBy env srcUser dstUser e)
    ∧ (∀ timeout,
        ∀ e ∈ (sendIBCTransfersFromBothChainsWithTimeout env testCase channels timeout tr).2.1,
          sentBy env srcUser dstUser e)
    ∧ (∃ evs1 evs2, (testPacketRelaySuccess env testCase channels tr).1 = tr ++ evs1 ++ evs2
        ∧ (∀ e ∈ evs1, inDirection env .src srcUser e)
        ∧ (∀ e ∈ evs2, inDirection env .dst dstUser e))
    ∧ (∃ evs1 evs2, (testPacketRelayFail env testCase channels tr).1 = tr ++ evs1 ++ evs2
        ∧ (∀ e ∈ evs1, inDirection env .src srcUser e)
        ∧ (∀ e ∈ evs2, inDirection env .dst dstUser e)) :=
  ⟨fun cfg hcfg => PreRelayerStart_sentBy env testCase channels tr srcUser dstUser h0 h1 cfg hcfg,
    fun timeout => sendIBCTransfers_sentBy env testCase channels timeout tr srcUser dstUser h0 h1,
    testPacketRelaySuccess_inDirection env testCase channels tr srcUser dstUser h0 h1,
    testPacketRelayFail_inDirection env testCase channels tr srcUser dstUser h0 h1⟩


theorem transfers_and_queries_use_one_wallet_witness :
    exampleTestCase.Users[0]? = some (exampleWallet "relay-packet-abcd-0")
    ∧ exampleTestCase.Users[1]? = some (exampleWallet "relay-packet-abcd-1")
    ∧ (∀ e ∈ (sendIBCTransfersFromBothChainsWithTimeout (exampleEnv 9998995000 1000000 5000)
          exampleTestCase [exampleChannel] none []).2.1,
        sentBy (exampleEnv 9998995000 1000000 5000) (exampleWallet "relay-packet-abcd-0")
          (exampleWallet "relay-packet-abcd-1") e)
    ∧ ∃ evs1 evs2,
        (testPacketRelaySuccess (exampleEnv 9998995000 1000000 5000) exampleTestCase
          [exampleChannel] []).1 = [] ++ evs1 ++ evs2
        ∧ (∀ e ∈ evs1, inDirection (exampleEnv 9998995000 1000000 5000) .src
            (exampleWallet "relay-packet-abcd-0") e)
        ∧ (∀ e ∈ evs2, inDirection (exampleEnv 9998995000 1000000 5000) .dst
            (exampleWallet "relay-packet-abcd-1") e) :=
  have h := transfers_and_queries_use_one_wallet (exampleEnv 9998995000 1000000 5000)
    exampleTestCase [exampleChannel] [] (exampleWallet "relay-packet-abcd-0")
    (exampleWallet "relay-packet-abcd-1") rfl rfl
  ⟨rfl, rfl, h.2.1 none, h.2.2.1⟩


/-! ## Theorems: order of the phases -/

theorem filter_eq_nil_of_forall (p : Event → Bool) (evs : List Event)
    (h : ∀ e ∈ evs, p e = false) : evs.filter p = [] := by
  induction evs with
  | nil => rfl
  | cons e rest ih =>
    have he := h e (List.mem_cons_self _ _)
    simp only [List.filter_cons, he]
    exact ih (fun x hx => h x (List.mem_cons_of_mem _ hx))

theorem runPreRelayerStartFuncs_all {σ : Type} (P : σ → Prop) (Q : Event → Prop)
    (channels : List ChannelOutput) (funcs : List (Option (PreRelayerStartFunc σ)))
    (hq : ∀ f, some f ∈ funcs → ∀ s tr, P s →
      P (f channels s tr).1 ∧ ∀ e ∈ (f channels s tr).2.1, Q e)
    (hstart : ∀ i, Q (.preRelayerStart i channels)) (hdone : ∀ i, Q (.preRelayerStartDone i)) :
    ∀ i s tr, P s →
      ∃ evs, (runPreRelayerStartFuncs channels funcs i s tr).2.1 = tr ++ evs
        ∧ ∀ e ∈ evs, Q e := by
  induction funcs with
  | nil =>
    intro i s tr _
    exact ⟨[], by simp [runPreRelayerStartFuncs], by simp⟩
  | cons f rest ih =>
    have ih1 := ih (fun g hg => hq g (List.mem_cons_of_mem _ hg))
    intro i s tr hs
    cases f with
    | none =>
      unfold runPreRelayerStartFuncs
      exact ih1 (i + 1) s tr hs
    | some g =>
      have hg := hq g (List.mem_cons_self _ _) s (tr ++ [.preRelayerStart i channels]) hs
      unfold runPreRelayerStartFuncs
      simp only
      rcases hr : g channels s (tr ++ [.preRelayerStart i channels]) with ⟨s1, evs, ex⟩
      rw [hr] at hg
      cases ex with
      | returned =>
        rw [hr]
        simp only
        obtain ⟨evs2, e2, q2⟩ := ih1 (i + 1) s1
          (tr ++ [.preRelayerStart i channels] ++ evs ++ [.preRelayerStartDone i]) hg.1
        refine ⟨[.preRelayerStart i channels] ++ evs ++ [.preRelayerStartDone i] ++ evs2,
          by rw [e2]; simp only [List.append_assoc], ?_⟩
        intro e he
        simp only [List.mem_append, List.mem_singleton] at he
        rcases he with ((h | h) | h) | h
        · rw [h]; exact hstart i
        · exact hg.2 e h
        · rw [h]; exact hdone i
        · exact q2 e h
      | goexit =>
        rw [hr]
        simp only
        obtain ⟨evs2, e2, q2⟩ := ih1 (i + 1) s1 (tr ++ [.preRelayerStart i channels] ++ evs) hg.1
        refine ⟨[.preRelayerStart i channels] ++ evs ++ evs2,
          by rw [e2]; simp only [List.append_assoc], ?_⟩
        intro e he
        simp only [List.mem_append, List.mem_singleton] at he
        rcases he with (h | h) | h
        · rw [h]; exact hstart i
        · exact hg.2 e h
        · exact q2 e h
      | panicked =>
        rw [hr]
        simp only
        obtain ⟨evs2, e2, q2⟩ := ih1 (i + 1) s1 (tr ++ [.preRelayerStart i channels] ++ evs) hg.1
        refine ⟨[.preRelayerStart i channels] ++ evs ++ evs2,
          by rw [e2]; simp only [List.append_assoc], ?_⟩
        intro e he
        simp only [List.mem_append, List.mem_singleton] at he
        rcases he with (h | h) | h
        · rw [h]; exact hstart i
        · exact hg.2 e h
        · exact q2 e h


theorem hookLaunches_none {σ : Type} (channels : List ChannelOutput) (i : Nat)
    (rest : List (Option (PreRelayerStartFunc σ))) :
    hookLaunches channels i (none :: rest) = hookLaunches channels (i + 1) rest := rfl

theorem hookLaunches_some {σ : Type} (channels : List ChannelOutput) (i : Nat)
    (g : PreRelayerStartFunc σ) (rest : List (Option (PreRelayerStartFunc σ))) :
    hookLaunches channels i (some g :: rest)
      = .preRelayerStart i channels :: hookLaunches channels (i + 1) rest := rfl

theorem hookCompletions_none {σ : Type} (i : Nat)
    (rest : List (Option (PreRelayerStartFunc σ))) :
    hookCompletions i (none :: rest) = hookCompletions (i + 1) rest := rfl

theorem hookCompletions_some {σ : Type} (i : Nat)
    (g : PreRelayerStartFunc σ) (rest : List (Option (PreRelayerStartFunc σ))) :
    hookCompletions i (some g :: rest)
      = .preRelayerStartDone i :: hookCompletions (i + 1) rest := rfl

theorem runPreRelayerStartFuncs_markers {σ : Type} (P : σ → Prop)
    (channels : List ChannelOutput) (funcs : List (Option (PreRelayerStartFunc σ)))
    (hq : ∀ f, some f ∈ funcs → ∀ s tr, P s →
      P (f channels s tr).1
        ∧ ∀ e ∈ (f channels s tr).2.1, e.isHookStart = false ∧ e.isHookDone = false) :
    ∀ i s tr, P s →
      ∃ evs, (runPreRelayerStartFuncs channels funcs i s tr).2.1 = tr ++ evs
        ∧ evs.filter Event.isHookStart = hookLaunches channels i funcs
        ∧ ((runPreRelayerStartFuncs channels funcs i s tr).2.2 = true →
            evs.filter Event.isHookDone = hookCompletions i funcs) := by
  induction funcs with
  | nil =>
    intro i s tr _
    exact ⟨[], by simp [runPreRelayerStartFuncs], rfl, fun _ => rfl⟩
  | cons f rest ih =>
    have ih1 := ih (fun g hg => hq g (List.mem_cons_of_mem _ hg))
    intro i s tr hs
    cases f with
    | none =>
      unfold runPreRelayerStartFuncs
      rw [hookLaunches_none, hookCompletions_none]
      exact ih1 (i + 1) s tr hs
    | some g =>
      have hg := hq g (List.mem_cons_self _ _) s (tr ++ [.preRelayerStart i channels]) hs
      unfold runPreRelayerStartFuncs
      simp only
      rcases hr : g channels s (tr ++ [.preRelayerStart i channels]) with ⟨s1, evs, ex⟩
      rw [hr] at hg
      have hs1 : evs.filter Event.isHookStart = [] :=
        filter_eq_nil_of_forall _ evs (fun e he => (hg.2 e he).1)
      have hd1 : evs.filter Event.isHookDone = [] :=
        filter_eq_nil_of_forall _ evs (fun e he => (hg.2 e he).2)
      rw [hookLaunches_some, hookCompletions_some]
      cases ex with
      | returned =>
        rw [hr]
        simp only
        obtain ⟨evs2, e2, l2, c2⟩ := ih1 (i + 1) s1
          (tr ++ [.preRelayerStart i channels] ++ evs ++ [.preRelayerStartDone i]) hg.1
        refine ⟨[.preRelayerStart i channels] ++ evs ++ [.preRelayerStartDone i] ++ evs2,
          by rw [e2]; simp only [List.append_assoc], ?_, ?_⟩
        · simp [List.filter_append, List.filter_cons, Event.isHookStart, hs1, l2]
        · intro hflag
          simp [List.filter_append, List.filter_cons, Event.isHookDone, hd1, c2 hflag]
      | goexit =>
        rw [hr]
        simp only
        obtain ⟨evs2, e2, l2, _⟩ := ih1 (i + 1) s1 (tr ++ [.preRelayerStart i channels] ++ evs) hg.1
        refine ⟨[.preRelayerStart i channels] ++ evs ++ evs2,
          by rw [e2]; simp only [List.append_assoc], ?_, ?_⟩
        · simp [List.filter_append, List.filter_cons, Event.isHookStart, hs1, l2]
        · intro hflag
          cases hflag
      | panicked =>
        rw [hr]
        simp only
        obtain ⟨evs2, e2, l2, _⟩ := ih1 (i + 1) s1 (tr ++ [.preRelayerStart i channels] ++ evs) hg.1
        refine ⟨[.preRelayerStart i channels] ++ evs ++ evs2,
          by rw [e2]; simp only [List.append_assoc], ?_, ?_⟩
        · simp [List.filter_append, List.filter_cons, Event.isHookStart, hs1, l2]
        · intro hflag
          cases hflag


theorem directionTask_setupCalls (env : Env) (side : ChainSide) (keyName : String)
    (coin : WalletAmount) (timeout : Option IBCTimeout) (errText : String) (hist : Trace)
    (chans : List String) :
    ∀ e ∈ (directionTask env side keyName coin timeout errText hist chans [] []).1,
      e.isSetupCall = true := by
  intro e he
  rcases directionTask_events env side keyName coin timeout errText hist chans [] [] e he
    with h | ⟨ch, ok, h⟩ | ⟨ok, h⟩
  · cases h
  · rw [h]; rfl
  · rw [h]; rfl

theorem sendIBCTransfers_setupCalls (env : Env) (testCase : TestCaseState)
    (channels : List ChannelOutput) (timeout : Option IBCTimeout) (tr : Trace) :
    ∀ e ∈ (sendIBCTransfersFromBothChainsWithTimeout env testCase channels timeout tr).2.1,
      e.isSetupCall = true := by
  intro e he
  unfold sendIBCTransfersFromBothChainsWithTimeout at he
  cases h0 : testCase.Users[0]? with
  | none => rw [h0] at he; cases he
  | some srcUser =>
    cases h1 : testCase.Users[1]? with
    | none => rw [h0, h1] at he; cases he
    | some dstUser =>
      have hev := sendIBCTransfers_events env testCase channels timeout tr srcUser dstUser h0 h1
      unfold sendIBCTransfersFromBothChainsWithTimeout at hev
      rw [hev] at he
      rcases List.mem_append.mp he with h | h
      · exact directionTask_setupCalls env .src _ _ timeout _ tr _ e h
      · exact directionTask_setupCalls env .dst _ _ timeout _ tr _ e h

theorem PreRelayerStart_setupCalls (env : Env) (testCase : TestCaseState)
    (channels : List ChannelOutput) (tr : Trace)
    (cfg : RelayerTestCaseConfig) (hcfg : cfg ∈ relayerTestCaseConfigs) :
    ∀ e ∈ (cfg.PreRelayerStart env testCase channels tr).2.1, e.isSetupCall = true := by
  have hs := fun timeout => sendIBCTransfers_setupCalls env testCase channels timeout tr
  simp only [relayerTestCaseConfigs, List.mem_cons, List.mem_singleton, List.not_mem_nil,
    or_false] at hcfg
  rcases hcfg with rfl | rfl | rfl | rfl
  · exact hs none
  · exact hs (some ⟨0, 0⟩)
  · intro e he
    simp only [preRelayerStart_HeightTimeout] at he
    have hs1 := hs (some ⟨0, 10⟩)
    rcases hr : sendIBCTransfersFromBothChainsWithTimeout env testCase channels
      (some ⟨0, 10⟩) tr with ⟨tc1, evs, v⟩
    rw [hr] at he hs1
    cases v with
    | passed =>
      simp only at he
      split at he
      all_goals
        rcases List.mem_append.mp he with h | h
        · exact hs1 e h
        · rw [List.mem_singleton.mp h]
          rfl
    | failed m => exact hs1 e he
    | panicked m => exact hs1 e he
  · intro e he
    simp only [preRelayerStart_TimestampTimeout] at he
    have hs1 := hs (some ⟨1000000000, 0⟩)
    rcases hr : sendIBCTransfersFromBothChainsWithTimeout env testCase channels
      (some ⟨1000000000, 0⟩) tr with ⟨tc1, evs, v⟩
    rw [hr] at he hs1
    cases v with
    | passed =>
      rcases List.mem_append.mp he with h | h
      · exact hs1 e h
      · rw [List.mem_singleton.mp h]
        rfl
    | failed m => exact hs1 e he
    | panicked m => exact hs1 e he

theorem preRelayerStartFunc_setupCalls (env : Env) (randomSuffix : String) (k : Nat)
    (channels : List ChannelOutput) (testCases : List RelayerTestCase) (tr : Trace)
    (hreg : ∀ tc ∈ testCases, tc.Config ∈ relayerTestCaseConfigs) :
    ∀ e ∈ (preRelayerStartFunc env randomSuffix k channels testCases tr).2.1,
      e.isSetupCall = true := by
  intro e he
  unfold preRelayerStartFunc at he
  cases hk : testCases[k]? with
  | none => rw [hk] at he; cases he
  | some testCase =>
    rw [hk] at he
    simp only at he
    have hc := hreg testCase (by
      obtain ⟨hlt, heq⟩ := List.getElem?_eq_some_iff.mp hk
      exact heq ▸ List.getElem_mem hlt)
    cases hf : env.GetAndFundTestUsers tr
        (testCase.Config.Name.replace " " "-" ++ "-" ++ randomSuffix) userFaucetFund with
    | none =>
      rw [hf] at he
      rw [List.mem_singleton.mp he]
      rfl
    | some users =>
      rw [hf] at he
      simp only at he
      rcases List.mem_append.mp he with h | h
      · rw [List.mem_singleton.mp h]
        rfl
      · exact PreRelayerStart_setupCalls env _ channels _ testCase.Config hc e h


theorem StopStartRelayerWithPreStartFuncs_phases {σ : Type} (P : σ → Prop) (Q : Event → Prop)
    (srcChainID dstChainID : String) (relayerImpl : Relayer)
    (funcs : List (Option (PreRelayerStartFunc σ))) (pathNames : List String) (s : σ) (tr : Trace)
    (hq : ∀ f, some f ∈ funcs → ∀ channels s tr, P s →
      P (f channels s tr).1
        ∧ ∀ e ∈ (f channels s tr).2.1, (e.isHookStart = false ∧ e.isHookDone = false) ∧ Q e)
    (hstart : ∀ i channels, Q (.preRelayerStart i channels))
    (hdone : ∀ i, Q (.preRelayerStartDone i)) (hs : P s)
    (channel : ChannelOutput)
    (hd : discovery srcChainID dstChainID relayerImpl tr = .ok channel) :
    ∃ hookEvs tail,
      (StopStartRelayerWithPreStartFuncs srcChainID dstChainID relayerImpl funcs pathNames s
          tr).trace
        = afterStop relayerImpl tr ++ [.getTransferChannel srcChainID dstChainID true]
            ++ hookEvs ++ tail
      ∧ hookEvs.filter Event.isHookStart = hookLaunches [channel] 0 funcs
      ∧ (∀ e ∈ hookEvs, Q e)
      ∧ (tail = [] ∨ tail = [.startRelayer pathNames false]
          ∨ tail = [.startRelayer pathNames true, .registerCleanup, .sleep 5])
      ∧ ((StopStartRelayerWithPreStartFuncs srcChainID dstChainID relayerImpl funcs pathNames s
            tr).ret = none → tail = [])
      ∧ ((StopStartRelayerWithPreStartFuncs srcChainID dstChainID relayerImpl funcs pathNames s
            tr).ret ≠ none → hookEvs.filter Event.isHookDone = hookCompletions 0 funcs)
      ∧ (∀ channels,
          (StopStartRelayerWithPreStartFuncs srcChainID dstChainID relayerImpl funcs pathNames s
            tr).ret = some (.ok channels) →
          channels = [channel]
            ∧ tail = [.startRelayer pathNames true, .registerCleanup, .sleep 5]) := by
  rw [StopStartRelayerWithPreStartFuncs_discovered srcChainID dstChainID relayerImpl funcs
    pathNames s tr channel hd]
  obtain ⟨evs, e1, l1, c1⟩ := runPreRelayerStartFuncs_markers P [channel] funcs
    (fun f hf s tr hs => ⟨(hq f hf [channel] s tr hs).1,
      fun e he => ((hq f hf [channel] s tr hs).2 e he).1⟩) 0 s
    (afterStop relayerImpl tr ++ [.getTransferChannel srcChainID dstChainID true]) hs
  obtain ⟨evs2, e2, q2⟩ := runPreRelayerStartFuncs_all P Q [channel] funcs
    (fun f hf s tr hs => ⟨(hq f hf [channel] s tr hs).1,
      fun e he => ((hq f hf [channel] s tr hs).2 e he).2⟩) (fun i => hstart i [channel]) hdone 0 s
    (afterStop relayerImpl tr ++ [.getTransferChannel srcChainID dstChainID true]) hs
  have heq : evs2 = evs := List.append_cancel_left (e2.symm.trans e1)
  subst heq
  have hrun : hooksRun srcChainID dstChainID relayerImpl funcs s tr channel
      = runPreRelayerStartFuncs [channel] funcs 0 s
          (afterStop relayerImpl tr ++ [.getTransferChannel srcChainID dstChainID true]) := rfl
  rw [hrun]
  rcases hr : runPreRelayerStartFuncs [channel] funcs 0 s
      (afterStop relayerImpl tr ++ [.getTransferChannel srcChainID dstChainID true])
    with ⟨s3, tr3, flag⟩
  rw [hr] at e1 c1
  simp only at e1 c1
  subst e1
  rw [hr]
  cases flag with
  | false =>
    refine ⟨evs2, [], by simp, l1, q2, Or.inl rfl, fun _ => rfl, fun h => absurd rfl h, ?_⟩
    intro channels h
    cases h
  | true =>
    simp only
    split
    · refine ⟨evs2, [], by simp, l1, q2, Or.inl rfl, fun _ => rfl, fun _ => c1 rfl, ?_⟩
      intro channels h
      cases h
    · split
      · refine ⟨evs2, [.startRelayer pathNames false], rfl, l1, q2, Or.inr (Or.inl rfl), ?_,
          fun _ => c1 rfl, ?_⟩
        · intro h
          cases h
        · intro channels h
          cases h
      · refine ⟨evs2, [.startRelayer pathNames true, .registerCleanup, .sleep 5], rfl, l1, q2,
          Or.inr (Or.inr rfl), ?_, fun _ => c1 rfl, ?_⟩
        · intro h
          cases h
        · intro channels h
          simp only [Option.some.injEq, Except.ok.injEq] at h
          exact ⟨h.symm, rfl⟩


theorem isSetupCall_kinds (e : Event) (h : e.isSetupCall = true) :
    (e.isHookStart = false ∧ e.isHookDone = false) ∧ e.isAssertion = false := by
  cases e <;> simp [Event.isSetupCall] at h <;> exact ⟨⟨rfl, rfl⟩, rfl⟩

theorem Test_appends (env : Env) (testCase : TestCaseState) (channels : List ChannelOutput)
    (tr : Trace) (cfg : RelayerTestCaseConfig) (hcfg : cfg ∈ relayerTestCaseConfigs) :
    ∃ evs, (cfg.Test env testCase channels tr).1 = tr ++ evs := by
  simp only [relayerTestCaseConfigs, List.mem_cons, List.mem_singleton, List.not_mem_nil,
    or_false] at hcfg
  rcases hcfg with rfl | rfl | rfl | rfl
  · obtain ⟨evs, h, _⟩ := testPacketRelaySuccess_pollDiscipline env testCase channels tr
    exact ⟨evs, h⟩
  · obtain ⟨evs, h, _⟩ := testPacketRelaySuccess_pollDiscipline env testCase channels tr
    exact ⟨evs, h⟩
  · obtain ⟨evs, h, _⟩ := testPacketRelayFail_pollDiscipline env testCase channels tr
    exact ⟨evs, h⟩
  · obtain ⟨evs, h, _⟩ := testPacketRelayFail_pollDiscipline env testCase channels tr
    exact ⟨evs, h⟩

theorem postRelayerStartSubtest_appends (env : Env) (rf : RelayerFactory)
    (testCase : RelayerTestCase) (channels : List ChannelOutput) (tr : Trace)
    (hcfg : testCase.Config ∈ relayerTestCaseConfigs) :
    ∃ evs, (postRelayerStartSubtest env rf testCase channels tr).1
      = tr ++ .trackTest testCase.Config.Name :: evs := by
  unfold postRelayerStartSubtest requireCapabilities
  simp only
  split
  · rename_i tr2 heq
    split at heq
    · simp only [Prod.mk.injEq] at heq
      exact ⟨[.trackSkip testCase.Config.Name], by rw [← heq.1]; simp⟩
    · simp at heq
  · rename_i tr2 heq
    split at heq
    · simp at heq
    · simp only [Prod.mk.injEq, and_true] at heq
      subst heq
      obtain ⟨evs, h⟩ := Test_appends env testCase.toTestCaseState channels
        (tr ++ [.trackTest testCase.Config.Name] ++ [.trackParallel testCase.Config.Name])
        testCase.Config hcfg
      refine ⟨.trackParallel testCase.Config.Name :: evs, ?_⟩
      rcases hr : testCase.Config.Test env testCase.toTestCaseState channels
        (tr ++ [.trackTest testCase.Config.Name] ++ [.trackParallel testCase.Config.Name])
        with ⟨tr4, v⟩
      rw [hr] at h
      simp only at h
      subst h
      simp only [List.append_assoc, List.singleton_append, List.cons_append,
        List.nil_append] at hr ⊢
      rw [hr]
      cases v <;> rfl

theorem postRelayerStart_appends (env : Env) (rf : RelayerFactory)
    (channels : List ChannelOutput) (testCases : List RelayerTestCase)
    (hreg : ∀ tc ∈ testCases, tc.Config ∈ relayerTestCaseConfigs) (tr : Trace) :
    ∃ post, (postRelayerStart env rf channels testCases tr).1 = tr ++ post := by
  induction testCases generalizing tr with
  | nil => exact ⟨[], by simp [postRelayerStart]⟩
  | cons tc rest ih =>
    obtain ⟨evs, h⟩ := postRelayerStartSubtest_appends env rf tc channels tr
      (hreg tc (List.mem_cons_self _ _))
    unfold postRelayerStart
    rcases hr : postRelayerStartSubtest env rf tc channels tr with ⟨tr1, outcome⟩
    rw [hr] at h
    simp only at h
    obtain ⟨post, hp⟩ := ih (fun x hx => hreg x (List.mem_cons_of_mem _ hx)) tr1
    refine ⟨.trackTest tc.Config.Name :: evs ++ post, ?_⟩
    simp only
    rw [hp, h, List.append_assoc]


theorem TestChainPair_phases_started (env : Env) (rf : RelayerFactory) (r : Relayer)
    (randomSuffix : String) (pathNames : List String) (tr : Trace) :
    ∃ pre post,
      (TestChainPair env rf (some r) randomSuffix pathNames tr).trace = tr ++ pre ++ post
      ∧ (∀ e ∈ pre, e.isAssertion = false)
      ∧ (∀ report,
          (TestChainPair env rf (some r) randomSuffix pathNames tr).status = .completed report →
          ∃ channel pre0,
            pre = pre0 ++ [.startRelayer pathNames true, .registerCleanup, .sleep 5]
            ∧ pre0.filter Event.isHookStart = hookLaunches [channel] 0
                ((TestChainPair env rf (some r) randomSuffix pathNames tr).preRelayerStartFuncs.map
                  some)
            ∧ pre0.filter Event.isHookDone = hookCompletions 0
                ((TestChainPair env rf (some r) randomSuffix pathNames tr).preRelayerStartFuncs.map
                  some)
            ∧ postRelayerStart env rf [channel]
                (TestChainPair env rf (some r) randomSuffix pathNames tr).testCases (tr ++ pre)
              = ((TestChainPair env rf (some r) randomSuffix pathNames tr).trace, report))
      ∧ ((∀ report,
            (TestChainPair env rf (some r) randomSuffix pathNames tr).status ≠ .completed report) →
          post = []) := by
  have hq : ∀ f, some f ∈ ((relayerTestCaseConfigs.enum.filter
        (fun p => (missingCapabilities rf p.2.RequiredRelayerCapabilities).isEmpty)).map
        (fun p => preRelayerStartFunc env randomSuffix p.1)).map some →
      ∀ channels (s : List RelayerTestCase) tr,
        (∀ c ∈ s.map (fun tc => tc.Config), c ∈ relayerTestCaseConfigs) →
        (∀ c ∈ (f channels s tr).1.map (fun tc => tc.Config), c ∈ relayerTestCaseConfigs)
          ∧ ∀ e ∈ (f channels s tr).2.1,
              (e.isHookStart = false ∧ e.isHookDone = false) ∧ e.isAssertion = false := by
    intro f hf channels s tr2 hs
    simp only [List.mem_map, Option.some.injEq] at hf
    obtain ⟨g, ⟨p, _, hp⟩, hg⟩ := hf
    subst hg
    subst hp
    refine ⟨by rw [preRelayerStartFunc_configs]; exact hs, ?_⟩
    intro e he
    exact isSetupCall_kinds e (preRelayerStartFunc_setupCalls env randomSuffix p.1 channels s tr2
      (fun tc htc => hs tc.Config (List.mem_map_of_mem _ htc)) e he)
  have hs0 : ∀ c ∈ (relayerTestCaseConfigs.map
        (fun c => ({ Config := c, Users := [], TxCache := ⟨[], []⟩ } : RelayerTestCase))).map
        (fun tc => tc.Config), c ∈ relayerTestCaseConfigs := by
    intro c hc
    simp only [List.map_map, List.mem_map, Function.comp_apply] at hc
    obtain ⟨a, ha, rfl⟩ := hc
    exact ha
  have hinv := StopStartRelayerWithPreStartFuncs_invariant
    (fun tcs : List RelayerTestCase =>
      ∀ c ∈ tcs.map (fun tc => tc.Config), c ∈ relayerTestCaseConfigs)
    env.srcChain.Config.ChainID env.dstChain.Config.ChainID r _ pathNames _ tr
    (fun f hf channels s tr2 hs => (hq f hf channels s tr2 hs).1) hs0
  have hph := StopStartRelayerWithPreStartFuncs_phases
    (fun tcs : List RelayerTestCase =>
      ∀ c ∈ tcs.map (fun tc => tc.Config), c ∈ relayerTestCaseConfigs)
    (fun e => e.isAssertion = false)
    env.srcChain.Config.ChainID env.dstChain.Config.ChainID r _ pathNames _ tr
    hq (fun _ _ => rfl) (fun _ => rfl) hs0
  have herr := StopStartRelayerWithPreStartFuncs_discovery_error
    env.srcChain.Config.ChainID env.dstChain.Config.ChainID r
    (((relayerTestCaseConfigs.enum.filter
        (fun p => (missingCapabilities rf p.2.RequiredRelayerCapabilities).isEmpty)).map
        (fun p => preRelayerStartFunc env randomSuffix p.1)).map some) pathNames
    (relayerTestCaseConfigs.map
        (fun c => ({ Config := c, Users := [], TxCache := ⟨[], []⟩ } : RelayerTestCase))) tr
  unfold TestChainPair TestChainPairOver
  rw [registerTestCases_eq]
  simp only [List.nil_append, List.length_nil]
  simp only [List.enum] at hinv hph herr
  generalize hss : StopStartRelayerWithPreStartFuncs env.srcChain.Config.ChainID
    env.dstChain.Config.ChainID r _ pathNames _ tr = ss at hinv hph herr ⊢
  cases hd : discovery env.srcChain.Config.ChainID env.dstChain.Config.ChainID r tr with
  | error e =>
    have h := herr e hd
    subst h
    refine ⟨[.stopRelayer (r.StopRelayer tr).isNone,
      .getTransferChannel env.srcChain.Config.ChainID env.dstChain.Config.ChainID false], [],
      by simp [afterStop], ?_, ?_, fun _ => rfl⟩
    · intro e he
      simp only [List.mem_cons, List.mem_singleton, List.not_mem_nil, or_false] at he
      rcases he with rfl | rfl <;> rfl
    · intro report h
      simp at h
  | ok channel =>
    obtain ⟨hookEvs, tail, htr, hl, hqe, htail, hnone, hsome, hok⟩ := hph channel hd
    rcases ss with ⟨tcs1, tr2, ret⟩
    simp only at htr hnone hsome hok hinv
    subst htr
    have hpre : ∀ e ∈ [.stopRelayer (r.StopRelayer tr).isNone,
        .getTransferChannel env.srcChain.Config.ChainID env.dstChain.Config.ChainID true]
        ++ hookEvs ++ tail, e.isAssertion = false := by
      intro e he
      simp only [List.mem_append, List.mem_cons, List.mem_singleton, List.not_mem_nil,
        or_false] at he
      rcases he with ((rfl | rfl) | h) | h
      · rfl
      · rfl
      · exact hqe e h
      · rcases htail with ht | ht | ht
        · rw [ht] at h; cases h
        · rw [ht] at h
          rw [List.mem_singleton.mp h]
          rfl
        · rw [ht] at h
          simp only [List.mem_cons, List.mem_singleton, List.not_mem_nil, or_false] at h
          rcases h with rfl | rfl | rfl <;> rfl
    cases ret with
    | none =>
      refine ⟨[.stopRelayer (r.StopRelayer tr).isNone,
        .getTransferChannel env.srcChain.Config.ChainID env.dstChain.Config.ChainID true]
        ++ hookEvs ++ tail, [], by simp [afterStop], hpre, ?_, fun _ => rfl⟩
      intro report h
      simp at h
    | some x =>
      cases x with
      | error err =>
        refine ⟨[.stopRelayer (r.StopRelayer tr).isNone,
          .getTransferChannel env.srcChain.Config.ChainID env.dstChain.Config.ChainID true]
          ++ hookEvs ++ tail, [], by simp [afterStop], hpre, ?_, fun _ => rfl⟩
        intro report h
        simp at h
      | ok channels =>
        obtain ⟨hc, ht⟩ := hok channels rfl
        subst hc
        subst ht
        simp only
        obtain ⟨post, hp⟩ := postRelayerStart_appends env rf [channel] tcs1
          (fun tc htc => hinv tc.Config (List.mem_map_of_mem _ htc))
          (afterStop r tr
            ++ [.getTransferChannel env.srcChain.Config.ChainID env.dstChain.Config.ChainID true]
            ++ hookEvs ++ [.startRelayer pathNames true, .registerCleanup, .sleep 5])
        have hc := hsome (by simp)
        generalize hr : postRelayerStart env rf [channel] tcs1
          (afterStop r tr
            ++ [.getTransferChannel env.srcChain.Config.ChainID env.dstChain.Config.ChainID true]
            ++ hookEvs ++ [.startRelayer pathNames true, .registerCleanup, .sleep 5]) = res
          at hp ⊢
        rcases res with ⟨tr3, report⟩
        simp only at hp
        subst hp
        refine ⟨[.stopRelayer (r.StopRelayer tr).isNone,
          .getTransferChannel env.srcChain.Config.ChainID env.dstChain.Config.ChainID true]
          ++ hookEvs ++ [.startRelayer pathNames true, .registerCleanup, .sleep 5], post,
          by simp [afterStop], hpre, ?_, ?_⟩
        · intro report2 h
          simp only [RunStatus.completed.injEq] at h
          subst h
          refine ⟨channel, [.stopRelayer (r.StopRelayer tr).isNone,
            .getTransferChannel env.srcChain.Config.ChainID env.dstChain.Config.ChainID true]
            ++ hookEvs, rfl, ?_, ?_, ?_⟩
          · rw [← hl]
            simp [List.filter_cons, Event.isHookStart]
          · rw [← hc]
            simp [List.filter_cons, Event.isHookDone]
          · rw [← hr]
            simp [afterStop]
        · intro h
          exact absurd rfl (h report)


theorem TestChainPair_not_started (env : Env) (rf : RelayerFactory) (randomSuffix : String)
    (pathNames : List String) (tr : Trace) (e : String)
    (h : env.StartChainPair tr = .error e) :
    (TestChainPair env rf none randomSuffix pathNames tr).trace = tr ++ [.startChainPair false]
    ∧ (TestChainPair env rf none randomSuffix pathNames tr).status
        = .aborted ("failed to StartChainPair: " ++ e) := by
  unfold TestChainPair TestChainPairOver
  simp only [h]
  constructor <;> trivial

theorem TestChainPair_started (env : Env) (rf : RelayerFactory) (randomSuffix : String)
    (pathNames : List String) (tr : Trace) (r : Relayer)
    (h : env.StartChainPair tr = .ok r) :
    TestChainPair env rf none randomSuffix pathNames tr
      = TestChainPair env rf (some r) randomSuffix pathNames (tr ++ [.startChainPair true]) := by
  unfold TestChainPair TestChainPairOver
  simp only [h]

theorem TestChainPair_phases (env : Env) (rf : RelayerFactory) (relayerImpl : Option Relayer)
    (randomSuffix : String) (pathNames : List String) (tr : Trace) :
    ∃ pre post,
      (TestChainPair env rf relayerImpl randomSuffix pathNames tr).trace = tr ++ pre ++ post
      ∧ (∀ e ∈ pre, e.isAssertion = false)
      ∧ (∀ report,
          (TestChainPair env rf relayerImpl randomSuffix pathNames tr).status = .completed report →
          ∃ channel pre0,
            pre = pre0 ++ [.startRelayer pathNames true, .registerCleanup, .sleep 5]
            ∧ pre0.filter Event.isHookStart = hookLaunches [channel] 0
                ((TestChainPair env rf relayerImpl randomSuffix pathNames tr).preRelayerStartFuncs.map
                  some)
            ∧ pre0.filter Event.isHookDone = hookCompletions 0
                ((TestChainPair env rf relayerImpl randomSuffix pathNames tr).preRelayerStartFuncs.map
                  some)
            ∧ postRelayerStart env rf [channel]
                (TestChainPair env rf relayerImpl randomSuffix pathNames tr).testCases (tr ++ pre)
              = ((TestChainPair env rf relayerImpl randomSuffix pathNames tr).trace, report))
      ∧ ((∀ report,
            (TestChainPair env rf relayerImpl randomSuffix pathNames tr).status
              ≠ .completed report) →
          post = []) := by
  cases relayerImpl with
  | some r => exact TestChainPair_phases_started env rf r randomSuffix pathNames tr
  | none =>
    cases hsc : env.StartChainPair tr with
    | error e =>
      obtain ⟨htr, hst⟩ := TestChainPair_not_started env rf randomSuffix pathNames tr e hsc
      refine ⟨[.startChainPair false], [], by rw [htr]; simp, ?_, ?_, fun _ => rfl⟩
      · intro e he
        rw [List.mem_singleton.mp he]
        rfl
      · intro report h
        rw [hst] at h
        cases h
    | ok r =>
      rw [TestChainPair_started env rf randomSuffix pathNames tr r hsc]
      obtain ⟨pre, post, htr, hpre, hdone, hpost⟩ := TestChainPair_phases_started env rf r
        randomSuffix pathNames (tr ++ [.startChainPair true])
      refine ⟨.startChainPair true :: pre, post, by rw [htr]; simp, ?_, ?_, hpost⟩
      · intro e he
        rcases List.mem_cons.mp he with h | h
        · rw [h]; rfl
        · exact hpre e h
      · intro report h
        obtain ⟨channel, pre0, h1, h2, h3, h4⟩ := hdone report h
        refine ⟨channel, .startChainPair true :: pre0, by rw [h1]; rfl, ?_, ?_, ?_⟩
        · rw [← h2]
          simp [List.filter_cons, Event.isHookStart]
        · rw [← h3]
          simp [List.filter_cons, Event.isHookDone]
        · rw [← h4]
          simp


/-- C12: in `StopStartRelayerWithPreStartFuncs`, for hooks that do not log
goroutine launches or completions themselves: when the channel discovery
fails the call returns its error after the stop and the failed discovery
only, with the state of the hooks untouched, so no hook is run and the relay
is not started. When the discovery yields `channel`, the history is the stop
and the discovery, then the calls of the hook phase, then a tail that is
empty, a failed relay start, or a relay start with its clean-up and sleep.
The hook phase launches every non-nil hook exactly once, in order, with the
list `[channel]`, and no nil hook; if the call never returns the tail is
empty, and if it returns, every launched hook has completed inside the hook
phase, before the tail; a returned channel list is `[channel]` and comes with
the started relay. In `TestChainPair` the history is what was there, then a
part free of assertion calls, then the assertion phase; when the run
completes the first part ends with the relay start, every hook of the run was
launched and has completed before it, and the assertion phase starts from
that history; when the run does not complete the assertion part is empty. -/
theorem setup_hooks_precede_relay_start {σ : Type} (srcChainID dstChainID : String)
    (relayerImpl : Relayer) (funcs : List (Option (PreRelayerStartFunc σ)))
    (pathNames : List String) (s : σ) (tr : Trace) (hquiet : quietHooks funcs)
    (env : Env) (rf : RelayerFactory) (relayer : Option Relayer) (randomSuffix : String) :
    (∀ e, discovery srcChainID dstChainID relayerImpl tr = .error e →
      StopStartRelayerWithPreStartFuncs srcChainID dstChainID relayerImpl funcs pathNames s tr
        = ⟨s, afterStop relayerImpl tr ++ [.getTransferChannel srcChainID dstChainID false],
            some (.error (.getTransferChannel e))⟩)
    ∧ (∀ channel, discovery srcChainID dstChainID relayerImpl tr = .ok channel →
      ∃ hookEvs tail,
        (StopStartRelayerWithPreStartFuncs srcChainID dstChainID relayerImpl funcs pathNames s
            tr).trace
          = afterStop relayerImpl tr ++ [.getTransferChannel srcChainID dstChainID true]
              ++ hookEvs ++ tail
        ∧ hookEvs.filter Event.isHookStart = hookLaunches [channel] 0 funcs
        ∧ (tail = [] ∨ tail = [.startRelayer pathNames false]
            ∨ tail = [.startRelayer pathNames true, .registerCleanup, .sleep 5])
        ∧ ((StopStartRelayerWithPreStartFuncs srcChainID dstChainID relayerImpl funcs pathNames s
              tr).ret = none → tail = [])
        ∧ ((StopStartRelayerWithPreStartFuncs srcChainID dstChainID relayerImpl funcs pathNames s
              tr).ret ≠ none → hookEvs.filter Event.isHookDone = hookCompletions 0 funcs)
        ∧ (∀ channels,
            (StopStartRelayerWithPreStartFuncs srcChainID dstChainID relayerImpl funcs pathNames s
              tr).ret = some (.ok channels) →
            channels = [channel]
              ∧ tail = [.startRelayer pathNames true, .registerCleanup, .sleep 5]))
    ∧ (∃ pre post,
        (TestChainPair env rf relayer randomSuffix pathNames tr).trace = tr ++ pre ++ post
        ∧ (∀ e ∈ pre, e.isAssertion = false)
        ∧ (∀ report,
            (TestChainPair env rf relayer randomSuffix pathNames tr).status = .completed report →
            ∃ channel pre0,
              pre = pre0 ++ [.startRelayer pathNames true, .registerCleanup, .sleep 5]
              ∧ pre0.filter Event.isHookStart = hookLaunches [channel] 0
                  ((TestChainPair env rf relayer randomSuffix pathNames tr).preRelayerStartFuncs.map
                    some)
              ∧ pre0.filter Event.isHookDone = hookCompletions 0
                  ((TestChainPair env rf relayer randomSuffix pathNames tr).preRelayerStartFuncs.map
                    some)
              ∧ postRelayerStart env rf [channel]
                  (TestChainPair env rf relayer randomSuffix pathNames tr).testCases (tr ++ pre)
                = ((TestChainPair env rf relayer randomSuffix pathNames tr).trace, report))
        ∧ ((∀ report,
              (TestChainPair env rf relayer randomSuffix pathNames tr).status
                ≠ .completed report) →
            post = [])) := by
  refine ⟨fun e he => StopStartRelayerWithPreStartFuncs_discovery_error srcChainID dstChainID
      relayerImpl funcs pathNames s tr e he, ?_,
    TestChainPair_phases env rf relayer randomSuffix pathNames tr⟩
  intro channel hd
  obtain ⟨hookEvs, tail, h1, h2, _, h4, h5, h6, h7⟩ :=
    StopStartRelayerWithPreStartFuncs_phases (fun _ : σ => True) (fun _ => True)
      srcChainID dstChainID relayerImpl funcs pathNames s tr
      (fun f hf channels s tr _ => ⟨trivial, fun e he => ⟨hquiet f hf channels s tr e he, trivial⟩⟩)
      (fun _ _ => trivial) (fun _ => trivial) trivial channel hd
  exact ⟨hookEvs, tail, h1, h2, h4, h5, h6, h7⟩

theorem setup_hooks_precede_relay_start_witness :
    quietHooks [some exampleHook, none, some exampleHook]
    ∧ ∃ hookEvs tail,
        (StopStartRelayerWithPreStartFuncs "xion-1" "osmosis-1" exampleRelayer
            [some exampleHook, none, some exampleHook] ["rly-xion-osmo"] 0 []).trace
          = afterStop exampleRelayer [] ++ [.getTransferChannel "xion-1" "osmosis-1" true]
              ++ hookEvs ++ tail
        ∧ hookEvs.filter Event.isHookStart
            = [.preRelayerStart 0 [exampleChannel], .preRelayerStart 2 [exampleChannel]]
        ∧ hookEvs.filter Event.isHookDone = [.preRelayerStartDone 0, .preRelayerStartDone 2]
        ∧ tail = [.startRelayer ["rly-xion-osmo"] true, .registerCleanup, .sleep 5] := by
  have hquiet : quietHooks [some exampleHook, none, some exampleHook] := by
    intro f hf channels s tr e he
    simp only [List.mem_cons, Option.some.injEq, List.mem_singleton, List.not_mem_nil, or_false,
      false_or, or_self] at hf
    rcases hf with rfl | h | rfl
    · simp only [exampleHook, List.mem_singleton] at he
      subst he
      exact ⟨rfl, rfl⟩
    · cases h
    · simp only [exampleHook, List.mem_singleton] at he
      subst he
      exact ⟨rfl, rfl⟩
  obtain ⟨hookEvs, tail, h1, h2, _, _, h5, h6⟩ :=
    (setup_hooks_precede_relay_start "xion-1" "osmosis-1" exampleRelayer
      [some exampleHook, none, some exampleHook] ["rly-xion-osmo"] 0 [] hquiet
      (exampleEnv 0 0 0) (exampleFactory []) (some exampleRelayer) "abcd").2.1 exampleChannel rfl
  exact ⟨hquiet, hookEvs, tail, h1, h2, h5 (by intro h; cases h), (h6 [exampleChannel] rfl).2⟩


/-! ## Theorems: propagation of scenario errors -/

theorem successSrcToDstStep_noPanic (env : Env) (srcUser : Wallet)
    (channels : List ChannelOutput) (i : Nat) (tx : Tx) (tr : Trace) (hi : i < channels.length) :
    (successSrcToDstStep env srcUser channels i tx tr).2.isPanicked = false := by
  unfold successSrcToDstStep
  simp only [List.getElem?_eq_getElem hi]
  repeat' split
  all_goals rfl

theorem failSrcToDstStep_noPanic (env : Env) (srcUser : Wallet)
    (channels : List ChannelOutput) (i : Nat) (tx : Tx) (tr : Trace) (hi : i < channels.length) :
    (failSrcToDstStep env srcUser channels i tx tr).2.isPanicked = false := by
  unfold failSrcToDstStep
  simp only [List.getElem?_eq_getElem hi]
  repeat' split
  all_goals rfl

theorem successDstToSrcStep_noPanic (env : Env) (users : List Wallet)
    (channels : List ChannelOutput) (i : Nat) (tx : Tx) (tr : Trace) (hi : i < channels.length)
    (hu : 1 < users.length) :
    (successDstToSrcStep env users channels i tx tr).2.isPanicked = false := by
  unfold successDstToSrcStep
  simp only [List.getElem?_eq_getElem hi, List.getElem?_eq_getElem hu]
  repeat' split
  all_goals rfl

theorem failDstToSrcStep_noPanic (env : Env) (dstUser : Wallet)
    (channels : List ChannelOutput) (i : Nat) (tx : Tx) (tr : Trace) (hi : i < channels.length) :
    (failDstToSrcStep env dstUser channels i tx tr).2.isPanicked = false := by
  unfold failDstToSrcStep
  simp only [List.getElem?_eq_getElem hi]
  repeat' split
  all_goals rfl

theorem forRecords_noPanic (step : Nat → Tx → Trace → Trace × Verdict) (n : Nat)
    (hstep : ∀ i tx tr, i < n → (step i tx tr).2.isPanicked = false)
    (txs : List Tx) (i : Nat) (tr : Trace) (hlen : i + txs.length ≤ n) :
    (forRecords step txs i tr).2.isPanicked = false := by
  induction txs generalizing i tr with
  | nil => rfl
  | cons tx rest ih =>
    have hi : i < n := by
      simp only [List.length_cons] at hlen
      omega
    have h1 := hstep i tx tr hi
    unfold forRecords
    rcases hs : step i tx tr with ⟨tr1, v⟩
    rw [hs] at h1
    cases v with
    | passed =>
      simp only
      exact ih (i + 1) tr1 (by simp only [List.length_cons] at hlen; omega)
    | failed m => rfl
    | panicked m => cases h1


theorem testPacketRelaySuccess_noPanic (env : Env) (testCase : TestCaseState)
    (channels : List ChannelOutput) (tr : Trace) (h : setupComplete channels testCase) :
    (testPacketRelaySuccess env testCase channels tr).2.isPanicked = false := by
  obtain ⟨hu, hsrc, hdst⟩ := h
  unfold testPacketRelaySuccess
  have h0 : 0 < testCase.Users.length := by omega
  simp only [List.getElem?_eq_getElem h0]
  have hs := forRecords_noPanic (successSrcToDstStep env testCase.Users[0] channels)
    channels.length (fun i tx tr hi => successSrcToDstStep_noPanic env _ channels i tx tr hi)
    testCase.TxCache.Src 0 tr (by omega)
  rcases hr : forRecords (successSrcToDstStep env testCase.Users[0] channels)
    testCase.TxCache.Src 0 tr with ⟨tr1, v⟩
  rw [hr] at hs
  cases v with
  | passed =>
    simp only
    exact forRecords_noPanic (successDstToSrcStep env testCase.Users channels) channels.length
      (fun i tx tr hi => successDstToSrcStep_noPanic env _ channels i tx tr hi (by omega))
      testCase.TxCache.Dst 0 tr1 (by omega)
  | failed m => rfl
  | panicked m => cases hs

theorem testPacketRelayFail_noPanic (env : Env) (testCase : TestCaseState)
    (channels : List ChannelOutput) (tr : Trace) (h : setupComplete channels testCase) :
    (testPacketRelayFail env testCase channels tr).2.isPanicked = false := by
  obtain ⟨hu, hsrc, hdst⟩ := h
  unfold testPacketRelayFail
  have h0 : 0 < testCase.Users.length := by omega
  have h1 : 1 < testCase.Users.length := by omega
  simp only [List.getElem?_eq_getElem h0, List.getElem?_eq_getElem h1]
  have hs := forRecords_noPanic (failSrcToDstStep env testCase.Users[0] channels)
    channels.length (fun i tx tr hi => failSrcToDstStep_noPanic env _ channels i tx tr hi)
    testCase.TxCache.Src 0 tr (by omega)
  rcases hr : forRecords (failSrcToDstStep env testCase.Users[0] channels)
    testCase.TxCache.Src 0 tr with ⟨tr1, v⟩
  rw [hr] at hs
  cases v with
  | passed =>
    simp only
    exact forRecords_noPanic (failDstToSrcStep env testCase.Users[1] channels) channels.length
      (fun i tx tr hi => failDstToSrcStep_noPanic env _ channels i tx tr hi)
      testCase.TxCache.Dst 0 tr1 (by omega)
  | failed m => rfl
  | panicked m => cases hs

theorem Test_noPanic (env : Env) (testCase : TestCaseState) (channels : List ChannelOutput)
    (tr : Trace) (cfg : RelayerTestCaseConfig) (hcfg : cfg ∈ relayerTestCaseConfigs)
    (h : setupComplete channels testCase) :
    (cfg.Test env testCase channels tr).2.isPanicked = false := by
  simp only [relayerTestCaseConfigs, List.mem_cons, List.mem_singleton, List.not_mem_nil,
    or_false] at hcfg
  rcases hcfg with rfl | rfl | rfl | rfl
  · exact testPacketRelaySuccess_noPanic env testCase channels tr h
  · exact testPacketRelaySuccess_noPanic env testCase channels tr h
  · exact testPacketRelayFail_noPanic env testCase channels tr h
  · exact testPacketRelayFail_noPanic env testCase channels tr h

theorem sendIBCTransfers_setupComplete (env : Env) (testCase : TestCaseState)
    (channels : List ChannelOutput) (timeout : Option IBCTimeout) (tr : Trace)
    (h : (sendIBCTransfersFromBothChainsWithTimeout env testCase channels timeout tr).2.2
      = .passed) :
    setupComplete channels
      (sendIBCTransfersFromBothChainsWithTimeout env testCase channels timeout tr).1 := by
  unfold sendIBCTransfersFromBothChainsWithTimeout at h ⊢
  cases h0 : testCase.Users[0]? with
  | none => rw [h0] at h; cases h
  | some srcUser =>
    cases h1 : testCase.Users[1]? with
    | none => rw [h0, h1] at h; cases h
    | some dstUser =>
      have hlen : 2 ≤ testCase.Users.length := by
        have := (List.getElem?_eq_some_iff.mp h1).1
        omega
      rw [h0, h1] at h
      try rw [h0, h1]
      simp only at h ⊢
      cases hs : (srcTask env srcUser channels timeout tr).2 with
      | error e => rw [hs] at h; cases h
      | ok srcTxs =>
        cases hd : (dstTask env dstUser channels timeout tr).2 with
        | error e => rw [hs, hd] at h; cases h
        | ok dstTxs =>
          rw [hs, hd] at h
          try rw [hs, hd]
          simp only at h ⊢
          cases hv : srcTxs.findSome? env.TxValidate with
          | some e => rw [hv] at h; cases h
          | none =>
            cases hw : dstTxs.findSome? env.TxValidate with
            | some e => rw [hv, hw] at h; cases h
            | none =>
              try rw [hv, hw]
              exact ⟨hlen, (srcTask_ok env srcUser channels timeout tr srcTxs hs).2.1,
                (dstTask_ok env dstUser channels timeout tr dstTxs hd).2.1⟩

theorem PreRelayerStart_setupComplete (env : Env) (testCase : TestCaseState)
    (channels : List ChannelOutput) (tr : Trace)
    (cfg : RelayerTestCaseConfig) (hcfg : cfg ∈ relayerTestCaseConfigs)
    (h : (cfg.PreRelayerStart env testCase channels tr).2.2 = .passed) :
    setupComplete channels (cfg.PreRelayerStart env testCase channels tr).1 := by
  have hs := fun timeout => sendIBCTransfers_setupComplete env testCase channels timeout tr
  simp only [relayerTestCaseConfigs, List.mem_cons, List.mem_singleton, List.not_mem_nil,
    or_false] at hcfg
  rcases hcfg with rfl | rfl | rfl | rfl
  · exact hs none h
  · exact hs (some ⟨0, 0⟩) h
  · simp only [preRelayerStart_HeightTimeout] at h ⊢
    have hs1 := hs (some ⟨0, 10⟩)
    rcases hr : sendIBCTransfersFromBothChainsWithTimeout env testCase channels
      (some ⟨0, 10⟩) tr with ⟨tc1, evs, v⟩
    rw [hr] at h hs1
    cases v with
    | passed =>
      simp only at h ⊢
      split
      all_goals exact hs1 rfl
    | failed m => cases h
    | panicked m => cases h
  · simp only [preRelayerStart_TimestampTimeout] at h ⊢
    have hs1 := hs (some ⟨1000000000, 0⟩)
    rcases hr : sendIBCTransfersFromBothChainsWithTimeout env testCase channels
      (some ⟨1000000000, 0⟩) tr with ⟨tc1, evs, v⟩
    rw [hr] at h hs1
    cases v with
    | passed => exact hs1 rfl
    | failed m => cases h
    | panicked m => cases h


theorem runPreRelayerStartFuncs_cons_returned {σ : Type} (channels : List ChannelOutput)
    (f : PreRelayerStartFunc σ) (rest : List (Option (PreRelayerStartFunc σ))) (i : Nat) (s : σ)
    (tr : Trace) (h : (f channels s (tr ++ [.preRelayerStart i channels])).2.2 = .returned) :
    runPreRelayerStartFuncs channels (some f :: rest) i s tr
      = runPreRelayerStartFuncs channels rest (i + 1)
          (f channels s (tr ++ [.preRelayerStart i channels])).1
          (tr ++ [.preRelayerStart i channels]
            ++ (f channels s (tr ++ [.preRelayerStart i channels])).2.1
            ++ [.preRelayerStartDone i]) := by
  rcases hr : f channels s (tr ++ [.preRelayerStart i channels]) with ⟨s1, evs, ex⟩
  rw [hr] at h
  simp only at h
  subst h
  simp only [runPreRelayerStartFuncs, hr]

theorem runPreRelayerStartFuncs_cons_not_returned {σ : Type} (channels : List ChannelOutput)
    (f : PreRelayerStartFunc σ) (rest : List (Option (PreRelayerStartFunc σ))) (i : Nat) (s : σ)
    (tr : Trace) (h : (f channels s (tr ++ [.preRelayerStart i channels])).2.2 ≠ .returned) :
    (runPreRelayerStartFuncs channels (some f :: rest) i s tr).2.2 = false := by
  rcases hr : f channels s (tr ++ [.preRelayerStart i channels]) with ⟨s1, evs, ex⟩
  rw [hr] at h
  cases ex with
  | returned => exact absurd rfl h
  | goexit => simp only [runPreRelayerStartFuncs, hr]
  | panicked => simp only [runPreRelayerStartFuncs, hr]

theorem preRelayerStartFunc_returned (env : Env) (randomSuffix : String) (k : Nat)
    (channels : List ChannelOutput) (testCases : List RelayerTestCase) (tr : Trace)
    (hreg : ∀ c ∈ testCases.map (fun tc => tc.Config), c ∈ relayerTestCaseConfigs)
    (h : (preRelayerStartFunc env randomSuffix k channels testCases tr).2.2 = .returned) :
    setupCompleteAt channels k (preRelayerStartFunc env randomSuffix k channels testCases tr).1 := by
  unfold preRelayerStartFunc at h ⊢
  cases hk : testCases[k]? with
  | none => rw [hk] at h; cases h
  | some testCase =>
    rw [hk] at h
    try rw [hk]
    simp only at h ⊢
    have hlt := (List.getElem?_eq_some_iff.mp hk).1
    have hc : testCase.Config ∈ relayerTestCaseConfigs :=
      hreg _ (List.mem_map_of_mem _ ((List.getElem?_eq_some_iff.mp hk).2 ▸ List.getElem_mem hlt))
    cases hf : env.GetAndFundTestUsers tr
        (testCase.Config.Name.replace " " "-" ++ "-" ++ randomSuffix) userFaucetFund with
    | none => rw [hf] at h; cases h
    | some users =>
      rw [hf] at h
      try rw [hf]
      simp only at h ⊢
      have hp := PreRelayerStart_setupComplete env ⟨users, testCase.TxCache⟩ channels
        (tr ++ [.getAndFundTestUsers
          (testCase.Config.Name.replace " " "-" ++ "-" ++ randomSuffix) userFaucetFund true])
        testCase.Config hc
      have h2 : (match (testCase.Config.PreRelayerStart env ⟨users, testCase.TxCache⟩ channels
          (tr ++ [.getAndFundTestUsers
            (testCase.Config.Name.replace " " "-" ++ "-" ++ randomSuffix) userFaucetFund
            true])).2.2 with
        | .passed => HookExit.returned
        | .failed _ => HookExit.goexit
        | .panicked _ => HookExit.panicked) = HookExit.returned := h
      cases hv : (testCase.Config.PreRelayerStart env ⟨users, testCase.TxCache⟩ channels
          (tr ++ [.getAndFundTestUsers
            (testCase.Config.Name.replace " " "-" ++ "-" ++ randomSuffix) userFaucetFund
            true])).2.2 with
      | passed =>
        refine ⟨{ testCase with
          toTestCaseState := (testCase.Config.PreRelayerStart env ⟨users, testCase.TxCache⟩
            channels (tr ++ [.getAndFundTestUsers
              (testCase.Config.Name.replace " " "-" ++ "-" ++ randomSuffix) userFaucetFund
              true])).1 }, ?_, hp hv⟩
        simp [List.getElem?_set, hlt]
      | failed m => rw [hv] at h2; cases h2
      | panicked m => rw [hv] at h2; cases h2

theorem preRelayerStartFunc_keeps (env : Env) (randomSuffix : String) (j k : Nat)
    (channels : List ChannelOutput) (testCases : List RelayerTestCase) (tr : Trace)
    (hjk : j ≠ k) (h : setupCompleteAt channels k testCases) :
    setupCompleteAt channels k (preRelayerStartFunc env randomSuffix j channels testCases tr).1 := by
  unfold preRelayerStartFunc
  cases hj : testCases[j]? with
  | none => exact h
  | some testCase =>
    simp only
    cases hf : env.GetAndFundTestUsers tr
        (testCase.Config.Name.replace " " "-" ++ "-" ++ randomSuffix) userFaucetFund with
    | none => exact h
    | some users =>
      simp only
      obtain ⟨tc, htc, hgood⟩ := h
      refine ⟨tc, ?_, hgood⟩
      rw [List.getElem?_set_ne hjk]
      exact htc


theorem preRelayerStartFunc_step (env : Env) (randomSuffix : String) (j k : Nat)
    (channels : List ChannelOutput) (testCases : List RelayerTestCase) (tr : Trace)
    (hreg : ∀ c ∈ testCases.map (fun tc => tc.Config), c ∈ relayerTestCaseConfigs)
    (h : setupCompleteAt channels k testCases)
    (hret : (preRelayerStartFunc env randomSuffix j channels testCases tr).2.2 = .returned) :
    setupCompleteAt channels k (preRelayerStartFunc env randomSuffix j channels testCases tr).1 := by
  by_cases hjk : j = k
  · subst hjk
    exact preRelayerStartFunc_returned env randomSuffix j channels testCases tr hreg hret
  · exact preRelayerStartFunc_keeps env randomSuffix j k channels testCases tr hjk h

theorem hooks_keep_setupComplete (env : Env) (randomSuffix : String)
    (channels : List ChannelOutput) (k : Nat)
    (funcs : List (Option (PreRelayerStartFunc (List RelayerTestCase))))
    (hf : ∀ f ∈ funcs, ∃ j, f = some (preRelayerStartFunc env randomSuffix j)) :
    ∀ i s tr, (∀ c ∈ s.map (fun tc => tc.Config), c ∈ relayerTestCaseConfigs) →
      setupCompleteAt channels k s →
      (runPreRelayerStartFuncs channels funcs i s tr).2.2 = true →
      setupCompleteAt channels k (runPreRelayerStartFuncs channels funcs i s tr).1 := by
  induction funcs with
  | nil =>
    intro i s tr _ h _
    exact h
  | cons f rest ih =>
    intro i s tr hreg h hflag
    obtain ⟨j, rfl⟩ := hf f (List.mem_cons_self _ _)
    have ih1 := ih (fun g hg => hf g (List.mem_cons_of_mem _ hg))
    by_cases hret : (preRelayerStartFunc env randomSuffix j channels s
        (tr ++ [.preRelayerStart i channels])).2.2 = .returned
    · rw [runPreRelayerStartFuncs_cons_returned channels _ rest i s tr hret] at hflag ⊢
      exact ih1 _ _ _ (by rw [preRelayerStartFunc_configs]; exact hreg)
        (preRelayerStartFunc_step env randomSuffix j k channels s _ hreg h hret) hflag
    · rw [runPreRelayerStartFuncs_cons_not_returned channels _ rest i s tr hret] at hflag
      cases hflag

theorem hooks_reach_setupComplete (env : Env) (randomSuffix : String)
    (channels : List ChannelOutput)
    (funcs : List (Option (PreRelayerStartFunc (List RelayerTestCase))))
    (hf : ∀ f ∈ funcs, ∃ j, f = some (preRelayerStartFunc env randomSuffix j)) :
    ∀ i s tr, (∀ c ∈ s.map (fun tc => tc.Config), c ∈ relayerTestCaseConfigs) →
      (runPreRelayerStartFuncs channels funcs i s tr).2.2 = true →
      ∀ k, some (preRelayerStartFunc env randomSuffix k) ∈ funcs →
        setupCompleteAt channels k (runPreRelayerStartFuncs channels funcs i s tr).1 := by
  induction funcs with
  | nil =>
    intro i s tr _ _ k hk
    cases hk
  | cons f rest ih =>
    intro i s tr hreg hflag k hk
    obtain ⟨j, rfl⟩ := hf f (List.mem_cons_self _ _)
    have hf1 := fun g hg => hf g (List.mem_cons_of_mem _ hg)
    by_cases hret : (preRelayerStartFunc env randomSuffix j channels s
        (tr ++ [.preRelayerStart i channels])).2.2 = .returned
    · rw [runPreRelayerStartFuncs_cons_returned channels _ rest i s tr hret] at hflag ⊢
      have hreg1 : ∀ c ∈ (preRelayerStartFunc env randomSuffix j channels s
          (tr ++ [.preRelayerStart i channels])).1.map (fun tc => tc.Config),
          c ∈ relayerTestCaseConfigs := by
        rw [preRelayerStartFunc_configs]
        exact hreg
      rcases List.mem_cons.mp hk with heq | hmem
      · have hfun : preRelayerStartFunc env randomSuffix k = preRelayerStartFunc env randomSuffix j :=
          Option.some.inj heq
        have hretk : (preRelayerStartFunc env randomSuffix k channels s
            (tr ++ [.preRelayerStart i channels])).2.2 = .returned := by
          rw [hfun]
          exact hret
        have hgood := preRelayerStartFunc_returned env randomSuffix k channels s
          (tr ++ [.preRelayerStart i channels]) hreg hretk
        rw [hfun] at hgood
        exact hooks_keep_setupComplete env randomSuffix channels k rest hf1 _ _ _ hreg1 hgood hflag
      · exact ih hf1 _ _ _ hreg1 hflag k hmem
    · rw [runPreRelayerStartFuncs_cons_not_returned channels _ rest i s tr hret] at hflag
      cases hflag


theorem StopStartRelayerWithPreStartFuncs_setupComplete (env : Env) (randomSuffix : String)
    (srcChainID dstChainID : String) (relayerImpl : Relayer)
    (funcs : List (Option (PreRelayerStartFunc (List RelayerTestCase))))
    (pathNames : List String) (s : List RelayerTestCase) (tr : Trace)
    (hf : ∀ f ∈ funcs, ∃ j, f = some (preRelayerStartFunc env randomSuffix j))
    (hreg : ∀ c ∈ s.map (fun tc => tc.Config), c ∈ relayerTestCaseConfigs)
    (channels : List ChannelOutput)
    (hret : (StopStartRelayerWithPreStartFuncs srcChainID dstChainID relayerImpl funcs pathNames
      s tr).ret = some (.ok channels)) :
    ∀ k, some (preRelayerStartFunc env randomSuffix k) ∈ funcs →
      setupCompleteAt channels k
        (StopStartRelayerWithPreStartFuncs srcChainID dstChainID relayerImpl funcs pathNames
          s tr).state := by
  cases hd : discovery srcChainID dstChainID relayerImpl tr with
  | error e =>
    rw [StopStartRelayerWithPreStartFuncs_discovery_error srcChainID dstChainID relayerImpl funcs
      pathNames s tr e hd] at hret
    cases hret
  | ok channel =>
    rw [StopStartRelayerWithPreStartFuncs_discovered srcChainID dstChainID relayerImpl funcs
      pathNames s tr channel hd] at hret ⊢
    have hreach := hooks_reach_setupComplete env randomSuffix [channel] funcs hf 0 s
      (afterStop relayerImpl tr ++ [.getTransferChannel srcChainID dstChainID true]) hreg
    have hrun : hooksRun srcChainID dstChainID relayerImpl funcs s tr channel
        = runPreRelayerStartFuncs [channel] funcs 0 s
            (afterStop relayerImpl tr ++ [.getTransferChannel srcChainID dstChainID true]) := rfl
    rw [hrun] at hret ⊢
    generalize runPreRelayerStartFuncs [channel] funcs 0 s
        (afterStop relayerImpl tr ++ [.getTransferChannel srcChainID dstChainID true]) = run
      at hret hreach ⊢
    rcases run with ⟨s3, tr3, flag⟩
    cases flag with
    | false => cases hret
    | true =>
      simp only at hret hreach ⊢
      by_cases hp : pathNames.length = 0
      · simp only [hp, if_true] at hret
        cases hret
      · simp only [hp, if_false] at hret ⊢
        cases hst : relayerImpl.StartRelayer tr3 pathNames with
        | some e =>
          rw [hst] at hret
          cases hret
        | none =>
          rw [hst] at hret
          simp only [Option.some.injEq, Except.ok.injEq] at hret
          subst hret
          exact hreach trivial


theorem TestChainPair_completed_started (env : Env) (rf : RelayerFactory) (r : Relayer)
    (randomSuffix : String) (pathNames : List String) (tr : Trace)
    (report : List (String × Outcome))
    (h : (TestChainPair env rf (some r) randomSuffix pathNames tr).status = .completed report) :
    ∃ channels hist,
      postRelayerStart env rf channels
          (TestChainPair env rf (some r) randomSuffix pathNames tr).testCases hist
        = ((TestChainPair env rf (some r) randomSuffix pathNames tr).trace, report)
      ∧ (TestChainPair env rf (some r) randomSuffix pathNames tr).testCases.map
          (fun tc => tc.Config) = relayerTestCaseConfigs
      ∧ ∀ k cfg, relayerTestCaseConfigs[k]? = some cfg →
          missingCapabilities rf cfg.RequiredRelayerCapabilities = [] →
          setupCompleteAt channels k
            (TestChainPair env rf (some r) randomSuffix pathNames tr).testCases := by
  have hf : ∀ f ∈ ((relayerTestCaseConfigs.enum.filter
        (fun p => (missingCapabilities rf p.2.RequiredRelayerCapabilities).isEmpty)).map
        (fun p => preRelayerStartFunc env randomSuffix p.1)).map some,
      ∃ j, f = some (preRelayerStartFunc env randomSuffix j) := by
    intro f hf
    simp only [List.mem_map] at hf
    obtain ⟨g, ⟨p, _, hp⟩, hg⟩ := hf
    exact ⟨p.1, by rw [← hg, ← hp]⟩
  have hmem : ∀ k cfg, relayerTestCaseConfigs[k]? = some cfg →
      missingCapabilities rf cfg.RequiredRelayerCapabilities = [] →
      some (preRelayerStartFunc env randomSuffix k) ∈ ((relayerTestCaseConfigs.enum.filter
        (fun p => (missingCapabilities rf p.2.RequiredRelayerCapabilities).isEmpty)).map
        (fun p => preRelayerStartFunc env randomSuffix p.1)).map some := by
    intro k cfg hk hm
    refine List.mem_map_of_mem _ (List.mem_map.mpr ⟨(k, cfg), ?_, rfl⟩)
    rw [List.mem_filter]
    exact ⟨List.mk_mem_enum_iff_getElem?.mpr hk, by simp [hm]⟩
  have hs0 : (relayerTestCaseConfigs.map
        (fun c => ({ Config := c, Users := [], TxCache := ⟨[], []⟩ } : RelayerTestCase))).map
        (fun tc => tc.Config) = relayerTestCaseConfigs := by
    simp [List.map_map, Function.comp_def]
  have hinv := StopStartRelayerWithPreStartFuncs_invariant
    (fun tcs : List RelayerTestCase => tcs.map (fun tc => tc.Config) = relayerTestCaseConfigs)
    env.srcChain.Config.ChainID env.dstChain.Config.ChainID r _ pathNames _ tr
    (by
      intro f hf2 channels s tr2 hs
      obtain ⟨j, hj⟩ := hf f hf2
      rw [Option.some.inj hj, preRelayerStartFunc_configs]
      exact hs) hs0
  have hsc := StopStartRelayerWithPreStartFuncs_setupComplete env randomSuffix
    env.srcChain.Config.ChainID env.dstChain.Config.ChainID r _ pathNames _ tr hf
    (by rw [hs0]; exact fun c hc => hc)
  unfold TestChainPair TestChainPairOver at h ⊢
  rw [registerTestCases_eq] at h ⊢
  simp only [List.nil_append, List.length_nil] at h ⊢
  simp only [List.enum] at hinv hsc hmem
  generalize hss : StopStartRelayerWithPreStartFuncs env.srcChain.Config.ChainID
    env.dstChain.Config.ChainID r _ pathNames _ tr = ss at hinv hsc h ⊢
  rcases ss with ⟨tcs1, tr2, ret⟩
  simp only at hinv hsc
  cases ret with
  | none => simp at h
  | some x =>
    cases x with
    | error err => simp at h
    | ok channels =>
      have hch := hsc channels rfl
      simp only at h ⊢
      generalize hpr : postRelayerStart env rf channels tcs1 tr2 = res at h ⊢
      rcases res with ⟨tr3, report2⟩
      simp only [RunStatus.completed.injEq] at h
      subst h
      exact ⟨channels, tr2, hpr, hinv, fun k cfg hk hm => hch k (hmem k cfg hk hm)⟩


theorem TestChainPair_completed (env : Env) (rf : RelayerFactory) (relayerImpl : Option Relayer)
    (randomSuffix : String) (pathNames : List String) (tr : Trace)
    (report : List (String × Outcome))
    (h : (TestChainPair env rf relayerImpl randomSuffix pathNames tr).status = .completed report) :
    ∃ channels hist,
      postRelayerStart env rf channels
          (TestChainPair env rf relayerImpl randomSuffix pathNames tr).testCases hist
        = ((TestChainPair env rf relayerImpl randomSuffix pathNames tr).trace, report)
      ∧ (TestChainPair env rf relayerImpl randomSuffix pathNames tr).testCases.map
          (fun tc => tc.Config) = relayerTestCaseConfigs
      ∧ ∀ k cfg, relayerTestCaseConfigs[k]? = some cfg →
          missingCapabilities rf cfg.RequiredRelayerCapabilities = [] →
          setupCompleteAt channels k
            (TestChainPair env rf relayerImpl randomSuffix pathNames tr).testCases := by
  cases relayerImpl with
  | some r => exact TestChainPair_completed_started env rf r randomSuffix pathNames tr report h
  | none =>
    cases hsc : env.StartChainPair tr with
    | error e =>
      rw [(TestChainPair_not_started env rf randomSuffix pathNames tr e hsc).2] at h
      cases h
    | ok r =>
      rw [TestChainPair_started env rf randomSuffix pathNames tr r hsc] at h ⊢
      exact TestChainPair_completed_started env rf r randomSuffix pathNames _ report h

theorem postRelayerStartSubtest_outcome (env : Env) (rf : RelayerFactory)
    (testCase : RelayerTestCase) (channels : List ChannelOutput) (tr : Trace)
    (hm : missingCapabilities rf testCase.Config.RequiredRelayerCapabilities = []) :
    (postRelayerStartSubtest env rf testCase channels tr).2
      = match (testCase.Config.Test env testCase.toTestCaseState channels
          (tr ++ [.trackTest testCase.Config.Name] ++ [.trackParallel testCase.Config.Name])).2 with
        | .passed => Outcome.Passed
        | .failed _ => Outcome.Failed
        | .panicked _ => Outcome.Panicked := by
  unfold postRelayerStartSubtest requireCapabilities
  rw [hm]
  simp only [List.length_nil, gt_iff_lt, Nat.lt_irrefl, if_false]
  generalize testCase.Config.Test env testCase.toTestCaseState channels
    (tr ++ [.trackTest testCase.Config.Name] ++ [.trackParallel testCase.Config.Name]) = res
  rcases res with ⟨tr4, v⟩
  cases v <;> rfl

theorem postRelayerStart_outcomes (env : Env) (rf : RelayerFactory)
    (channels : List ChannelOutput) (testCases : List RelayerTestCase) (tr : Trace)
    (k : Nat) (tc : RelayerTestCase) (hk : testCases[k]? = some tc) :
    ∃ hist, (postRelayerStart env rf channels testCases tr).2[k]?
      = some (tc.Config.Name, (postRelayerStartSubtest env rf tc channels hist).2) := by
  induction testCases generalizing tr k with
  | nil => cases hk
  | cons head rest ih =>
    unfold postRelayerStart
    generalize hs : postRelayerStartSubtest env rf head channels tr = sub
    rcases sub with ⟨tr1, outcome⟩
    simp only
    cases k with
    | zero =>
      simp only [List.getElem?_cons_zero, Option.some.injEq] at hk
      subst hk
      exact ⟨tr, by rw [hs]; simp⟩
    | succ n =>
      simp only [List.getElem?_cons_succ] at hk
      obtain ⟨hist, hh⟩ := ih tr1 n hk
      exact ⟨hist, by simpa using hh⟩


theorem sendIBCTransfers_failed_keeps (env : Env) (testCase : TestCaseState)
    (channels : List ChannelOutput) (timeout : Option IBCTimeout) (tr : Trace) (m : String)
    (h : (sendIBCTransfersFromBothChainsWithTimeout env testCase channels timeout tr).2.2
      = .failed m) :
    (sendIBCTransfersFromBothChainsWithTimeout env testCase channels timeout tr).1 = testCase := by
  unfold sendIBCTransfersFromBothChainsWithTimeout at h ⊢
  cases h0 : testCase.Users[0]? with
  | none => rfl
  | some srcUser =>
    cases h1 : testCase.Users[1]? with
    | none => rfl
    | some dstUser =>
      rw [h0, h1] at h
      simp only at h ⊢
      cases hs : (srcTask env srcUser channels timeout tr).2 with
      | error e => rfl
      | ok srcTxs =>
        cases hd : (dstTask env dstUser channels timeout tr).2 with
        | error e => rfl
        | ok dstTxs =>
          rw [hs, hd] at h
          simp only at h ⊢
          cases hv : srcTxs.findSome? env.TxValidate with
          | some e => rfl
          | none =>
            cases hw : dstTxs.findSome? env.TxValidate with
            | some e => rfl
            | none =>
              rw [hv, hw] at h
              cases h

theorem preRelayerStartFunc_setup_failure (env : Env) (randomSuffix : String) (k : Nat)
    (channels : List ChannelOutput) (testCases : List RelayerTestCase) (hist : Trace)
    (tc : RelayerTestCase) (hk : testCases[k]? = some tc) :
    (env.GetAndFundTestUsers hist (tc.Config.Name.replace " " "-" ++ "-" ++ randomSuffix)
        userFaucetFund = none →
      (preRelayerStartFunc env randomSuffix k channels testCases hist).2.2 = .goexit
        ∧ (preRelayerStartFunc env randomSuffix k channels testCases hist).1 = testCases)
    ∧ (∀ users m,
        env.GetAndFundTestUsers hist (tc.Config.Name.replace " " "-" ++ "-" ++ randomSuffix)
          userFaucetFund = some users →
        (tc.Config.PreRelayerStart env ⟨users, tc.TxCache⟩ channels
          (hist ++ [.getAndFundTestUsers
            (tc.Config.Name.replace " " "-" ++ "-" ++ randomSuffix) userFaucetFund true])).2.2
          = .failed m →
        (preRelayerStartFunc env randomSuffix k channels testCases hist).2.2 = .goexit) := by
  constructor
  · intro hf
    simp only [preRelayerStartFunc, hk, hf]
    constructor <;> trivial
  · intro users m hf hv
    have hgoal : (preRelayerStartFunc env randomSuffix k channels testCases hist).2.2
        = (match (tc.Config.PreRelayerStart env ⟨users, tc.TxCache⟩ channels
            (hist ++ [.getAndFundTestUsers
              (tc.Config.Name.replace " " "-" ++ "-" ++ randomSuffix) userFaucetFund true])).2.2 with
          | .passed => HookExit.returned
          | .failed _ => HookExit.goexit
          | .panicked _ => HookExit.panicked) := by
      simp only [preRelayerStartFunc, hk, hf]
    rw [hgoal, hv]


/-- C11 as stated fails: the source chain rejects the transfer of the
scenario "no timeout" during its setup. The failure is raised in the hook's
goroutine, the relay restart never returns, and no scenario reports an
outcome, although the setup of "relay packet" had no error. -/
theorem setup_error_blocks_every_scenario :
    (TestChainPair refusingEnv
        (exampleFactory [Capability.HeightTimeout, Capability.TimestampTimeout])
        (some exampleRelayer) "abcd" ["rly-xion-osmo"] []).status = .blocked
    ∧ (preRelayerStart_RelayPacket refusingEnv
        ⟨[exampleWallet "relay-packet-abcd-0", exampleWallet "relay-packet-abcd-1"], ⟨[], []⟩⟩
        [exampleChannel] []).2.2 = .passed
    ∧ (preRelayerStart_NoTimeout refusingEnv
        ⟨[exampleWallet "no-timeout-abcd-0", exampleWallet "no-timeout-abcd-1"], ⟨[], []⟩⟩
        [exampleChannel] []).2.2
      = .failed "failed to send ibc transfer from source: rejected"
    ∧ ¬ ∃ report, (TestChainPair refusingEnv
        (exampleFactory [Capability.HeightTimeout, Capability.TimestampTimeout])
        (some exampleRelayer) "abcd" ["rly-xion-osmo"] []).status = .completed report := by
  have h : (TestChainPair refusingEnv
      (exampleFactory [Capability.HeightTimeout, Capability.TimestampTimeout])
      (some exampleRelayer) "abcd" ["rly-xion-osmo"] []).status = .blocked := by decide
  refine ⟨h, by decide, by decide, ?_⟩
  rintro ⟨report, hr⟩
  rw [h] at hr
  cases hr

/-- C11 (amended): an error in the assertion of a scenario stays in that
scenario. Whenever the assertion phase of `TestChainPair` runs, the report
names the scenarios in registry order, and every scenario with no missing
capability has completed its setup and reports `Passed` or `Failed` exactly
as its own assertion procedure, run on its own wallets and cache, passes or
fails; the relay restart had returned before. An error in the setup of a
scenario is not confined to it: when the funding fails, or the setup
procedure fails, the hook's goroutine is ended by the failed requirement on
the run's test handle; a failed dispatch leaves the test case as it was, so
the cache is not written. -/
theorem assertion_errors_stay_in_their_scenario (env : Env) (rf : RelayerFactory)
    (relayerImpl : Option Relayer) (randomSuffix : String) (pathNames : List String)
    (tr : Trace) :
    (∀ report,
      (TestChainPair env rf relayerImpl randomSuffix pathNames tr).status = .completed report →
      report.map Prod.fst = relayerTestCaseConfigs.map (fun c => c.Name)
      ∧ ∀ (k : Nat) (cfg : RelayerTestCaseConfig), relayerTestCaseConfigs[k]? = some cfg →
          missingCapabilities rf cfg.RequiredRelayerCapabilities = [] →
          ∃ (tc : RelayerTestCase) (channels : List ChannelOutput) (hist : Trace),
            (TestChainPair env rf relayerImpl randomSuffix pathNames tr).testCases[k]? = some tc
            ∧ tc.Config = cfg
            ∧ setupComplete channels tc.toTestCaseState
            ∧ (((cfg.Test env tc.toTestCaseState channels hist).2 = .passed
                  ∧ report[k]? = some (cfg.Name, Outcome.Passed))
                ∨ ((∃ m, (cfg.Test env tc.toTestCaseState channels hist).2 = .failed m)
                  ∧ report[k]? = some (cfg.Name, Outcome.Failed))))
    ∧ (∀ (k : Nat) (channels : List ChannelOutput) (testCases : List RelayerTestCase)
        (hist : Trace) (tc : RelayerTestCase), testCases[k]? = some tc →
        (env.GetAndFundTestUsers hist (tc.Config.Name.replace " " "-" ++ "-" ++ randomSuffix)
            userFaucetFund = none →
          (preRelayerStartFunc env randomSuffix k channels testCases hist).2.2 = .goexit
            ∧ (preRelayerStartFunc env randomSuffix k channels testCases hist).1 = testCases)
        ∧ (∀ users m,
            env.GetAndFundTestUsers hist (tc.Config.Name.replace " " "-" ++ "-" ++ randomSuffix)
              userFaucetFund = some users →
            (tc.Config.PreRelayerStart env ⟨users, tc.TxCache⟩ channels
              (hist ++ [.getAndFundTestUsers
                (tc.Config.Name.replace " " "-" ++ "-" ++ randomSuffix) userFaucetFund
                true])).2.2 = .failed m →
            (preRelayerStartFunc env randomSuffix k channels testCases hist).2.2 = .goexit))
    ∧ (∀ (testCase : TestCaseState) (channels : List ChannelOutput)
        (timeout : Option IBCTimeout) (hist : Trace) (m : String),
        (sendIBCTransfersFromBothChainsWithTimeout env testCase channels timeout hist).2.2
          = .failed m →
        (sendIBCTransfersFromBothChainsWithTimeout env testCase channels timeout hist).1
          = testCase) := by
  refine ⟨?_, fun k channels testCases hist tc hk =>
      preRelayerStartFunc_setup_failure env randomSuffix k channels testCases hist tc hk,
    fun testCase channels timeout hist m h =>
      sendIBCTransfers_failed_keeps env testCase channels timeout hist m h⟩
  intro report h
  obtain ⟨channels, hist0, hpost, hcfgs, hsc⟩ :=
    TestChainPair_completed env rf relayerImpl randomSuffix pathNames tr report h
  have hrep := (postRelayerStart_report env rf channels
    (TestChainPair env rf relayerImpl randomSuffix pathNames tr).testCases hist0).1
  rw [hpost] at hrep
  refine ⟨?_, ?_⟩
  · rw [hrep, ← hcfgs, List.map_map]
    rfl
  · intro k cfg hk hm
    obtain ⟨tc, htc, hgood⟩ := hsc k cfg hk hm
    have hc : tc.Config = cfg := by
      have h1 : ((TestChainPair env rf relayerImpl randomSuffix pathNames tr).testCases.map
          (fun tc => tc.Config))[k]? = some tc.Config := by
        rw [List.getElem?_map, htc]
        rfl
      rw [hcfgs, hk] at h1
      exact (Option.some.inj h1).symm
    have hreg : cfg ∈ relayerTestCaseConfigs := by
      obtain ⟨hlt, heq⟩ := List.getElem?_eq_some_iff.mp hk
      exact heq ▸ List.getElem_mem hlt
    obtain ⟨hist, hout⟩ := postRelayerStart_outcomes env rf channels _ hist0 k tc htc
    rw [hpost] at hout
    simp only at hout
    rw [postRelayerStartSubtest_outcome env rf tc channels hist (by rw [hc]; exact hm)] at hout
    subst hc
    have hnp := Test_noPanic env tc.toTestCaseState channels
      (hist ++ [.trackTest tc.Config.Name] ++ [.trackParallel tc.Config.Name]) tc.Config hreg hgood
    refine ⟨tc, channels,
      hist ++ [.trackTest tc.Config.Name] ++ [.trackParallel tc.Config.Name], htc, rfl, hgood, ?_⟩
    cases hv : (tc.Config.Test env tc.toTestCaseState channels
      (hist ++ [.trackTest tc.Config.Name] ++ [.trackParallel tc.Config.Name])).2 with
    | passed =>
      rw [hv] at hout
      exact Or.inl ⟨rfl, hout⟩
    | failed m =>
      rw [hv] at hout
      exact Or.inr ⟨⟨m, rfl⟩, hout⟩
    | panicked m =>
      rw [hv] at hnp
      cases hnp

theorem assertion_errors_stay_in_their_scenario_witness :
    (TestChainPair (exampleEnv 9998995000 1000000 5000)
        (exampleFactory [Capability.HeightTimeout, Capability.TimestampTimeout])
        (some exampleRelayer) "abcd" ["rly-xion-osmo"] []).status
      = .completed [("relay packet", .Passed), ("no timeout", .Passed),
          ("height timeout", .Failed), ("timestamp timeout", .Failed)]
    ∧ ∃ tc channels hist,
        (TestChainPair (exampleEnv 9998995000 1000000 5000)
          (exampleFactory [Capability.HeightTimeout, Capability.TimestampTimeout])
          (some exampleRelayer) "abcd" ["rly-xion-osmo"] []).testCases[1]? = some tc
        ∧ setupComplete channels tc.toTestCaseState
        ∧ (testPacketRelaySuccess (exampleEnv 9998995000 1000000 5000) tc.toTestCaseState
            channels hist).2 = .passed := by
  have hst : (TestChainPair (exampleEnv 9998995000 1000000 5000)
      (exampleFactory [Capability.HeightTimeout, Capability.TimestampTimeout])
      (some exampleRelayer) "abcd" ["rly-xion-osmo"] []).status
      = .completed [("relay packet", .Passed), ("no timeout", .Passed),
          ("height timeout", .Failed), ("timestamp timeout", .Failed)] := by decide
  obtain ⟨tc, channels, hist, h1, h2, h3, h4⟩ :=
    ((assertion_errors_stay_in_their_scenario (exampleEnv 9998995000 1000000 5000)
      (exampleFactory [Capability.HeightTimeout, Capability.TimestampTimeout])
      (some exampleRelayer) "abcd" ["rly-xion-osmo"] []).1 _ hst).2 1 _ rfl (by decide)
  refine ⟨hst, tc, channels, hist, h1, h3, ?_⟩
  rcases h4 with ⟨hp, _⟩ | ⟨_, hf⟩
  · exact hp
  · cases hf

end IntegrationTests
